import Mathlib

/-!
# Wii U audio backend of SDL: `src/audio/wiiu/SDL_wiiuaudio.c`

A shallow embedding of the double-buffered AX audio driver.

Conventions of the embedding (the target is the 32-bit PowerPC of the Wii U):

* addresses and `uint32_t`/`Uint32` values are naturals, reduced `% 2^32`
  wherever the C code stores them in a 32-bit object;
* `int` values are integers; C division and remainder are `Int.tdiv` and
  `Int.tmod` (truncation toward zero);
* memory is a map from byte addresses to bytes;
* hardware state that the driver reads through the AX API (the voice offsets,
  the physical address of a block, the samples per hardware frame) is an
  explicit argument or field.
-/

namespace WiiU

/-! ## Constants of the driver and of the headers it includes -/

/-- Number of buffer slots in the mix region (`#define NUM_BUFFERS 2`). -/
def NUM_BUFFERS : Nat := 2

/-- Largest channel count the driver keeps (`#define WIIU_MAX_VALID_CHANNELS 2`). -/
def WIIU_MAX_VALID_CHANNELS : Int := 2

/-- Modelled from the spec: the SDL header constant `AUDIO_S16MSB` is not under
src/; the spec calls it the 16-bit big-endian format, which in the SDL headers is
the signed 16-bit big-endian sample format `0x9010`. -/
def AUDIO_S16MSB : Nat := 0x9010

/-- Modelled from the spec: the SDL header macro `SDL_AUDIO_BITSIZE` is not under
src/; it yields the bit depth of a sample format, which in the SDL headers is the
low byte of the format word (`x & 0xFF`). -/
def SDL_AUDIO_BITSIZE (x : Nat) : Nat := x &&& 0xFF

/-- Modelled from the spec: the AX header constant `AX_VOICE_FORMAT_LPCM8` is not
under src/; it tags a voice whose samples are 8-bit PCM (`0x19` in the AX headers). -/
def AX_VOICE_FORMAT_LPCM8 : Nat := 0x19

/-- Modelled from the spec: the AX header constant `AX_VOICE_FORMAT_LPCM16` is not
under src/; it tags a voice whose samples are 16-bit PCM (`0x0A` in the AX headers). -/
def AX_VOICE_FORMAT_LPCM16 : Nat := 0x0A

/-! ## Machine integers -/

/-- Value stored when an integer is converted to `uint32_t`. -/
def toU32 (x : Int) : Nat := (x % 4294967296).toNat

/-- Value stored when an integer is converted to a 32-bit signed `int`/`ptrdiff_t`. -/
def toI32 (x : Int) : Int := (x + 2147483648) % 4294967296 - 2147483648

/-! ## The audio spec -/

/-- The `SDL_AudioSpec` fields the driver touches. The channel count is a signed
integer so that every requested value, also a non-positive one, is covered; the frame
count (`samples`) and the byte size are unsigned, like the `uint32_t` hardware minimum
the frame count is compared with. -/
structure SDL_AudioSpec where
  freq : Int
  format : Nat
  channels : Int
  samples : Nat
  size : Nat
  deriving DecidableEq, Repr

/-- Modelled from the spec: the accessor `SDL_AudioSpecGetSamples` is not under
src/; it reads the frames-per-buffer field of the spec. -/
def SDL_AudioSpecGetSamples (spec : SDL_AudioSpec) : Nat := spec.samples

/-- Modelled from the spec: the accessor `SDL_AudioSpecSetSamples` is not under
src/; it writes the frames-per-buffer field of the spec. -/
def SDL_AudioSpecSetSamples (spec : SDL_AudioSpec) (n : Nat) : SDL_AudioSpec :=
  { spec with samples := n }

/-- Modelled from the spec: the accessor `SDL_AudioSpecGetBufferSize` is not under
src/; it reads the buffer size in bytes of the spec. -/
def SDL_AudioSpecGetBufferSize (spec : SDL_AudioSpec) : Nat := spec.size

/-- Modelled from the spec: `SDL_CalculateAudioSpec` is not under src/; the spec
gives `buffer_size_bytes = frames_per_buffer * channels * bytes_per_sample`. -/
def SDL_CalculateAudioSpec (spec : SDL_AudioSpec) : SDL_AudioSpec :=
  { spec with size := spec.samples * spec.channels.toNat * (SDL_AUDIO_BITSIZE spec.format / 8) }

/-! ## `WIIUAUDIO_OpenDevice`: format negotiation (lines 87-102) -/

/-- Format negotiation of `WIIUAUDIO_OpenDevice`. The second argument is the value
returned by `AXGetInputSamplesPerFrame()`. -/
def WIIUAUDIO_OpenDevice_negotiate (spec : SDL_AudioSpec)
    (AXGetInputSamplesPerFrame : Nat) : SDL_AudioSpec :=
  -- if (this->spec.channels < 1) this->spec.channels = 1;
  let spec := if spec.channels < 1 then { spec with channels := 1 } else spec
  -- if (this->spec.channels > WIIU_MAX_VALID_CHANNELS) ...
  let spec := if spec.channels > WIIU_MAX_VALID_CHANNELS
    then { spec with channels := WIIU_MAX_VALID_CHANNELS } else spec
  -- switch (SDL_AUDIO_BITSIZE(this->spec.format)) { case 8: break; case 16: default: ... }
  let spec := if SDL_AUDIO_BITSIZE spec.format = 8 then spec
    else { spec with format := AUDIO_S16MSB }
  -- if (SDL_AudioSpecGetSamples(&this->spec) < AXGetInputSamplesPerFrame()) ...
  let spec := if SDL_AudioSpecGetSamples spec < AXGetInputSamplesPerFrame
    then SDL_AudioSpecSetSamples spec AXGetInputSamplesPerFrame else spec
  SDL_CalculateAudioSpec spec

/-! ## `WIIUAUDIO_OpenDevice`: the bank test of the allocation loop (lines 105-114) -/

/-- Line 109: `physStart = OSEffectiveToPhysical((uint32_t) mixbuf) & 0x1fffffff`.
The argument is the physical address returned by `OSEffectiveToPhysical`. -/
def physStart (phys : Nat) : Nat := (phys % 4294967296) &&& 0x1fffffff

/-- Line 110: `physEnd = physStart + SDL_AudioSpecGetBufferSize(&this->spec) * NUM_BUFFERS`,
stored in a `Uint32`. The argument `total` is the total region size. -/
def physEnd (phys total : Nat) : Nat := (physStart phys + total) % 4294967296

/-- Line 111: the loop keeps the block (`break`) when `(physEnd & 0xe0000000) == 0`. -/
def bankTest (phys total : Nat) : Bool := (physEnd phys total &&& 0xe0000000) == 0

/-! ## Device state -/

/-- The fields of the AX `AXVoiceOffsets` record (declared in the AX headers): sample
format tag, loop flag, loop/end/current offsets in samples, and the data pointer. -/
structure AXVoiceOffsets where
  dataType : Nat
  loopingEnabled : Nat
  loopOffset : Nat
  endOffset : Nat
  currentOffset : Nat
  data : Nat
  deriving DecidableEq, Repr

/-- Hidden private data of the device (`struct SDL_PrivateAudioData`). The entry
`voice i` is the offsets record of the hardware voice held in `voice[i]`, which is
what `AXGetVoiceOffsets` reads and `AXSetVoiceEndOffset`/`AXSetVoiceLoopOffset`
write. `voicePtr i` is the pointer stored in `voice[i]` itself (0 for `NULL`).
`mixbufs` maps a slot index to the address of the slot. -/
structure SDL_PrivateAudioData where
  voice : Nat → AXVoiceOffsets
  voicePtr : Nat → Nat
  mixbufs : Nat → Nat
  deintvbuf : Nat
  renderingid : Int
  playingid : Int
  last_loopcount : Nat

/-- The fields of `SDL_AudioDevice` the driver touches: the spec, the atomic
`running` flag and the hidden data. -/
structure SDL_AudioDevice where
  spec : SDL_AudioSpec
  running : Int
  hidden : SDL_PrivateAudioData

/-! ## Helpers for AX-related math (lines 55-57) -/

/-- The macro `sizeof_sample(offs)`: `(offs.dataType == AX_VOICE_FORMAT_LPCM8 ? 1 : 2)`. -/
def sizeof_sample (offs : AXVoiceOffsets) : Int :=
  if offs.dataType = AX_VOICE_FORMAT_LPCM8 then 1 else 2

/-- The macro `calc_ax_offset(offs, addr)`:
`(((void*)addr - offs.data) / sizeof_sample(offs))`, a signed 32-bit pointer
difference divided with truncation toward zero. -/
def calc_ax_offset (offs : AXVoiceOffsets) (addr : Nat) : Int :=
  Int.tdiv (toI32 ((addr : Int) - (offs.data : Int))) (sizeof_sample offs)

/-- The macro `next_id(id)`: `((id + 1) % NUM_BUFFERS)`, with the C remainder. -/
def next_id (id : Int) : Int := Int.tmod (id + 1) (NUM_BUFFERS : Int)

/-- Pointer plus byte displacement on the 32-bit target. -/
def ptrAdd (p : Nat) (k : Int) : Nat := toU32 ((p : Int) + k)

/-! ## `_WIIUAUDIO_framecallback` (lines 176-207) -/

/-- Line 187: `startOffset = calc_ax_offset(offs[0], buf)` for slot `i`, stored in a
`uint32_t`. -/
def slotStartOffset (dev : SDL_AudioDevice) (i : Nat) : Nat :=
  toU32 (calc_ax_offset (dev.hidden.voice 0) (dev.hidden.mixbufs i))

/-- Line 188: `endOffset = startOffset + SDL_AudioSpecGetSamples(&cb_this->spec)`,
stored in a `uint32_t`. -/
def slotEndOffset (dev : SDL_AudioDevice) (i : Nat) : Nat :=
  (slotStartOffset dev i + SDL_AudioSpecGetSamples dev.spec) % 4294967296

/-- Line 189: the test
`offs[0].currentOffset >= startOffset && offs[0].currentOffset <= endOffset`. -/
def slotTest (dev : SDL_AudioDevice) (i : Nat) : Bool :=
  decide (slotStartOffset dev i ≤ (dev.hidden.voice 0).currentOffset) &&
  decide ((dev.hidden.voice 0).currentOffset ≤ slotEndOffset dev i)

/-- Lines 185-192: the scan `for (i = ...; i < NUM_BUFFERS; i++)` from index `i`
with `todo` iterations left; yields the value of `playing_buffer` after the loop
(`-1` when no slot matched). -/
def scanSlots (dev : SDL_AudioDevice) (i : Nat) : Nat → Int
  | 0 => -1
  | todo + 1 => if slotTest dev i then (i : Int) else scanSlots dev (i + 1) todo

/-- Lines 185-194: the slot index recorded as `playingid`. -/
def playing_buffer (dev : SDL_AudioDevice) : Int :=
  let pb := scanSlots dev 0 NUM_BUFFERS
  if pb < 0 ∨ pb ≥ (NUM_BUFFERS : Int) then 0 else pb

/-- Lines 198-199: `endaddr` for channel `i`, in a state whose `playingid` is
already recorded; `offs` is `offs[i]`. -/
def endaddr (dev : SDL_AudioDevice) (offs : AXVoiceOffsets) (i : Nat) : Nat :=
  ptrAdd (ptrAdd (dev.hidden.mixbufs dev.hidden.playingid.toNat)
    ((SDL_AudioSpecGetSamples dev.spec : Int) * sizeof_sample offs * ((i : Int) + 1))) (-2)

/-- Lines 202-204: `loopaddr` for channel `i`, in a state whose `playingid` is
already recorded; `offs` is `offs[i]`. -/
def loopaddr (dev : SDL_AudioDevice) (offs : AXVoiceOffsets) (i : Nat) : Nat :=
  if dev.hidden.renderingid ≠ next_id dev.hidden.playingid then
    ptrAdd (dev.hidden.mixbufs (next_id dev.hidden.playingid).toNat)
      ((SDL_AudioSpecGetSamples dev.spec : Int) * sizeof_sample offs * (i : Int))
  else
    ptrAdd (dev.hidden.mixbufs dev.hidden.playingid.toNat)
      ((SDL_AudioSpecGetSamples dev.spec : Int) * sizeof_sample offs * (i : Int))

/-- Lines 197-206: the body of the per-channel loop applied to voice `i`:
`AXSetVoiceEndOffset` and `AXSetVoiceLoopOffset` with `uint32_t` arguments. -/
def programVoice (dev : SDL_AudioDevice) (offs : AXVoiceOffsets) (i : Nat) : AXVoiceOffsets :=
  { offs with
    endOffset := toU32 (calc_ax_offset offs (endaddr dev offs i))
    loopOffset := toU32 (calc_ax_offset offs (loopaddr dev offs i)) }

/-- The frame callback `_WIIUAUDIO_framecallback` on the device `cb_this`: it reads
the voice offsets, records `playingid`, and reprograms the end and loop offsets of
the voices of all channels. -/
def _WIIUAUDIO_framecallback (dev : SDL_AudioDevice) : SDL_AudioDevice :=
  let offs := dev.hidden.voice
  let dev1 : SDL_AudioDevice :=
    { dev with hidden := { dev.hidden with playingid := playing_buffer dev } }
  { dev1 with hidden := { dev1.hidden with
      voice := fun i => if (i : Int) < dev1.spec.channels
        then programVoice dev1 (offs i) i else offs i } }

/-- The inclusive sample-offset range of slot `i` as the specification words it:
the current playback offset of channel 0 lies in `[slotStart, slotStart + frames]`. -/
def inSlotRange (dev : SDL_AudioDevice) (i : Nat) : Prop :=
  slotStartOffset dev i ≤ (dev.hidden.voice 0).currentOffset ∧
  (dev.hidden.voice 0).currentOffset ≤ slotStartOffset dev i + SDL_AudioSpecGetSamples dev.spec

instance (dev : SDL_AudioDevice) (i : Nat) : Decidable (inSlotRange dev i) := by
  unfold inSlotRange; infer_instance

/-- A voice record with the given format tag, current offset and data pointer. -/
def mkVoice (dataType currentOffset data : Nat) : AXVoiceOffsets :=
  { dataType := dataType, loopingEnabled := 1, loopOffset := 0, endOffset := 0,
    currentOffset := currentOffset, data := data }

/-- A sample device: mix region at `0x1000` with two slots of `size` bytes, scratch
buffer at `0x2000`, voice `i` reading from `0x1000 + i * chanBytes`, one voice handle
per channel. -/
def sampleDev (channels : Int) (format samples size dataType chanBytes cur : Nat)
    (renderingid playingid : Int) : SDL_AudioDevice :=
  { spec := { freq := 48000, format := format, channels := channels,
              samples := samples, size := size }
    running := 1
    hidden :=
      { voice := fun i => mkVoice dataType cur (0x1000 + i * chanBytes)
        voicePtr := fun i => if i < channels.toNat then 0x3000 + 0x100 * i else 0
        mixbufs := fun k => 0x1000 + size * k
        deintvbuf := 0x2000
        renderingid := renderingid
        playingid := playingid
        last_loopcount := 0 } }

/-- Address of the end of channel `i`'s data in the now-playing slot (line 198,
before two is subtracted); `offs` is `offs[i]`. -/
def channelEndAddr (dev : SDL_AudioDevice) (offs : AXVoiceOffsets) (i : Nat) : Nat :=
  ptrAdd (dev.hidden.mixbufs dev.hidden.playingid.toNat)
    ((SDL_AudioSpecGetSamples dev.spec : Int) * sizeof_sample offs * ((i : Int) + 1))

/-- Offset, in samples relative to the data pointer of `offs`, of the start of
channel `i`'s data in slot `k`, as a `uint32_t`. -/
def channelStartOffset (dev : SDL_AudioDevice) (offs : AXVoiceOffsets) (k : Int) (i : Nat) : Nat :=
  toU32 (calc_ax_offset offs (ptrAdd (dev.hidden.mixbufs k.toNat)
    ((SDL_AudioSpecGetSamples dev.spec : Int) * sizeof_sample offs * (i : Int))))

/-- Signed byte distance from the data pointer of voice `i` to the end of channel
`i`'s data in the slot that the callback records as playing. -/
def channelEndBytes (dev : SDL_AudioDevice) (i : Nat) : Int :=
  toI32 ((channelEndAddr (_WIIUAUDIO_framecallback dev) (dev.hidden.voice i) i : Int)
    - ((dev.hidden.voice i).data : Int))

/-- Offset, in samples relative to the data pointer of voice `i`, of the end of
channel `i`'s data in the slot that the callback records as playing. -/
def channelEndOffset (dev : SDL_AudioDevice) (i : Nat) : Int :=
  calc_ax_offset (dev.hidden.voice i)
    (channelEndAddr (_WIIUAUDIO_framecallback dev) (dev.hidden.voice i) i)

/-- End offset that the callback programs into voice `i`. -/
def programmedEndOffset (dev : SDL_AudioDevice) (i : Nat) : Nat :=
  ((_WIIUAUDIO_framecallback dev).hidden.voice i).endOffset

/-- Loop offset that the callback programs into voice `i`. -/
def programmedLoopOffset (dev : SDL_AudioDevice) (i : Nat) : Nat :=
  ((_WIIUAUDIO_framecallback dev).hidden.voice i).loopOffset

/-- Address at which the hardware resumes when voice `i` loops after the callback:
the data pointer of the voice plus the programmed loop offset, in samples, times the
sample size. -/
def loopTargetAddr (dev : SDL_AudioDevice) (i : Nat) : Nat :=
  (dev.hidden.voice i).data +
    programmedLoopOffset dev i * (sizeof_sample (dev.hidden.voice i)).toNat

/-- The layout that `WIIUAUDIO_OpenDevice` leaves behind: a negotiated spec (lines
87-102), a non-null mix region inside the 32-bit address space holding the slots back
to back (lines 118-124), and for every channel a voice whose format tag and data
pointer are the ones programmed at lines 156-157. -/
def Opened (dev : SDL_AudioDevice) : Prop :=
  1 ≤ dev.spec.channels ∧ dev.spec.channels ≤ 2 ∧
  (SDL_AUDIO_BITSIZE dev.spec.format = 8 ∨ SDL_AUDIO_BITSIZE dev.spec.format = 16) ∧
  dev.spec.size =
    dev.spec.samples * dev.spec.channels.toNat * (SDL_AUDIO_BITSIZE dev.spec.format / 8) ∧
  0 < dev.hidden.mixbufs 0 ∧ dev.hidden.mixbufs 0 < 4294967296 ∧
  dev.hidden.mixbufs 0 + dev.spec.size * NUM_BUFFERS ≤ 4294967296 ∧
  (∀ k, k < NUM_BUFFERS → dev.hidden.mixbufs k = dev.hidden.mixbufs 0 + dev.spec.size * k) ∧
  (∀ i, i < dev.spec.channels.toNat →
    (dev.hidden.voice i).dataType =
      (if SDL_AUDIO_BITSIZE dev.spec.format = 8 then AX_VOICE_FORMAT_LPCM8
        else AX_VOICE_FORMAT_LPCM16) ∧
    (dev.hidden.voice i).data = dev.hidden.mixbufs 0 +
      dev.spec.samples * i *
        (if (dev.hidden.voice i).dataType = AX_VOICE_FORMAT_LPCM8 then 1 else 2))

instance (dev : SDL_AudioDevice) : Decidable (Opened dev) := by
  unfold Opened; infer_instance

/-- The byte range of slot `k` of the mix region contains the address `a`. -/
def inSlot (dev : SDL_AudioDevice) (k : Nat) (a : Nat) : Prop :=
  dev.hidden.mixbufs k ≤ a ∧ a < dev.hidden.mixbufs k + SDL_AudioSpecGetBufferSize dev.spec

instance (dev : SDL_AudioDevice) (k a : Nat) : Decidable (inSlot dev k a) := by
  unfold inSlot; infer_instance

/-! ## Memory and `WIIUAUDIO_PlayDevice` (lines 210-233) -/

/-- Byte-addressed memory: the byte stored at each address. -/
abbrev Mem := Nat → Nat

/-- Memory after the `len` bytes at `src` are copied to `dst`; the source bytes are
read before any byte is written. It embeds both `SDL_memcpy` and the assignment
`deintv[k] = samples[j]` between objects of `len` bytes. -/
def copyBytes (m : Mem) (dst src len : Nat) : Mem :=
  fun a => if dst ≤ a ∧ a < dst + len then m (src + (a - dst)) else m a

/-- The call `SDL_memcpy(dst, src, len)`. -/
def SDL_memcpy (m : Mem) (dst src len : Nat) : Mem := copyBytes m dst src len

/-- The loop `for (int k = 0; k < n; k++) body`, threading the state. -/
def forLoop {σ : Type} : Nat → (Nat → σ → σ) → σ → σ
  | 0, _, init => init
  | k + 1, body, init => body k (forLoop k body init)

/-- Lines 216-218 and 223-225: the two nested loops
`deintv[samples_n * ch + i] = samples[i * channels + ch]` over elements of `w` bytes
(`w = 1` for the `Uint8` case, `w = 2` for the `Uint16` case). `samples` and `deintv`
are the addresses of the rendering slot and of the scratch buffer. -/
def deinterleave (w n c samples deintv : Nat) (m : Mem) : Mem :=
  forLoop c (fun ch m =>
    forLoop n (fun i m =>
      copyBytes m (deintv + w * (n * ch + i)) (samples + w * (i * c + ch)) w) m) m

/-- Lines 212-228: the `switch (SDL_AUDIO_BITSIZE(this->spec.format))` of
`WIIUAUDIO_PlayDevice`, which deinterleaves the rendering slot into the scratch
buffer for 8-bit and 16-bit formats and does nothing otherwise. -/
def WIIUAUDIO_PlayDevice_deinterleave (dev : SDL_AudioDevice) (m : Mem) : Mem :=
  let samples := dev.hidden.mixbufs dev.hidden.renderingid.toNat
  let deintv := dev.hidden.deintvbuf
  if SDL_AUDIO_BITSIZE dev.spec.format = 8 then
    deinterleave 1 (SDL_AudioSpecGetSamples dev.spec) dev.spec.channels.toNat samples deintv m
  else if SDL_AUDIO_BITSIZE dev.spec.format = 16 then
    deinterleave 2 (SDL_AudioSpecGetSamples dev.spec) dev.spec.channels.toNat samples deintv m
  else m

/-- The function `WIIUAUDIO_PlayDevice`: deinterleave into the scratch buffer, copy the
scratch buffer over the rendering slot, advance `renderingid` (`DCStoreRange` does not
change the memory contents). -/
def WIIUAUDIO_PlayDevice (dev : SDL_AudioDevice) (m : Mem) : SDL_AudioDevice × Mem :=
  let m1 := WIIUAUDIO_PlayDevice_deinterleave dev m
  let m2 := SDL_memcpy m1 (dev.hidden.mixbufs dev.hidden.renderingid.toNat)
    dev.hidden.deintvbuf (SDL_AudioSpecGetBufferSize dev.spec)
  ({ dev with hidden := { dev.hidden with renderingid := next_id dev.hidden.renderingid } }, m2)

/-- The sample of index `k` in an array of `w`-byte samples at address `base`: its
bytes in address order. -/
def sampleAt (w : Nat) (m : Mem) (base k : Nat) : List Nat :=
  (List.range w).map (fun b => m (base + w * k + b))

/-- Bytes per sample of the spec's format. -/
def bytesPerSample (spec : SDL_AudioSpec) : Nat := SDL_AUDIO_BITSIZE spec.format / 8

/-- The interleaved layout as the specification words it: planar sample `(ch, i)`,
which is at planar index `n * ch + i`, is placed at index `i * c + ch`. -/
def interleave {α : Type} (n c : Nat) (X : Nat → α) : Nat → α :=
  fun j => X (n * (j % c) + j / c)

/-! ## Effects on the environment and the rest of `WIIUAUDIO_OpenDevice` -/

/-- The calls into the AX library and the allocator whose order matters: each
constructor is one call made by the driver, with its pointer argument. -/
inductive Effect where
  | AXRegisterAppFrameCallback
  | AXDeregisterAppFrameCallback
  | AXFreeVoice (voice : Nat)
  | AXQuit
  | free (p : Nat)
  | SDL_free (p : Nat)
  | SDL_free_hidden
  deriving DecidableEq, Repr

/-- Modelled from the spec: `SDL_OutOfMemory` is not under src/; it surfaces the
OutOfMemory error, which in the SDL headers is the return value `-1`. -/
def SDL_OutOfMemory : Int := -1

/-- Modelled from the spec: the AX header constant `AX_VOICE_LOOP_ENABLED` is not
under src/; it enables looping of a voice (`1` in the AX headers). -/
def AX_VOICE_LOOP_ENABLED : Nat := 1

/-- What the environment answers to the calls `WIIUAUDIO_OpenDevice` makes:
whether `SDL_malloc` of the hidden data succeeds, the samples per hardware frame, the
pointer returned by the `i`-th `memalign` call (0 for `NULL`), the physical address of
an effective address, the pointer returned by `SDL_malloc` for the scratch buffer, the
voice returned by `AXAcquireVoice` for channel `i` (0 for `NULL`) and its loop count. -/
structure OpenEnv where
  hiddenAlloc : Bool
  AXGetInputSamplesPerFrame : Nat
  memalign : Nat → Nat
  OSEffectiveToPhysical : Nat → Nat
  deintvAlloc : Nat
  AXAcquireVoice : Nat → Nat
  AXGetVoiceLoopCount : Nat → Nat

/-- State at the exit of the allocation loop: the accepted block (`mixbuf`, 0 for
`NULL`), the rejected blocks in `mixbuf_allocations` in the order they were stored,
and the number of `memalign` calls made. -/
structure AllocResult where
  mixbuf : Nat
  allocations : List Nat
  attempts : Nat
  deriving DecidableEq, Repr

/-- Lines 105-114: the loop `for (int i = ...; i < 32; i++)` from attempt `i` with
`todo` iterations left and the rejected blocks stored so far. -/
def allocLoop (memalign : Nat → Nat) (OSEffectiveToPhysical : Nat → Nat) (total : Nat) :
    Nat → Nat → List Nat → AllocResult
  | i, 0, allocations => { mixbuf := 0, allocations := allocations, attempts := i }
  | i, todo + 1, allocations =>
    let mixbuf := memalign i
    -- if (!mixbuf) break;
    if mixbuf = 0 then { mixbuf := 0, allocations := allocations, attempts := i + 1 }
    -- if ((physEnd & 0xe0000000) == 0) break;
    else if bankTest (OSEffectiveToPhysical mixbuf) total then
      { mixbuf := mixbuf, allocations := allocations, attempts := i + 1 }
    -- mixbuf_allocations[mixbuf_allocation_count++] = mixbuf; mixbuf = NULL;
    else allocLoop memalign OSEffectiveToPhysical total (i + 1) todo (allocations ++ [mixbuf])

/-- Lines 105-118: the allocation loop, the release of the rejected blocks (line 116,
last stored first) and the result: the accepted block and return value 0, or no block
and the out-of-memory error. -/
def WIIUAUDIO_OpenDevice_allocate (memalign : Nat → Nat) (OSEffectiveToPhysical : Nat → Nat)
    (total : Nat) : Int × AllocResult × List Effect :=
  let a := allocLoop memalign OSEffectiveToPhysical total 0 32 []
  let freed := a.allocations.reverse.map Effect.SDL_free
  (if a.mixbuf = 0 then SDL_OutOfMemory else 0, a, freed)

/-- The hidden data after `SDL_zerop(this->hidden)`. -/
def zeroHidden : SDL_PrivateAudioData :=
  { voice := fun _ => { dataType := 0, loopingEnabled := 0, loopOffset := 0, endOffset := 0,
                        currentOffset := 0, data := 0 }
    voicePtr := fun _ => 0
    mixbufs := fun _ => 0
    deintvbuf := 0
    renderingid := 0
    playingid := 0
    last_loopcount := 0 }

/-- Lines 152-157: the offsets record programmed into the voice of channel `i`. -/
def openOffsets (spec : SDL_AudioSpec) (mixbufs0 : Nat) (i : Nat) : AXVoiceOffsets :=
  let dataType := if SDL_AUDIO_BITSIZE spec.format = 8 then AX_VOICE_FORMAT_LPCM8
    else AX_VOICE_FORMAT_LPCM16
  { loopingEnabled := AX_VOICE_LOOP_ENABLED
    currentOffset := 0
    loopOffset := 0
    endOffset := SDL_AudioSpecGetSamples spec
    dataType := dataType
    data := ptrAdd mixbufs0 ((SDL_AudioSpecGetSamples spec : Int) * (i : Int) *
      (if dataType = AX_VOICE_FORMAT_LPCM8 then 1 else 2)) }

/-- Lines 129-165: the loop `for (int i = ...; i < this->spec.channels; i++)` from
channel `i` with `todo` iterations left. It yields `false` when `AXAcquireVoice` returned
`NULL` (the `goto end` of line 131, after `AXQuit()`), `true` when the loop ran to its
end, and the hidden data at that point. -/
def acquireLoop (env : OpenEnv) (spec : SDL_AudioSpec) :
    Nat → Nat → SDL_PrivateAudioData → Bool × SDL_PrivateAudioData
  | _, 0, hidden => (true, hidden)
  | i, todo + 1, hidden =>
    -- this->hidden->voice[i] = AXAcquireVoice(31, NULL, NULL);
    let hidden := { hidden with
      voicePtr := fun j => if j = i then env.AXAcquireVoice i else hidden.voicePtr j }
    -- if (!this->hidden->voice[i]) { AXQuit(); ret = SDL_OutOfMemory(); goto end; }
    if env.AXAcquireVoice i = 0 then (false, hidden)
    else
      acquireLoop env spec (i + 1) todo { hidden with
        voice := fun j => if j = i then openOffsets spec (hidden.mixbufs 0) i else hidden.voice j
        last_loopcount := env.AXGetVoiceLoopCount i
        playingid := 0
        renderingid := 1 }

/-- Result of `WIIUAUDIO_OpenDevice`: the return value, the device, the memory and
the calls made, in order. -/
structure OpenResult where
  ret : Int
  dev : SDL_AudioDevice
  mem : Mem
  effects : List Effect

/-- Memory after `SDL_memset(p, 0, len)`. -/
def zeroBytes (m : Mem) (p len : Nat) : Mem :=
  fun a => if p ≤ a ∧ a < p + len then 0 else m a

/-- The function `WIIUAUDIO_OpenDevice` (thread affinity, `AXInitWithParams` and the
volume, mix and rate settings of the voices do not touch the modelled state). -/
def WIIUAUDIO_OpenDevice (env : OpenEnv) (dev : SDL_AudioDevice) (m : Mem) : OpenResult :=
  -- if (!this->hidden) return SDL_OutOfMemory();
  if env.hiddenAlloc = false then
    { ret := SDL_OutOfMemory, dev := dev, mem := m, effects := [] }
  else
    let spec := WIIUAUDIO_OpenDevice_negotiate dev.spec env.AXGetInputSamplesPerFrame
    let total := SDL_AudioSpecGetBufferSize spec * NUM_BUFFERS
    let alloc := WIIUAUDIO_OpenDevice_allocate env.memalign env.OSEffectiveToPhysical total
    let mixbuf := alloc.2.1.mixbuf
    -- if (!mixbuf) { ret = SDL_OutOfMemory(); goto end; }
    if mixbuf = 0 then
      { ret := SDL_OutOfMemory, dev := { dev with spec := spec, hidden := zeroHidden },
        mem := m, effects := alloc.2.2 }
    else
      let m1 := zeroBytes m mixbuf total
      let hidden1 := { zeroHidden with
        mixbufs := fun i => if i < NUM_BUFFERS
          then ptrAdd mixbuf ((SDL_AudioSpecGetBufferSize spec : Int) * (i : Int)) else 0
        deintvbuf := env.deintvAlloc }
      -- if (!this->hidden->deintvbuf) { AXQuit(); ret = SDL_OutOfMemory(); goto end; }
      if env.deintvAlloc = 0 then
        { ret := SDL_OutOfMemory, dev := { dev with spec := spec, hidden := hidden1 },
          mem := m1, effects := alloc.2.2 ++ [Effect.AXQuit] }
      else
        let acq := acquireLoop env spec 0 spec.channels.toNat hidden1
        if acq.1 = false then
          { ret := SDL_OutOfMemory, dev := { dev with spec := spec, hidden := acq.2 },
            mem := m1, effects := alloc.2.2 ++ [Effect.AXQuit] }
        else
          { ret := 0, dev := { dev with spec := spec, hidden := acq.2 },
            mem := m1, effects := alloc.2.2 ++ [Effect.AXRegisterAppFrameCallback] }

/-! ## `WIIUAUDIO_GetDeviceBuf` and `WIIUAUDIO_CloseDevice` (lines 243-265) -/

/-- The function `WIIUAUDIO_GetDeviceBuf`: the device after the call, the returned
pointer, and the value stored through `size` when that pointer is not `NULL`
(`sizeGiven`). -/
def WIIUAUDIO_GetDeviceBuf (dev : SDL_AudioDevice) (sizeGiven : Bool) :
    SDL_AudioDevice × Nat × Option Nat :=
  (dev, dev.hidden.mixbufs dev.hidden.renderingid.toNat,
    if sizeGiven then some (SDL_AudioSpecGetBufferSize dev.spec) else none)

/-- Lines 254-259: the loop over the `SIZEOF_ARR(this->hidden->voice) = 6` entries of
the voice table: every non-null entry is freed and set to `NULL`. The state is the
table and the calls made so far. -/
def freeVoices (voicePtr : Nat → Nat) (effects : List Effect) : (Nat → Nat) × List Effect :=
  forLoop 6 (fun i st =>
    if st.1 i ≠ 0 then
      ((fun j => if j = i then 0 else st.1 j), st.2 ++ [Effect.AXFreeVoice (st.1 i)])
    else st) (voicePtr, effects)

/-- The function `WIIUAUDIO_CloseDevice`; `AXIsInit` is the answer of `AXIsInit()`.
It yields the voice table as it is when the hidden data is freed and the calls made,
in order. -/
def WIIUAUDIO_CloseDevice (dev : SDL_AudioDevice) (AXIsInit : Bool) :
    (Nat → Nat) × List Effect :=
  let st := if AXIsInit then
      let fv := freeVoices dev.hidden.voicePtr [Effect.AXDeregisterAppFrameCallback]
      (fv.1, fv.2 ++ [Effect.AXQuit])
    else (dev.hidden.voicePtr, [])
  let e1 := if dev.hidden.mixbufs 0 ≠ 0 then st.2 ++ [Effect.free (dev.hidden.mixbufs 0)] else st.2
  let e2 := if dev.hidden.deintvbuf ≠ 0 then e1 ++ [Effect.SDL_free dev.hidden.deintvbuf] else e1
  (st.1, e2 ++ [Effect.SDL_free_hidden])

/-! ## `WIIUAUDIO_WaitDevice` (lines 236-240) -/

/-- What the other execution contexts have written when the wait loop polls again
after a sleep: the `running` flag and the `playingid` recorded by the frame callback. -/
structure Poll where
  running : Int
  playingid : Int
  deriving DecidableEq, Repr

/-- The device as the wait loop sees it at a poll after the given writes. -/
def applyPoll (dev : SDL_AudioDevice) (u : Poll) : SDL_AudioDevice :=
  { dev with running := u.running, hidden := { dev.hidden with playingid := u.playingid } }

/-- The loop condition of `WIIUAUDIO_WaitDevice`:
`SDL_AtomicGet(&this->running) && this->hidden->renderingid == this->hidden->playingid`. -/
def waitCond (dev : SDL_AudioDevice) : Bool :=
  decide (dev.running ≠ 0) && decide (dev.hidden.renderingid = dev.hidden.playingid)

/-- The function `WIIUAUDIO_WaitDevice`, run against the sequence of writes seen at
the successive polls (poll 0 reads the device as it is on entry, poll `j + 1` reads it
after `updates[j]`). It yields the number of `OSSleepTicks` calls made and the device
at the poll where the loop exits, or `none` when the loop is still sleeping after the
last poll of the sequence. -/
def WIIUAUDIO_WaitDevice (dev : SDL_AudioDevice) : List Poll → Option (Nat × SDL_AudioDevice)
  | [] => if waitCond dev then none else some (0, dev)
  | u :: rest =>
    if waitCond dev then
      (WIIUAUDIO_WaitDevice (applyPoll dev u) rest).map (fun r => (r.1 + 1, r.2))
    else some (0, dev)

/-- The device as the wait loop sees it at poll `j`. -/
def pollState (dev : SDL_AudioDevice) (updates : List Poll) (j : Nat) : SDL_AudioDevice :=
  (updates.take j).foldl applyPoll dev

/-- A stereo 16-bit sample device with 4 frames per buffer (slots of 16 bytes at
`0x1000` and `0x1010`), playback offset 0, rendering slot 1. -/
def stereoDev : SDL_AudioDevice := sampleDev 2 0x9010 4 16 AX_VOICE_FORMAT_LPCM16 8 0 1 0

/-- A sample memory content. -/
def sampleMem : Mem := fun a => (7 * a + 3) % 256

/-- The planar array whose interleaving is the content of slot 1 of `stereoDev` in
`sampleMem`. -/
def samplePlanar : Nat → List Nat :=
  fun k => sampleAt 2 sampleMem 0x1010 ((k % 4) * 2 + k / 4)

/-- A device on which the producer has to wait: `renderingid = playingid = 1`. -/
def waitingDev : SDL_AudioDevice := sampleDev 2 0x9010 4 16 AX_VOICE_FORMAT_LPCM16 8 0 1 1

/-- Attempt `j` of the allocation loop returns a block that fails the bank test. -/
def blockRejected (memalign : Nat → Nat) (OSEffectiveToPhysical : Nat → Nat) (total j : Nat) :
    Prop :=
  memalign j ≠ 0 ∧ bankTest (OSEffectiveToPhysical (memalign j)) total = false

instance (memalign : Nat → Nat) (phys : Nat → Nat) (total j : Nat) :
    Decidable (blockRejected memalign phys total j) := by
  unfold blockRejected; infer_instance

/-- Attempt `j` of the allocation loop returns a block that passes the bank test. -/
def blockAccepted (memalign : Nat → Nat) (OSEffectiveToPhysical : Nat → Nat) (total j : Nat) :
    Prop :=
  memalign j ≠ 0 ∧ bankTest (OSEffectiveToPhysical (memalign j)) total = true

instance (memalign : Nat → Nat) (phys : Nat → Nat) (total j : Nat) :
    Decidable (blockAccepted memalign phys total j) := by
  unfold blockAccepted; infer_instance

/-- The `SDL_free` calls that release the blocks of attempts `0..k-1`, last first. -/
def releaseCalls (memalign : Nat → Nat) (k : Nat) : List Effect :=
  ((List.range k).map memalign).reverse.map Effect.SDL_free

/-- An allocator whose third block is the first to pass the bank test. -/
def sampleMemalign : Nat → Nat := fun i => if i < 2 then 0x1fffff00 + 0x40 * i else 0x10000000

/-- The non-null pointers among the entries `0..k-1` of a voice table, in index order. -/
def heldVoices (voicePtr : Nat → Nat) (k : Nat) : List Nat :=
  ((List.range k).filter (fun i => voicePtr i != 0)).map voicePtr

/-- The calls of `WIIUAUDIO_CloseDevice` that release the buffers and the hidden data
(lines 262-264). -/
def bufferFrees (dev : SDL_AudioDevice) : List Effect :=
  (if dev.hidden.mixbufs 0 ≠ 0 then [Effect.free (dev.hidden.mixbufs 0)] else []) ++
  (if dev.hidden.deintvbuf ≠ 0 then [Effect.SDL_free dev.hidden.deintvbuf] else []) ++
  [Effect.SDL_free_hidden]

/-- The call frees a voice. -/
def Effect.isVoiceFree : Effect → Bool
  | Effect.AXFreeVoice _ => true
  | _ => false

/-- The call frees a buffer or the hidden data. -/
def Effect.isBufferFree : Effect → Bool
  | Effect.free _ => true
  | Effect.SDL_free _ => true
  | Effect.SDL_free_hidden => true
  | _ => false

/-- An environment in which every allocation succeeds and `AXAcquireVoice` returns a
voice for channel 0 and `NULL` afterwards. -/
def secondVoiceFails : OpenEnv :=
  { hiddenAlloc := true
    AXGetInputSamplesPerFrame := 96
    memalign := fun _ => 0x10000000
    OSEffectiveToPhysical := fun a => a + 0x40000000
    deintvAlloc := 0x18000000
    AXAcquireVoice := fun i => if i = 0 then 0x30000000 else 0
    AXGetVoiceLoopCount := fun _ => 0 }

/-- The total size passed to `memalign` by `WIIUAUDIO_OpenDevice`:
`SDL_AudioSpecGetBufferSize(&this->spec) * NUM_BUFFERS` for the negotiated spec. -/
def openTotal (env : OpenEnv) (dev : SDL_AudioDevice) : Nat :=
  SDL_AudioSpecGetBufferSize
    (WIIUAUDIO_OpenDevice_negotiate dev.spec env.AXGetInputSamplesPerFrame) * NUM_BUFFERS

/-- The outcome of the allocation loop inside `WIIUAUDIO_OpenDevice`. -/
def openAlloc (env : OpenEnv) (dev : SDL_AudioDevice) : Int × AllocResult × List Effect :=
  WIIUAUDIO_OpenDevice_allocate env.memalign env.OSEffectiveToPhysical (openTotal env dev)

/-! ## Joystick device map: `src/joystick/wiiu/SDL_wiiujoystick.c` (lines 41-140)

The header `SDL_wiiujoystick.h` is not under src/: the constants `MAX_CONTROLLERS` and
`WIIU_DEVICE_INVALID` it defines are parameters of the definitions below. -/

/-- The two file-scope arrays `deviceMap[MAX_CONTROLLERS]` (index to device) and
`instanceMap[MAX_CONTROLLERS]` (index to instance id). -/
structure JoystickMaps where
  deviceMap : Nat → Int
  instanceMap : Nat → Int

/-- The loop of `WIIU_GetIndexForDevice` from index `i` with `todo` iterations left:
the first index whose entry is `wiiu_device`, or `-1`. -/
def scanDevice (deviceMap : Nat → Int) (wiiu_device : Int) : Nat → Nat → Int
  | _, 0 => -1
  | i, todo + 1 =>
    if deviceMap i = wiiu_device then (i : Int)
    else scanDevice deviceMap wiiu_device (i + 1) todo

/-- The function `WIIU_GetIndexForDevice` (lines 71-76). -/
def WIIU_GetIndexForDevice (MAX_CONTROLLERS : Nat) (maps : JoystickMaps) (wiiu_device : Int) :
    Int :=
  scanDevice maps.deviceMap wiiu_device 0 MAX_CONTROLLERS

/-- The function `WIIU_GetNextDeviceIndex` (lines 77-79). -/
def WIIU_GetNextDeviceIndex (MAX_CONTROLLERS : Nat) (WIIU_DEVICE_INVALID : Int)
    (maps : JoystickMaps) : Int :=
  WIIU_GetIndexForDevice MAX_CONTROLLERS maps WIIU_DEVICE_INVALID

/-- The function `WIIU_JoystickGetCount` (lines 136-140, "Return count (next free
index)"). -/
def WIIU_JoystickGetCount (MAX_CONTROLLERS : Nat) (WIIU_DEVICE_INVALID : Int)
    (maps : JoystickMaps) : Int :=
  WIIU_GetNextDeviceIndex MAX_CONTROLLERS WIIU_DEVICE_INVALID maps

/-- Lines 100-106: the body of the loop of `WIIU_RemoveDevice` at index `i`. -/
def removeStep (MAX_CONTROLLERS : Nat) (WIIU_DEVICE_INVALID : Int) (i : Nat)
    (maps : JoystickMaps) : JoystickMaps :=
  if i + 1 < MAX_CONTROLLERS then
    { deviceMap := fun j => if j = i then maps.deviceMap (i + 1) else maps.deviceMap j
      instanceMap := fun j => if j = i then maps.instanceMap (i + 1) else maps.instanceMap j }
  else
    { deviceMap := fun j => if j = i then WIIU_DEVICE_INVALID else maps.deviceMap j
      instanceMap := fun j => if j = i then -1 else maps.instanceMap j }

/-- The function `WIIU_RemoveDevice` (lines 95-108): the loop runs over
`i = device_index, ..., MAX_CONTROLLERS - 1`. -/
def WIIU_RemoveDevice (MAX_CONTROLLERS : Nat) (WIIU_DEVICE_INVALID : Int)
    (maps : JoystickMaps) (wiiu_device : Int) : JoystickMaps :=
  let device_index := WIIU_GetIndexForDevice MAX_CONTROLLERS maps wiiu_device
  if device_index = -1 then maps
  else
    forLoop (MAX_CONTROLLERS - device_index.toNat)
      (fun k st => removeStep MAX_CONTROLLERS WIIU_DEVICE_INVALID (device_index.toNat + k) st)
      maps

/-- Number of entries of the device map that are not `WIIU_DEVICE_INVALID`. -/
def validCount (MAX_CONTROLLERS : Nat) (WIIU_DEVICE_INVALID : Int) (maps : JoystickMaps) : Nat :=
  ((List.range MAX_CONTROLLERS).filter (fun i => maps.deviceMap i != WIIU_DEVICE_INVALID)).length

/-- The device map holds valid entries at the indices below `fill` and
`WIIU_DEVICE_INVALID` from `fill` on: all valid entries precede all invalid ones. -/
def filledTo (MAX_CONTROLLERS : Nat) (WIIU_DEVICE_INVALID : Int) (maps : JoystickMaps)
    (fill : Nat) : Prop :=
  fill ≤ MAX_CONTROLLERS ∧
  (∀ i, i < fill → maps.deviceMap i ≠ WIIU_DEVICE_INVALID) ∧
  (∀ i, i < MAX_CONTROLLERS → fill ≤ i → maps.deviceMap i = WIIU_DEVICE_INVALID)

instance (N : Nat) (inv : Int) (maps : JoystickMaps) (fill : Nat) :
    Decidable (filledTo N inv maps fill) := by
  unfold filledTo; infer_instance

/-- A device map with the given number of valid entries `0, 1, ...` (instance ids
`100, 101, ...`) followed by `-1` entries. -/
def sampleMaps (fill : Nat) : JoystickMaps :=
  { deviceMap := fun i => if i < fill then (i : Int) else -1
    instanceMap := fun i => if i < fill then (100 + i : Int) else -1 }

/-- The maps after the entries of indices `idx, ..., idx + k - 1` took the value of
their right neighbour (or `WIIU_DEVICE_INVALID` and `-1` at the last index). -/
def shiftedUpTo (MAX_CONTROLLERS : Nat) (WIIU_DEVICE_INVALID : Int) (idx k : Nat)
    (maps : JoystickMaps) : JoystickMaps :=
  { deviceMap := fun j =>
      if idx ≤ j ∧ j < idx + k then
        (if j + 1 < MAX_CONTROLLERS then maps.deviceMap (j + 1) else WIIU_DEVICE_INVALID)
      else maps.deviceMap j
    instanceMap := fun j =>
      if idx ≤ j ∧ j < idx + k then
        (if j + 1 < MAX_CONTROLLERS then maps.instanceMap (j + 1) else -1)
      else maps.instanceMap j }

/-- Both slot indices of the device lie in `[0, NUM_BUFFERS)`. -/
def slotIndexInv (dev : SDL_AudioDevice) : Prop :=
  (0 ≤ dev.hidden.playingid ∧ dev.hidden.playingid < (NUM_BUFFERS : Int)) ∧
  (0 ≤ dev.hidden.renderingid ∧ dev.hidden.renderingid < (NUM_BUFFERS : Int))

instance (dev : SDL_AudioDevice) : Decidable (slotIndexInv dev) := by
  unfold slotIndexInv; infer_instance

/-- The hidden data of `WIIUAUDIO_OpenDevice` when the voice loop starts (after lines
123-126). -/
def openHidden (env : OpenEnv) (dev : SDL_AudioDevice) : SDL_PrivateAudioData :=
  { zeroHidden with
    mixbufs := fun i => if i < NUM_BUFFERS
      then ptrAdd (openAlloc env dev).2.1.mixbuf
        ((SDL_AudioSpecGetBufferSize
          (WIIUAUDIO_OpenDevice_negotiate dev.spec env.AXGetInputSamplesPerFrame) : Int) *
            (i : Int)) else 0
    deintvbuf := env.deintvAlloc }

/-- The outcome of the voice loop inside `WIIUAUDIO_OpenDevice`. -/
def openAcquire (env : OpenEnv) (dev : SDL_AudioDevice) : Bool × SDL_PrivateAudioData :=
  acquireLoop env (WIIUAUDIO_OpenDevice_negotiate dev.spec env.AXGetInputSamplesPerFrame) 0
    (WIIUAUDIO_OpenDevice_negotiate dev.spec env.AXGetInputSamplesPerFrame).channels.toNat
    (openHidden env dev)

/-- An environment in which every allocation and every voice acquisition succeeds. -/
def allSucceed : OpenEnv :=
  { hiddenAlloc := true
    AXGetInputSamplesPerFrame := 96
    memalign := fun _ => 0x10000000
    OSEffectiveToPhysical := fun a => a + 0x40000000
    deintvAlloc := 0x18000000
    AXAcquireVoice := fun i => 0x30000000 + 0x100 * i
    AXGetVoiceLoopCount := fun _ => 0 }

/-- The slot whose start the callback programs as loop target (lines 202-204): the
successor of the slot recorded as playing when the producer is not rendering it, the
playing slot otherwise. -/
def loopTargetSlot (dev : SDL_AudioDevice) : Nat :=
  if dev.hidden.renderingid ≠ next_id (playing_buffer dev)
  then (next_id (playing_buffer dev)).toNat else (playing_buffer dev).toNat

/-- The end offset as a function of the playing slot index, the frames per buffer, the
channel count and the sample size only. -/
def endOffsetValue (playingid : Int) (frames channels sampleSize : Nat) : Nat :=
  toU32 (Int.tdiv (toI32 ((frames : Int) * (channels : Int) * (sampleSize : Int) * playingid +
    (frames : Int) * (sampleSize : Int) - 2)) (sampleSize : Int))

/-! ## Bit-mask lemmas -/

theorem and_shiftLeft_mask (x m k : Nat) :
    x &&& (m <<< k) = ((x >>> k) &&& m) <<< k := by
  apply Nat.eq_of_testBit_eq
  intro j
  simp only [Nat.testBit_and, Nat.testBit_shiftLeft, Nat.testBit_shiftRight]
  by_cases h : k ≤ j
  · have : k + (j - k) = j := by omega
    simp [h, this]
  · simp [h]

theorem and_bank_mask (x : Nat) (hx : x < 4294967296) :
    x &&& 0xe0000000 = (x / 536870912) * 536870912 := by
  have h1 : (0xe0000000 : Nat) = 7 <<< 29 := by decide
  rw [h1, and_shiftLeft_mask]
  have h2 : (7 : Nat) = 2 ^ 3 - 1 := by decide
  rw [h2, Nat.and_pow_two_sub_one_eq_mod, Nat.shiftRight_eq_div_pow, Nat.shiftLeft_eq]
  have h3 : x / 2 ^ 29 < 2 ^ 3 := by
    have : x / 2 ^ 29 < 8 := by
      norm_num
      omega
    simpa using this
  rw [Nat.mod_eq_of_lt h3]
  norm_num

theorem and_low_mask (x : Nat) : x &&& 0x1fffffff = x % 536870912 := by
  have h2 : (0x1fffffff : Nat) = 2 ^ 29 - 1 := by decide
  rw [h2, Nat.and_pow_two_sub_one_eq_mod]

/-! ## Theorems -/

/-- C1: whatever spec is requested and whatever the hardware minimum frame count is,
the negotiated spec has between 1 and 2 channels, a sample format of bit size 8 or
16, and at least the hardware minimum of frames per buffer. -/
theorem C1_negotiate_valid (spec : SDL_AudioSpec) (hwmin : Nat) :
    1 ≤ (WIIUAUDIO_OpenDevice_negotiate spec hwmin).channels ∧
    (WIIUAUDIO_OpenDevice_negotiate spec hwmin).channels ≤ 2 ∧
    (SDL_AUDIO_BITSIZE (WIIUAUDIO_OpenDevice_negotiate spec hwmin).format = 8 ∨
      SDL_AUDIO_BITSIZE (WIIUAUDIO_OpenDevice_negotiate spec hwmin).format = 16) ∧
    hwmin ≤ SDL_AudioSpecGetSamples (WIIUAUDIO_OpenDevice_negotiate spec hwmin) := by
  have hs16 : SDL_AUDIO_BITSIZE AUDIO_S16MSB = 16 := by decide
  simp only [WIIUAUDIO_OpenDevice_negotiate, SDL_CalculateAudioSpec, SDL_AudioSpecGetSamples,
    SDL_AudioSpecSetSamples, WIIU_MAX_VALID_CHANNELS]
  refine ⟨?_, ?_, ?_, ?_⟩
  · split_ifs <;> simp_all
  · split_ifs <;> simp_all
  · split_ifs <;> simp_all
  · split_ifs <;> simp_all

/-- C2: with 32-bit unsigned arithmetic, a block that the bank test of the allocation
loop accepts has the same bits under the mask `0xe0000000` at its physical start and
at its physical end (start plus total size), both for the start as the code computes
it (`physStart`, `physEnd`) and for the raw physical address of the block. -/
theorem C2_bankTest_same_bank (phys total : Nat) (h : bankTest phys total = true) :
    physStart phys &&& 0xe0000000 = physEnd phys total &&& 0xe0000000 ∧
    (phys % 4294967296) &&& 0xe0000000 =
      ((phys % 4294967296 + total) % 4294967296) &&& 0xe0000000 := by
  have hp : phys % 4294967296 < 4294967296 := Nat.mod_lt _ (by decide)
  have he : (physStart phys + total) % 4294967296 < 4294967296 := Nat.mod_lt _ (by decide)
  have hq : (phys % 4294967296 + total) % 4294967296 < 4294967296 := Nat.mod_lt _ (by decide)
  have hs : physStart phys < 4294967296 := by
    unfold physStart
    rw [and_low_mask]
    omega
  unfold bankTest physEnd at h
  simp only [beq_iff_eq] at h
  rw [and_bank_mask _ he] at h
  unfold physEnd
  rw [and_bank_mask _ hs, and_bank_mask _ he, and_bank_mask _ hp, and_bank_mask _ hq]
  unfold physStart at *
  rw [and_low_mask] at *
  omega

/-- Witness of C2_bankTest_same_bank: a block at physical address `0x50001000` with a
region of `0x2000` bytes is accepted. -/
theorem C2_bankTest_same_bank_witness :
    bankTest 0x50001000 0x2000 = true ∧
    (physStart 0x50001000 &&& 0xe0000000 = physEnd 0x50001000 0x2000 &&& 0xe0000000 ∧
    (0x50001000 % 4294967296) &&& 0xe0000000 =
      ((0x50001000 % 4294967296 + 0x2000) % 4294967296) &&& 0xe0000000) :=
  ⟨by decide, C2_bankTest_same_bank 0x50001000 0x2000 (by decide)⟩

/-- Counterexample to C3 as stated: mono 8-bit device with 4 frames per buffer, the
current offset 4 lies in the inclusive range of slot 1 (`[4, 8]`) but the callback
records slot 0, whose range `[0, 4]` contains it too and is tested first. -/
theorem C3_counterexample :
    inSlotRange (sampleDev 1 0x0008 4 4 AX_VOICE_FORMAT_LPCM8 4 4 1 1) 1 ∧
    (_WIIUAUDIO_framecallback
      (sampleDev 1 0x0008 4 4 AX_VOICE_FORMAT_LPCM8 4 4 1 1)).hidden.playingid ≠ 1 := by
  decide

/-! ### Machine-integer lemmas -/

theorem toU32_toI32 (x : Int) : toU32 (toI32 x) = toU32 x := by
  unfold toU32 toI32
  omega

theorem toU32_sub_toU32 (x y : Int) : toU32 ((toU32 x : Int) - y) = toU32 (x - y) := by
  unfold toU32
  omega

theorem toI32_toU32_sub (x y : Int) : toI32 ((toU32 x : Int) - y) = toI32 (x - y) := by
  unfold toU32 toI32
  omega

theorem framecallback_playingid (dev : SDL_AudioDevice) :
    (_WIIUAUDIO_framecallback dev).hidden.playingid = playing_buffer dev := rfl

theorem framecallback_renderingid (dev : SDL_AudioDevice) :
    (_WIIUAUDIO_framecallback dev).hidden.renderingid = dev.hidden.renderingid := rfl

theorem framecallback_mixbufs (dev : SDL_AudioDevice) :
    (_WIIUAUDIO_framecallback dev).hidden.mixbufs = dev.hidden.mixbufs := rfl

theorem framecallback_spec (dev : SDL_AudioDevice) :
    (_WIIUAUDIO_framecallback dev).spec = dev.spec := rfl

theorem framecallback_voice (dev : SDL_AudioDevice) (i : Nat) (hi : (i : Int) < dev.spec.channels) :
    (_WIIUAUDIO_framecallback dev).hidden.voice i =
      programVoice { dev with hidden := { dev.hidden with playingid := playing_buffer dev } }
        (dev.hidden.voice i) i := by
  simp [_WIIUAUDIO_framecallback, hi]

theorem slotTest_of_inSlotRange (dev : SDL_AudioDevice) (i : Nat) (h : inSlotRange dev i)
    (hnw : slotStartOffset dev i + SDL_AudioSpecGetSamples dev.spec < 4294967296) :
    slotTest dev i = true := by
  unfold inSlotRange at h
  simp only [slotTest, slotEndOffset, Bool.and_eq_true, decide_eq_true_eq]
  rw [Nat.mod_eq_of_lt hnw]
  exact h

theorem inSlotRange_of_slotTest (dev : SDL_AudioDevice) (i : Nat) (h : slotTest dev i = true) :
    inSlotRange dev i := by
  simp only [slotTest, slotEndOffset, Bool.and_eq_true, decide_eq_true_eq] at h
  refine ⟨h.1, le_trans h.2 (Nat.mod_le _ _)⟩

/-- C3 (amended): for a slot index `i < NUM_BUFFERS`, when the current playback offset
of channel 0 lies in the inclusive range `[slotStart_i, slotStart_i + frames]` (whose
end does not exceed the 32-bit range) and in the range of no slot of lower index, the
callback records `playingid = i`: the first matching slot wins. -/
theorem C3_first_matching_slot (dev : SDL_AudioDevice) (i : Nat) (hi : i < NUM_BUFFERS)
    (hin : inSlotRange dev i)
    (hnw : slotStartOffset dev i + SDL_AudioSpecGetSamples dev.spec < 4294967296)
    (hfirst : ∀ j, j < i → ¬ inSlotRange dev j) :
    (_WIIUAUDIO_framecallback dev).hidden.playingid = (i : Int) := by
  rw [framecallback_playingid]
  have ht := slotTest_of_inSlotRange dev i hin hnw
  unfold NUM_BUFFERS at hi
  have hcases : i = 0 ∨ i = 1 := by omega
  rcases hcases with rfl | rfl
  · simp [playing_buffer, scanSlots, NUM_BUFFERS, ht]
  · have h0 : slotTest dev 0 = false := by
      cases h : slotTest dev 0
      · rfl
      · exact absurd (inSlotRange_of_slotTest dev 0 h) (hfirst 0 (by decide))
    simp [playing_buffer, scanSlots, NUM_BUFFERS, ht, h0]

/-- Witness of C3_first_matching_slot: stereo 16-bit device with 4 frames per buffer,
the current offset 9 lies in the range of slot 1 only. -/
theorem C3_first_matching_slot_witness :
    (1 < NUM_BUFFERS ∧ inSlotRange (sampleDev 2 0x9010 4 16 AX_VOICE_FORMAT_LPCM16 8 9 0 0) 1) ∧
    (_WIIUAUDIO_framecallback
      (sampleDev 2 0x9010 4 16 AX_VOICE_FORMAT_LPCM16 8 9 0 0)).hidden.playingid = ((1 : Nat) : Int) :=
  ⟨by decide, C3_first_matching_slot (sampleDev 2 0x9010 4 16 AX_VOICE_FORMAT_LPCM16 8 9 0 0) 1
    (by decide) (by decide) (by decide) (by decide)⟩

/-- Counterexample to C4 as stated: mono 16-bit device with 4 frames per buffer playing
slot 0. The end of the channel data is at sample offset 4, two samples before it is
offset 2, but the callback programs end offset 3 (two bytes, one sample, before). -/
theorem C4_counterexample :
    ((0 : Nat) : Int) < (sampleDev 1 0x9010 4 8 AX_VOICE_FORMAT_LPCM16 8 0 1 0).spec.channels ∧
    channelEndOffset (sampleDev 1 0x9010 4 8 AX_VOICE_FORMAT_LPCM16 8 0 1 0) 0 = 4 ∧
    programmedEndOffset (sampleDev 1 0x9010 4 8 AX_VOICE_FORMAT_LPCM16 8 0 1 0) 0 = 3 ∧
    (programmedEndOffset (sampleDev 1 0x9010 4 8 AX_VOICE_FORMAT_LPCM16 8 0 1 0) 0 : Int) ≠
      channelEndOffset (sampleDev 1 0x9010 4 8 AX_VOICE_FORMAT_LPCM16 8 0 1 0) 0 - 2 := by
  decide

/-- C4 (amended): for every channel `i < channels` the end offset programmed into
voice `i` is the sample offset, relative to the voice's data pointer, of the address
two bytes before the end of channel `i`'s data in the now-playing slot. For an 8-bit
voice that is the offset of the end of the channel data minus two samples (modulo
`2^32`); for a 16-bit voice whose channel data ends at least two bytes past the data
pointer it is the offset of the end of the channel data minus one sample. -/
theorem C4_end_offset (dev : SDL_AudioDevice) (i : Nat) (hi : (i : Int) < dev.spec.channels) :
    ((dev.hidden.voice i).dataType = AX_VOICE_FORMAT_LPCM8 →
      programmedEndOffset dev i = toU32 (channelEndOffset dev i - 2)) ∧
    ((dev.hidden.voice i).dataType ≠ AX_VOICE_FORMAT_LPCM8 → 2 ≤ channelEndBytes dev i →
      (programmedEndOffset dev i : Int) = channelEndOffset dev i - 1) := by
  unfold programmedEndOffset channelEndOffset channelEndBytes
  rw [framecallback_voice dev i hi]
  constructor
  · intro h8
    simp only [programVoice, calc_ax_offset, endaddr, channelEndAddr, sizeof_sample, h8,
      if_true, Int.tdiv_one, framecallback_playingid, framecallback_mixbufs,
      framecallback_spec, ptrAdd]
    rw [toU32_toI32, toU32_sub_toU32]
    unfold toU32 toI32
    omega
  · intro h16 hD
    simp only [programVoice, calc_ax_offset, endaddr, channelEndAddr, sizeof_sample, h16,
      if_false, framecallback_playingid, framecallback_mixbufs, framecallback_spec,
      ptrAdd] at hD ⊢
    rw [toI32_toU32_sub]
    generalize (toU32 ((dev.hidden.mixbufs (playing_buffer dev).toNat : Int) +
      (SDL_AudioSpecGetSamples dev.spec : Int) * 2 * ((i : Int) + 1)) : Int) = X at hD ⊢
    generalize ((dev.hidden.voice i).data : Int) = d at hD ⊢
    have h1 : toI32 (X + -2 - d) = toI32 (X - d) - 2 := by
      unfold toI32 at hD ⊢
      omega
    rw [h1]
    have h2 : (0 : Int) ≤ toI32 (X - d) - 2 := by omega
    have h3 : (0 : Int) ≤ toI32 (X - d) := by omega
    have hb : toI32 (X - d) < 2147483648 := by
      unfold toI32
      omega
    rw [Int.tdiv_eq_ediv h2 (by decide), Int.tdiv_eq_ediv h3 (by decide)]
    unfold toU32
    omega

/-- Witness of C4_end_offset: voice 1 of a stereo 16-bit device with 4 frames per buffer. -/
theorem C4_end_offset_witness :
    ((1 : Nat) : Int) < (sampleDev 2 0x9010 4 16 AX_VOICE_FORMAT_LPCM16 8 9 0 0).spec.channels ∧
    ((((sampleDev 2 0x9010 4 16 AX_VOICE_FORMAT_LPCM16 8 9 0 0).hidden.voice 1).dataType
        = AX_VOICE_FORMAT_LPCM8 →
      programmedEndOffset (sampleDev 2 0x9010 4 16 AX_VOICE_FORMAT_LPCM16 8 9 0 0) 1 =
        toU32 (channelEndOffset (sampleDev 2 0x9010 4 16 AX_VOICE_FORMAT_LPCM16 8 9 0 0) 1 - 2)) ∧
    (((sampleDev 2 0x9010 4 16 AX_VOICE_FORMAT_LPCM16 8 9 0 0).hidden.voice 1).dataType
        ≠ AX_VOICE_FORMAT_LPCM8 →
      2 ≤ channelEndBytes (sampleDev 2 0x9010 4 16 AX_VOICE_FORMAT_LPCM16 8 9 0 0) 1 →
      (programmedEndOffset (sampleDev 2 0x9010 4 16 AX_VOICE_FORMAT_LPCM16 8 9 0 0) 1 : Int) =
        channelEndOffset (sampleDev 2 0x9010 4 16 AX_VOICE_FORMAT_LPCM16 8 9 0 0) 1 - 1)) :=
  ⟨by decide, C4_end_offset (sampleDev 2 0x9010 4 16 AX_VOICE_FORMAT_LPCM16 8 9 0 0) 1 (by decide)⟩

/-- Counterexample to C5 as stated: stereo 16-bit device with 4 frames per buffer,
playing slot 0 while the producer renders slot 1 = next_id(0). The claim puts the loop
offset of voice 0 at the start of slot 1 (sample offset 8); the callback programs the
start of the playing slot 0 (sample offset 0). -/
theorem C5_counterexample :
    (sampleDev 2 0x9010 4 16 AX_VOICE_FORMAT_LPCM16 8 0 1 0).hidden.renderingid =
      next_id (_WIIUAUDIO_framecallback
        (sampleDev 2 0x9010 4 16 AX_VOICE_FORMAT_LPCM16 8 0 1 0)).hidden.playingid ∧
    channelStartOffset (sampleDev 2 0x9010 4 16 AX_VOICE_FORMAT_LPCM16 8 0 1 0)
      ((sampleDev 2 0x9010 4 16 AX_VOICE_FORMAT_LPCM16 8 0 1 0).hidden.voice 0)
      (sampleDev 2 0x9010 4 16 AX_VOICE_FORMAT_LPCM16 8 0 1 0).hidden.renderingid 0 = 8 ∧
    programmedLoopOffset (sampleDev 2 0x9010 4 16 AX_VOICE_FORMAT_LPCM16 8 0 1 0) 0 = 0 := by
  decide

/-- C5 (amended): for every channel `i < channels`, with `p` the slot the callback
records as playing, the loop offset programmed into voice `i` points at the start of
slot `next_id(p)` when `renderingid != next_id(p)`, and otherwise
(`renderingid == next_id(p)`) at the start of the playing slot `p` itself. -/
theorem C5_loop_offset (dev : SDL_AudioDevice) (i : Nat) (hi : (i : Int) < dev.spec.channels) :
    (dev.hidden.renderingid ≠ next_id (_WIIUAUDIO_framecallback dev).hidden.playingid →
      programmedLoopOffset dev i = channelStartOffset dev (dev.hidden.voice i)
        (next_id (_WIIUAUDIO_framecallback dev).hidden.playingid) i) ∧
    (dev.hidden.renderingid = next_id (_WIIUAUDIO_framecallback dev).hidden.playingid →
      programmedLoopOffset dev i = channelStartOffset dev (dev.hidden.voice i)
        (_WIIUAUDIO_framecallback dev).hidden.playingid i) := by
  unfold programmedLoopOffset channelStartOffset
  rw [framecallback_voice dev i hi, framecallback_playingid]
  constructor
  · intro h
    simp [programVoice, loopaddr, h]
  · intro h
    simp [programVoice, loopaddr, h]

/-- Witness of C5_loop_offset: voice 1 of a stereo 16-bit device. -/
theorem C5_loop_offset_witness :
    ((1 : Nat) : Int) < (sampleDev 2 0x9010 4 16 AX_VOICE_FORMAT_LPCM16 8 0 1 0).spec.channels ∧
    (((sampleDev 2 0x9010 4 16 AX_VOICE_FORMAT_LPCM16 8 0 1 0).hidden.renderingid ≠
        next_id (_WIIUAUDIO_framecallback
          (sampleDev 2 0x9010 4 16 AX_VOICE_FORMAT_LPCM16 8 0 1 0)).hidden.playingid →
      programmedLoopOffset (sampleDev 2 0x9010 4 16 AX_VOICE_FORMAT_LPCM16 8 0 1 0) 1 =
        channelStartOffset (sampleDev 2 0x9010 4 16 AX_VOICE_FORMAT_LPCM16 8 0 1 0)
          ((sampleDev 2 0x9010 4 16 AX_VOICE_FORMAT_LPCM16 8 0 1 0).hidden.voice 1)
          (next_id (_WIIUAUDIO_framecallback
            (sampleDev 2 0x9010 4 16 AX_VOICE_FORMAT_LPCM16 8 0 1 0)).hidden.playingid) 1) ∧
    ((sampleDev 2 0x9010 4 16 AX_VOICE_FORMAT_LPCM16 8 0 1 0).hidden.renderingid =
        next_id (_WIIUAUDIO_framecallback
          (sampleDev 2 0x9010 4 16 AX_VOICE_FORMAT_LPCM16 8 0 1 0)).hidden.playingid →
      programmedLoopOffset (sampleDev 2 0x9010 4 16 AX_VOICE_FORMAT_LPCM16 8 0 1 0) 1 =
        channelStartOffset (sampleDev 2 0x9010 4 16 AX_VOICE_FORMAT_LPCM16 8 0 1 0)
          ((sampleDev 2 0x9010 4 16 AX_VOICE_FORMAT_LPCM16 8 0 1 0).hidden.voice 1)
          (_WIIUAUDIO_framecallback
            (sampleDev 2 0x9010 4 16 AX_VOICE_FORMAT_LPCM16 8 0 1 0)).hidden.playingid 1)) :=
  ⟨by decide, C5_loop_offset (sampleDev 2 0x9010 4 16 AX_VOICE_FORMAT_LPCM16 8 0 1 0) 1 (by decide)⟩

theorem playing_buffer_range (dev : SDL_AudioDevice) :
    playing_buffer dev = 0 ∨ playing_buffer dev = 1 := by
  unfold playing_buffer
  simp only [NUM_BUFFERS, scanSlots]
  split_ifs <;> simp_all

theorem next_id_zero : next_id 0 = 1 := by decide

theorem next_id_one : next_id 1 = 0 := by decide


theorem loop_target_eq (b n c w i t d : Nat) (hw : w = 1 ∨ w = 2) (ht : t = 0 ∨ t = 1)
    (hfit : b + n * c * w * 2 ≤ 4294967296) (hb : 0 < b) (hb32 : b < 4294967296) (hi : i < c)
    (hd : d = b + n * i * w) :
    d + toU32 (Int.tdiv (toI32 ((ptrAdd (b + n * c * w * t) ((n : Int) * (w : Int) * (i : Int)) : Int)
      - (d : Int))) (w : Int)) * w = b + n * c * w * t + n * i * w := by
  have h1 : n * i + n ≤ n * c := by
    have := Nat.mul_le_mul_left n (Nat.succ_le_of_lt hi)
    rw [Nat.mul_succ] at this
    exact this
  have h0 : n = 0 → n * c = 0 := by
    rintro rfl
    simp
  subst hd
  have hp : ptrAdd (b + n * c * w * t) ((n : Int) * (w : Int) * (i : Int)) =
      b + n * c * w * t + n * i * w := by
    unfold ptrAdd toU32
    have : ((b + n * c * w * t : Nat) : Int) + (n : Int) * (w : Int) * (i : Int) =
        ((b + n * c * w * t + n * i * w : Nat) : Int) := by
      push_cast
      ring
    rw [this]
    rcases hw with rfl | rfl <;> rcases ht with rfl | rfl <;> omega
  rw [hp]
  have hdiff : ((b + n * c * w * t + n * i * w : Nat) : Int) - ((b + n * i * w : Nat) : Int) =
      ((n * c * w * t : Nat) : Int) := by
    push_cast
    ring
  rw [hdiff]
  have hI : toI32 ((n * c * w * t : Nat) : Int) = ((n * c * w * t : Nat) : Int) := by
    unfold toI32
    rcases hw with rfl | rfl <;> rcases ht with rfl | rfl <;> omega
  rw [hI, Int.tdiv_eq_ediv (Int.ofNat_nonneg _) (Int.ofNat_nonneg _)]
  have hq : ((n * c * w * t : Nat) : Int) / (w : Int) = ((n * c * t : Nat) : Int) := by
    rcases hw with rfl | rfl <;> rcases ht with rfl | rfl <;> omega
  rw [hq]
  unfold toU32
  rcases hw with rfl | rfl <;> rcases ht with rfl | rfl <;> omega

theorem slot_disjoint (b A B n w t r : Nat) (hw : w = 1 ∨ w = 2) (ht : t = 0 ∨ t = 1)
    (hr : r = 0 ∨ r = 1) (htr : t ≠ r) (h1 : B + n ≤ A) (h0 : n = 0 → A = 0) :
    ¬ (b + A * w * r ≤ b + A * w * t + B * w ∧ b + A * w * t + B * w < b + A * w * r + A * w) := by
  rcases hw with rfl | rfl <;> rcases ht with rfl | rfl <;> rcases hr with rfl | rfl <;> omega

theorem loopaddr_target (dev : SDL_AudioDevice) (offs : AXVoiceOffsets) (i : Nat)
    (hp : dev.hidden.playingid = 0 ∨ dev.hidden.playingid = 1)
    (hr : dev.hidden.renderingid = 0 ∨ dev.hidden.renderingid = 1) :
    ∃ t : Nat, (t = 0 ∨ t = 1) ∧ t ≠ dev.hidden.renderingid.toNat ∧
      loopaddr dev offs i = ptrAdd (dev.hidden.mixbufs t)
        ((SDL_AudioSpecGetSamples dev.spec : Int) * sizeof_sample offs * (i : Int)) := by
  unfold loopaddr
  rcases hp with hp | hp <;> rcases hr with hr | hr <;> rw [hp, hr]
  · exact ⟨1, Or.inr rfl, by decide, by simp [next_id_zero]⟩
  · exact ⟨0, Or.inl rfl, by decide, by simp [next_id_zero]⟩
  · exact ⟨1, Or.inr rfl, by decide, by simp [next_id_one]⟩
  · exact ⟨0, Or.inl rfl, by decide, by simp [next_id_one]⟩

/-- C6: in a device laid out by `WIIUAUDIO_OpenDevice`, with `renderingid` in
`[0, NUM_BUFFERS)`, whatever the hardware playback offset is, the address at which
voice `i` resumes after the callback programmed its loop offset lies outside the slot
of index `renderingid`. -/
theorem C6_loop_never_into_rendering (dev : SDL_AudioDevice) (hop : Opened dev)
    (hr : 0 ≤ dev.hidden.renderingid ∧ dev.hidden.renderingid < (NUM_BUFFERS : Int))
    (i : Nat) (hi : (i : Int) < dev.spec.channels) :
    ¬ inSlot dev dev.hidden.renderingid.toNat (loopTargetAddr dev i) := by
  obtain ⟨hc1, hc2, hbits, hsize, hb, hb32, hfit, hmix, hvoice⟩ := hop
  have hic : i < dev.spec.channels.toNat := by omega
  obtain ⟨hdt, hdata⟩ := hvoice i hic
  have hr01 : dev.hidden.renderingid = 0 ∨ dev.hidden.renderingid = 1 := by
    unfold NUM_BUFFERS at hr
    omega
  -- the sample size of the voice and of the spec agree
  obtain ⟨w, hw, hsz, hbytes, hwdata⟩ : ∃ w : Nat, (w = 1 ∨ w = 2) ∧
      sizeof_sample (dev.hidden.voice i) = (w : Int) ∧
      SDL_AUDIO_BITSIZE dev.spec.format / 8 = w ∧
      (if (dev.hidden.voice i).dataType = AX_VOICE_FORMAT_LPCM8 then 1 else 2) = w := by
    rcases hbits with h8 | h16
    · refine ⟨1, Or.inl rfl, ?_, ?_, ?_⟩
      · simp [sizeof_sample, hdt, h8]
      · simp [h8]
      · simp [hdt, h8]
    · have hne : AX_VOICE_FORMAT_LPCM16 ≠ AX_VOICE_FORMAT_LPCM8 := by decide
      refine ⟨2, Or.inr rfl, ?_, ?_, ?_⟩
      · simp [sizeof_sample, hdt, h16, hne]
      · simp [h16]
      · simp [hdt, h16, hne]
  rw [hwdata] at hdata
  rw [hbytes] at hsize
  obtain ⟨t, ht, htr, hla⟩ := loopaddr_target
    { dev with hidden := { dev.hidden with playingid := playing_buffer dev } }
    (dev.hidden.voice i) i (playing_buffer_range dev) hr01
  have htarget : loopTargetAddr dev i =
      dev.hidden.mixbufs 0 + dev.spec.samples * dev.spec.channels.toNat * w * t +
        dev.spec.samples * i * w := by
    unfold loopTargetAddr programmedLoopOffset
    rw [framecallback_voice dev i hi]
    simp only [programVoice, calc_ax_offset]
    rw [hla, hsz]
    simp only [SDL_AudioSpecGetSamples, Int.toNat_ofNat]
    have hmt : dev.hidden.mixbufs t = dev.hidden.mixbufs 0 +
        dev.spec.samples * dev.spec.channels.toNat * w * t := by
      rw [hmix t (by unfold NUM_BUFFERS; omega), hsize]
    rw [hmt]
    exact loop_target_eq (dev.hidden.mixbufs 0) dev.spec.samples dev.spec.channels.toNat w i t
      (dev.hidden.voice i).data hw ht (by rw [← hsize]; exact hfit) hb hb32 hic hdata
  rw [htarget]
  unfold inSlot SDL_AudioSpecGetBufferSize
  have hr2 : dev.hidden.renderingid.toNat = 0 ∨ dev.hidden.renderingid.toNat = 1 := by omega
  rw [hmix _ (by unfold NUM_BUFFERS; omega), hsize]
  have h1 : dev.spec.samples * i + dev.spec.samples ≤
      dev.spec.samples * dev.spec.channels.toNat := by
    have := Nat.mul_le_mul_left dev.spec.samples (Nat.succ_le_of_lt hic)
    rw [Nat.mul_succ] at this
    exact this
  exact slot_disjoint _ _ _ _ w t _ hw ht hr2 htr h1 (fun h => by rw [h]; simp)

/-- Witness of C6_loop_never_into_rendering: voice 1 of a stereo 16-bit device playing
slot 0 while slot 1 is rendered. -/
theorem C6_loop_never_into_rendering_witness :
    (Opened (sampleDev 2 0x9010 4 16 AX_VOICE_FORMAT_LPCM16 8 0 1 0) ∧
     (0 ≤ (sampleDev 2 0x9010 4 16 AX_VOICE_FORMAT_LPCM16 8 0 1 0).hidden.renderingid ∧
      (sampleDev 2 0x9010 4 16 AX_VOICE_FORMAT_LPCM16 8 0 1 0).hidden.renderingid < (NUM_BUFFERS : Int)) ∧
     ((1 : Nat) : Int) < (sampleDev 2 0x9010 4 16 AX_VOICE_FORMAT_LPCM16 8 0 1 0).spec.channels) ∧
    ¬ inSlot (sampleDev 2 0x9010 4 16 AX_VOICE_FORMAT_LPCM16 8 0 1 0)
      (sampleDev 2 0x9010 4 16 AX_VOICE_FORMAT_LPCM16 8 0 1 0).hidden.renderingid.toNat
      (loopTargetAddr (sampleDev 2 0x9010 4 16 AX_VOICE_FORMAT_LPCM16 8 0 1 0) 1) :=
  ⟨by decide, C6_loop_never_into_rendering (sampleDev 2 0x9010 4 16 AX_VOICE_FORMAT_LPCM16 8 0 1 0)
    (by decide) (by decide) 1 (by decide)⟩

/-! ### Loops and memory -/

theorem forLoop_induction {σ : Type} (P : Nat → σ → Prop) (n : Nat) (body : Nat → σ → σ)
    (init : σ) (h0 : P 0 init)
    (hstep : ∀ k, k < n → ∀ s, P k s → P (k + 1) (body k s)) :
    P n (forLoop n body init) := by
  induction n with
  | zero => exact h0
  | succ k ih =>
    simp only [forLoop]
    exact hstep k (Nat.lt_succ_self k) _
      (ih (fun j hj s hs => hstep j (Nat.lt_succ_of_lt hj) s hs))

theorem copyBytes_inside (m : Mem) (dst src len a : Nat) (h1 : dst ≤ a) (h2 : a < dst + len) :
    copyBytes m dst src len a = m (src + (a - dst)) := by
  simp [copyBytes, h1, h2]

theorem copyBytes_outside (m : Mem) (dst src len a : Nat) (h : a < dst ∨ dst + len ≤ a) :
    copyBytes m dst src len a = m a := by
  have : ¬ (dst ≤ a ∧ a < dst + len) := by omega
  simp [copyBytes, this]

theorem mul_succ_le (w : Nat) {j k : Nat} (h : j < k) : w * j + w ≤ w * k := by
  have := Nat.mul_le_mul_left w (Nat.succ_le_of_lt h)
  rwa [Nat.mul_succ] at this

/-- One pass of element copies into consecutive destination elements `d0, d0+1, ...`
of an array at `d`, from elements `sIdx i` of an array at `s` that does not overlap it. -/
theorem copyLoop_spec (w d s N d0 n : Nat) (sIdx : Nat → Nat) (m0 : Mem)
    (hs : ∀ i, i < n → sIdx i < N) (hd : d0 + n ≤ N)
    (hdisj : d + w * N ≤ s ∨ s + w * N ≤ d) :
    (∀ i, i < n → ∀ b, b < w →
      forLoop n (fun i m => copyBytes m (d + w * (d0 + i)) (s + w * sIdx i) w) m0
        (d + w * (d0 + i) + b) = m0 (s + w * sIdx i + b)) ∧
    (∀ a, (a < d + w * d0 ∨ d + w * (d0 + n) ≤ a) →
      forLoop n (fun i m => copyBytes m (d + w * (d0 + i)) (s + w * sIdx i) w) m0 a = m0 a) := by
  refine forLoop_induction
    (fun k m => (∀ i, i < k → ∀ b, b < w → m (d + w * (d0 + i) + b) = m0 (s + w * sIdx i + b)) ∧
      (∀ a, (a < d + w * d0 ∨ d + w * (d0 + k) ≤ a) → m a = m0 a)) n _ m0 ?_ ?_
  · exact ⟨fun i hi => absurd hi (Nat.not_lt_zero i), fun a _ => rfl⟩
  · intro k hk m ⟨ih1, ih2⟩
    have hkN : w * (d0 + k) + w ≤ w * N := mul_succ_le w (by omega)
    have hk0 : w * d0 ≤ w * (d0 + k) := Nat.mul_le_mul_left w (by omega)
    have hk1 : w * (d0 + (k + 1)) = w * (d0 + k) + w := by
      rw [← Nat.add_assoc, Nat.mul_succ]
    constructor
    · intro i hi b hb
      by_cases hik : i < k
      · have h1 : w * (d0 + i) + w ≤ w * (d0 + k) := mul_succ_le w (by omega)
        rw [copyBytes_outside _ _ _ _ _ (by omega)]
        exact ih1 i hik b hb
      · have hie : i = k := by omega
        subst hie
        rw [copyBytes_inside _ _ _ _ _ (by omega) (by omega)]
        have hsub : d + w * (d0 + i) + b - (d + w * (d0 + i)) = b := by omega
        rw [hsub]
        have hsN : w * sIdx i + w ≤ w * N := mul_succ_le w (hs i hk)
        exact ih2 _ (by omega)
    · intro a ha
      rw [copyBytes_outside _ _ _ _ _ (by omega)]
      exact ih2 a (by omega)

/-- What the two nested loops of `WIIUAUDIO_PlayDevice` leave in memory when the scratch
buffer does not overlap the rendering slot: every element of the scratch buffer holds
the interleaved source element, and nothing outside the scratch buffer changes. -/
theorem deinterleave_spec (w n c s d : Nat) (m : Mem)
    (hdisj : d + w * (n * c) ≤ s ∨ s + w * (n * c) ≤ d) :
    (∀ ch, ch < c → ∀ i, i < n → ∀ b, b < w →
      deinterleave w n c s d m (d + w * (n * ch + i) + b) = m (s + w * (i * c + ch) + b)) ∧
    (∀ a, (a < d ∨ d + w * (n * c) ≤ a) → deinterleave w n c s d m a = m a) := by
  unfold deinterleave
  refine forLoop_induction
    (fun k m1 => (∀ ch, ch < k → ∀ i, i < n → ∀ b, b < w →
        m1 (d + w * (n * ch + i) + b) = m (s + w * (i * c + ch) + b)) ∧
      (∀ a, (a < d ∨ d + w * (n * k) ≤ a) → m1 a = m a)) c _ m ?_ ?_
  · exact ⟨fun ch hch => absurd hch (Nat.not_lt_zero ch), fun a _ => rfl⟩
  · intro k hk m1 ⟨ih1, ih2⟩
    have hsrc : ∀ i, i < n → i * c + k < n * c := by
      intro i hi
      have h1 : i * c + c ≤ n * c := by
        have := Nat.mul_le_mul_right c (Nat.succ_le_of_lt hi)
        rwa [Nat.succ_mul] at this
      omega
    have hdst : n * k + n ≤ n * c := mul_succ_le n hk
    obtain ⟨hin, hout⟩ := copyLoop_spec w d s (n * c) (n * k) n (fun i => i * c + k) m1
      hsrc hdst hdisj
    have hkk : w * (n * k) + w * n ≤ w * (n * c) := by
      have := Nat.mul_le_mul_left w hdst
      rwa [Nat.mul_add] at this
    have hk1 : w * (n * (k + 1)) = w * (n * k) + w * n := by
      rw [Nat.mul_succ, Nat.mul_add]
    have hk2 : w * (n * k + n) = w * (n * k) + w * n := Nat.mul_add _ _ _
    constructor
    · intro ch hch i hi b hb
      by_cases hck : ch < k
      · have h1 : n * ch + n ≤ n * k := mul_succ_le n hck
        have h2 : w * (n * ch + i) + w ≤ w * (n * k) :=
          le_trans (mul_succ_le w (show n * ch + i < n * ch + n by omega))
            (Nat.mul_le_mul_left w h1)
        rw [hout _ (by omega)]
        exact ih1 ch hck i hi b hb
      · have hce : ch = k := by omega
        subst hce
        rw [hin i hi b hb]
        have h3 : w * (i * c + ch) + w ≤ w * (n * c) := mul_succ_le w (hsrc i hi)
        exact ih2 _ (by omega)
    · intro a ha
      rw [hout a (by omega)]
      exact ih2 a (by omega)

theorem play_deinterleave_eq (dev : SDL_AudioDevice) (m : Mem)
    (hbits : SDL_AUDIO_BITSIZE dev.spec.format = 8 ∨ SDL_AUDIO_BITSIZE dev.spec.format = 16) :
    WIIUAUDIO_PlayDevice_deinterleave dev m =
      deinterleave (bytesPerSample dev.spec) (SDL_AudioSpecGetSamples dev.spec)
        dev.spec.channels.toNat (dev.hidden.mixbufs dev.hidden.renderingid.toNat)
        dev.hidden.deintvbuf m := by
  rcases hbits with h | h <;> simp [WIIUAUDIO_PlayDevice_deinterleave, bytesPerSample, h]

/-- C7: for 8-bit and 16-bit formats, whatever the channel count, the frame count and
the interleaved content of the rendering slot are, after `WIIUAUDIO_PlayDevice` the
sample of index `n * ch + i` of the slot that was rendering equals the sample of index
`i * c + ch` it held on entry, for every channel `ch < c` and frame `i < n`; the buffer
size is the one of the negotiated spec and the scratch buffer does not overlap the slot. -/
theorem C7_play_planar (dev : SDL_AudioDevice) (m : Mem)
    (hbits : SDL_AUDIO_BITSIZE dev.spec.format = 8 ∨ SDL_AUDIO_BITSIZE dev.spec.format = 16)
    (hsize : SDL_AudioSpecGetBufferSize dev.spec =
      SDL_AudioSpecGetSamples dev.spec * dev.spec.channels.toNat * bytesPerSample dev.spec)
    (hdisj : dev.hidden.deintvbuf + SDL_AudioSpecGetBufferSize dev.spec ≤
        dev.hidden.mixbufs dev.hidden.renderingid.toNat ∨
      dev.hidden.mixbufs dev.hidden.renderingid.toNat + SDL_AudioSpecGetBufferSize dev.spec ≤
        dev.hidden.deintvbuf)
    (ch i : Nat) (hch : (ch : Int) < dev.spec.channels)
    (hi : i < SDL_AudioSpecGetSamples dev.spec) :
    sampleAt (bytesPerSample dev.spec) (WIIUAUDIO_PlayDevice dev m).2
        (dev.hidden.mixbufs dev.hidden.renderingid.toNat)
        (SDL_AudioSpecGetSamples dev.spec * ch + i) =
      sampleAt (bytesPerSample dev.spec) m
        (dev.hidden.mixbufs dev.hidden.renderingid.toNat)
        (i * dev.spec.channels.toNat + ch) := by
  have hc : ch < dev.spec.channels.toNat := by omega
  simp only [WIIUAUDIO_PlayDevice, SDL_memcpy]
  rw [play_deinterleave_eq dev m hbits, hsize]
  rw [hsize] at hdisj
  generalize bytesPerSample dev.spec = w at *
  generalize SDL_AudioSpecGetSamples dev.spec = n at *
  generalize dev.spec.channels.toNat = c at *
  generalize dev.hidden.mixbufs dev.hidden.renderingid.toNat = s at *
  generalize dev.hidden.deintvbuf = d at *
  have hcomm : n * c * w = w * (n * c) := Nat.mul_comm _ _
  rw [hcomm] at hdisj ⊢
  obtain ⟨hin, _⟩ := deinterleave_spec w n c s d m hdisj
  have h1 : n * ch + n ≤ n * c := mul_succ_le n hc
  have h2 : w * (n * ch + i) + w ≤ w * (n * c) := mul_succ_le w (by omega)
  unfold sampleAt
  apply List.map_congr_left
  intro b hb
  have hb : b < w := List.mem_range.mp hb
  rw [copyBytes_inside _ _ _ _ _ (by omega) (by omega)]
  have hsub : s + w * (n * ch + i) + b - s = w * (n * ch + i) + b := by omega
  rw [hsub, ← Nat.add_assoc]
  exact hin ch hc i hi b hb

/-- C8: for 8-bit and 16-bit formats, whatever the channel count and the frame count
`n` are, when the rendering slot holds `interleave X` for a planar array `X` of
`n * channels` samples, the deinterleave loop of `WIIUAUDIO_PlayDevice` leaves `X` in
the scratch buffer (which does not overlap the slot). -/
theorem C8_deinterleave_interleave (dev : SDL_AudioDevice) (m : Mem) (X : Nat → List Nat)
    (hbits : SDL_AUDIO_BITSIZE dev.spec.format = 8 ∨ SDL_AUDIO_BITSIZE dev.spec.format = 16)
    (hdisj : dev.hidden.deintvbuf +
          SDL_AudioSpecGetSamples dev.spec * dev.spec.channels.toNat * bytesPerSample dev.spec ≤
        dev.hidden.mixbufs dev.hidden.renderingid.toNat ∨
      dev.hidden.mixbufs dev.hidden.renderingid.toNat +
          SDL_AudioSpecGetSamples dev.spec * dev.spec.channels.toNat * bytesPerSample dev.spec ≤
        dev.hidden.deintvbuf)
    (hX : ∀ j, j < SDL_AudioSpecGetSamples dev.spec * dev.spec.channels.toNat →
      sampleAt (bytesPerSample dev.spec) m (dev.hidden.mixbufs dev.hidden.renderingid.toNat) j =
        interleave (SDL_AudioSpecGetSamples dev.spec) dev.spec.channels.toNat X j)
    (k : Nat) (hk : k < SDL_AudioSpecGetSamples dev.spec * dev.spec.channels.toNat) :
    sampleAt (bytesPerSample dev.spec) (WIIUAUDIO_PlayDevice_deinterleave dev m)
      dev.hidden.deintvbuf k = X k := by
  rw [play_deinterleave_eq dev m hbits]
  generalize bytesPerSample dev.spec = w at *
  generalize SDL_AudioSpecGetSamples dev.spec = n at *
  generalize dev.spec.channels.toNat = c at *
  generalize dev.hidden.mixbufs dev.hidden.renderingid.toNat = s at *
  generalize dev.hidden.deintvbuf = d at *
  have hcomm : n * c * w = w * (n * c) := Nat.mul_comm _ _
  rw [hcomm] at hdisj
  obtain ⟨hin, _⟩ := deinterleave_spec w n c s d m hdisj
  have hch : k / n < c := Nat.div_lt_of_lt_mul hk
  have hn : 0 < n := by
    rcases Nat.eq_zero_or_pos n with h | h
    · rw [h, Nat.zero_mul] at hk
      exact absurd hk (Nat.not_lt_zero k)
    · exact h
  have hc : 0 < c := lt_of_le_of_lt (Nat.zero_le _) hch
  have hi : k % n < n := Nat.mod_lt k hn
  have hkd : n * (k / n) + k % n = k := Nat.div_add_mod k n
  have hsrc : k % n * c + k / n < n * c := by
    have h1 : k % n * c + c ≤ n * c := by
      have := Nat.mul_le_mul_right c (Nat.succ_le_of_lt hi)
      rwa [Nat.succ_mul] at this
    omega
  have hstep : sampleAt w (deinterleave w n c s d m) d k = sampleAt w m s (k % n * c + k / n) := by
    unfold sampleAt
    apply List.map_congr_left
    intro b hb
    have hb : b < w := List.mem_range.mp hb
    have := hin (k / n) hch (k % n) hi b hb
    rw [hkd] at this
    exact this
  rw [hstep, hX _ hsrc]
  unfold interleave
  have hmod : (k % n * c + k / n) % c = k / n := by
    rw [Nat.add_comm, Nat.add_mul_mod_self_right, Nat.mod_eq_of_lt hch]
  have hdiv : (k % n * c + k / n) / c = k % n := by
    rw [Nat.add_comm, Nat.add_mul_div_right _ _ hc, Nat.div_eq_of_lt hch, Nat.zero_add]
  rw [hmod, hdiv, hkd]

/-- Witness of C7_play_planar: channel 1, frame 3 of the stereo 16-bit device. -/
theorem C7_play_planar_witness :
    ((SDL_AUDIO_BITSIZE stereoDev.spec.format = 8 ∨ SDL_AUDIO_BITSIZE stereoDev.spec.format = 16) ∧
     SDL_AudioSpecGetBufferSize stereoDev.spec =
      SDL_AudioSpecGetSamples stereoDev.spec * stereoDev.spec.channels.toNat *
        bytesPerSample stereoDev.spec ∧
     (stereoDev.hidden.deintvbuf + SDL_AudioSpecGetBufferSize stereoDev.spec ≤
        stereoDev.hidden.mixbufs stereoDev.hidden.renderingid.toNat ∨
      stereoDev.hidden.mixbufs stereoDev.hidden.renderingid.toNat +
        SDL_AudioSpecGetBufferSize stereoDev.spec ≤ stereoDev.hidden.deintvbuf) ∧
     ((1 : Nat) : Int) < stereoDev.spec.channels ∧ 3 < SDL_AudioSpecGetSamples stereoDev.spec) ∧
    sampleAt (bytesPerSample stereoDev.spec) (WIIUAUDIO_PlayDevice stereoDev sampleMem).2
        (stereoDev.hidden.mixbufs stereoDev.hidden.renderingid.toNat)
        (SDL_AudioSpecGetSamples stereoDev.spec * 1 + 3) =
      sampleAt (bytesPerSample stereoDev.spec) sampleMem
        (stereoDev.hidden.mixbufs stereoDev.hidden.renderingid.toNat)
        (3 * stereoDev.spec.channels.toNat + 1) :=
  ⟨by decide, C7_play_planar stereoDev sampleMem (by decide) (by decide) (by decide) 1 3
    (by decide) (by decide)⟩

/-- Witness of C8_deinterleave_interleave: planar sample 5 of the stereo 16-bit device. -/
theorem C8_deinterleave_interleave_witness :
    ((SDL_AUDIO_BITSIZE stereoDev.spec.format = 8 ∨ SDL_AUDIO_BITSIZE stereoDev.spec.format = 16) ∧
     (stereoDev.hidden.deintvbuf +
          SDL_AudioSpecGetSamples stereoDev.spec * stereoDev.spec.channels.toNat *
            bytesPerSample stereoDev.spec ≤
        stereoDev.hidden.mixbufs stereoDev.hidden.renderingid.toNat ∨
      stereoDev.hidden.mixbufs stereoDev.hidden.renderingid.toNat +
          SDL_AudioSpecGetSamples stereoDev.spec * stereoDev.spec.channels.toNat *
            bytesPerSample stereoDev.spec ≤
        stereoDev.hidden.deintvbuf) ∧
     (∀ j, j < SDL_AudioSpecGetSamples stereoDev.spec * stereoDev.spec.channels.toNat →
      sampleAt (bytesPerSample stereoDev.spec) sampleMem
          (stereoDev.hidden.mixbufs stereoDev.hidden.renderingid.toNat) j =
        interleave (SDL_AudioSpecGetSamples stereoDev.spec) stereoDev.spec.channels.toNat
          samplePlanar j) ∧
     5 < SDL_AudioSpecGetSamples stereoDev.spec * stereoDev.spec.channels.toNat) ∧
    sampleAt (bytesPerSample stereoDev.spec) (WIIUAUDIO_PlayDevice_deinterleave stereoDev sampleMem)
      stereoDev.hidden.deintvbuf 5 = samplePlanar 5 :=
  ⟨by decide, C8_deinterleave_interleave stereoDev sampleMem samplePlanar (by decide) (by decide)
    (by decide) 5 (by decide)⟩

/-! ### The wait loop -/

theorem pollState_nil (dev : SDL_AudioDevice) (j : Nat) : pollState dev [] j = dev := by
  simp [pollState]

theorem pollState_zero (dev : SDL_AudioDevice) (updates : List Poll) :
    pollState dev updates 0 = dev := by
  simp [pollState]

theorem pollState_cons_succ (dev : SDL_AudioDevice) (u : Poll) (rest : List Poll) (j : Nat) :
    pollState dev (u :: rest) (j + 1) = pollState (applyPoll dev u) rest j := by
  simp [pollState]

theorem pollState_renderingid (updates : List Poll) :
    ∀ (dev : SDL_AudioDevice) (j : Nat),
      (pollState dev updates j).hidden.renderingid = dev.hidden.renderingid := by
  induction updates with
  | nil => intro dev j; rw [pollState_nil]
  | cons u rest ih =>
    intro dev j
    cases j with
    | zero => rw [pollState_zero]
    | succ j => rw [pollState_cons_succ, ih]; rfl

/-- The wait loop exits at poll `k` exactly when the loop condition held at every
earlier poll and fails at poll `k`. -/
theorem wait_eq_some_iff (updates : List Poll) :
    ∀ (dev : SDL_AudioDevice) (k : Nat) (d : SDL_AudioDevice),
      WIIUAUDIO_WaitDevice dev updates = some (k, d) ↔
        (k ≤ updates.length ∧ d = pollState dev updates k ∧
          (∀ j, j < k → waitCond (pollState dev updates j) = true) ∧
          waitCond (pollState dev updates k) = false) := by
  induction updates with
  | nil =>
    intro dev k d
    simp only [WIIUAUDIO_WaitDevice, pollState_nil, List.length_nil, Nat.le_zero]
    cases h : waitCond dev
    · simp only [Bool.false_eq_true, if_false, Option.some.injEq, Prod.mk.injEq]
      constructor
      · rintro ⟨rfl, rfl⟩
        exact ⟨rfl, rfl, fun j hj => absurd hj (Nat.not_lt_zero j), trivial⟩
      · rintro ⟨rfl, rfl, _⟩
        exact ⟨rfl, rfl⟩
    · simp
  | cons u rest ih =>
    intro dev k d
    simp only [WIIUAUDIO_WaitDevice, List.length_cons]
    cases h : waitCond dev
    · simp only [Bool.false_eq_true, if_false, Option.some.injEq, Prod.mk.injEq]
      constructor
      · rintro ⟨rfl, rfl⟩
        refine ⟨Nat.zero_le _, (pollState_zero _ _).symm,
          fun j hj => absurd hj (Nat.not_lt_zero j), ?_⟩
        rw [pollState_zero]
        exact h
      · rintro ⟨_, hd, hall, hk⟩
        cases k with
        | zero => exact ⟨rfl, by rw [hd, pollState_zero]⟩
        | succ k =>
          have := hall 0 (Nat.succ_pos k)
          rw [pollState_zero, h] at this
          exact absurd this (by decide)
    · simp only [if_true, Option.map_eq_some', Prod.mk.injEq, Prod.exists]
      constructor
      · rintro ⟨k', d', hw, rfl, rfl⟩
        obtain ⟨h1, h2, h3, h4⟩ := (ih (applyPoll dev u) k' d').mp hw
        refine ⟨Nat.succ_le_succ h1, ?_, ?_, ?_⟩
        · rw [pollState_cons_succ]
          exact h2
        · intro j hj
          cases j with
          | zero => rw [pollState_zero]; exact h
          | succ j =>
            rw [pollState_cons_succ]
            exact h3 j (Nat.lt_of_succ_lt_succ hj)
        · rw [pollState_cons_succ]
          exact h4
      · rintro ⟨h1, h2, h3, h4⟩
        cases k with
        | zero =>
          rw [pollState_zero, h] at h4
          exact absurd h4 (by decide)
        | succ k =>
          refine ⟨k, d, (ih (applyPoll dev u) k d).mpr ⟨Nat.le_of_succ_le_succ h1, ?_, ?_, ?_⟩,
            rfl, rfl⟩
          · rw [h2, pollState_cons_succ]
          · intro j hj
            have := h3 (j + 1) (Nat.succ_lt_succ hj)
            rwa [pollState_cons_succ] at this
          · rwa [pollState_cons_succ] at h4

/-- The wait loop is still sleeping after the last poll exactly when the loop condition
held at every poll. -/
theorem wait_eq_none_iff (updates : List Poll) :
    ∀ (dev : SDL_AudioDevice),
      WIIUAUDIO_WaitDevice dev updates = none ↔
        ∀ j, j ≤ updates.length → waitCond (pollState dev updates j) = true := by
  induction updates with
  | nil =>
    intro dev
    simp only [WIIUAUDIO_WaitDevice, pollState_nil, List.length_nil, Nat.le_zero]
    cases h : waitCond dev
    · simp
    · simp
  | cons u rest ih =>
    intro dev
    simp only [WIIUAUDIO_WaitDevice, List.length_cons]
    cases h : waitCond dev
    · simp only [Bool.false_eq_true, if_false]
      constructor
      · intro hc
        exact absurd hc (by simp)
      · intro hall
        have := hall 0 (Nat.zero_le _)
        rw [pollState_zero, h] at this
        exact absurd this (by decide)
    · simp only [if_true, Option.map_eq_none']
      rw [ih]
      constructor
      · intro hall j hj
        cases j with
        | zero => rw [pollState_zero]; exact h
        | succ j =>
          rw [pollState_cons_succ]
          exact hall j (Nat.le_of_succ_le_succ hj)
      · intro hall j hj
        have := hall (j + 1) (Nat.succ_le_succ hj)
        rwa [pollState_cons_succ] at this

theorem waitCond_true_iff (dev : SDL_AudioDevice) :
    waitCond dev = true ↔ dev.running ≠ 0 ∧ dev.hidden.renderingid = dev.hidden.playingid := by
  simp [waitCond]

theorem waitCond_false_iff (dev : SDL_AudioDevice) :
    waitCond dev = false ↔ dev.running = 0 ∨ dev.hidden.renderingid ≠ dev.hidden.playingid := by
  rw [← Bool.not_eq_true, waitCond_true_iff]
  by_cases h : dev.running = 0 <;> simp [h]

/-- C9: against every sequence of `playingid` values written between polls,
(1) when the running flag is set at polls `0..k`, `playingid` equals `renderingid` at
every poll before `k` and differs at poll `k`, `WIIUAUDIO_WaitDevice` sleeps `k` times
and returns at poll `k`; (2) when the flag is set and the indices are equal at every
poll of the sequence, it is still sleeping after the last poll; (3) whenever it returns
with the running flag set, `renderingid != playingid`. -/
theorem C9_wait_backpressure (dev : SDL_AudioDevice) (updates : List Poll) :
    (∀ k, k ≤ updates.length →
      (∀ j, j ≤ k → (pollState dev updates j).running ≠ 0) →
      (∀ j, j < k → (pollState dev updates j).hidden.playingid = dev.hidden.renderingid) →
      (pollState dev updates k).hidden.playingid ≠ dev.hidden.renderingid →
      WIIUAUDIO_WaitDevice dev updates = some (k, pollState dev updates k)) ∧
    ((∀ j, j ≤ updates.length → (pollState dev updates j).running ≠ 0 ∧
        (pollState dev updates j).hidden.playingid = dev.hidden.renderingid) →
      WIIUAUDIO_WaitDevice dev updates = none) ∧
    (∀ k d, WIIUAUDIO_WaitDevice dev updates = some (k, d) → d.running ≠ 0 →
      d.hidden.renderingid ≠ d.hidden.playingid) := by
  refine ⟨?_, ?_, ?_⟩
  · intro k hk hrun heq hne
    rw [wait_eq_some_iff]
    refine ⟨hk, rfl, ?_, ?_⟩
    · intro j hj
      rw [waitCond_true_iff, pollState_renderingid]
      exact ⟨hrun j (Nat.le_of_lt hj), (heq j hj).symm⟩
    · rw [waitCond_false_iff, pollState_renderingid]
      exact Or.inr (fun h => hne h.symm)
  · intro hall
    rw [wait_eq_none_iff]
    intro j hj
    rw [waitCond_true_iff, pollState_renderingid]
    exact ⟨(hall j hj).1, (hall j hj).2.symm⟩
  · intro k d hw hrun
    obtain ⟨_, hd, _, hc⟩ := (wait_eq_some_iff updates dev k d).mp hw
    rw [← hd, waitCond_false_iff] at hc
    rcases hc with h | h
    · exact absurd h hrun
    · exact h

/-- Witness of C9_wait_backpressure: the producer waits on slot 1, the callback records
slot 1 at the second poll and slot 0 at the third; the wait returns at the third poll. -/
theorem C9_wait_backpressure_witness :
    (2 ≤ [Poll.mk 1 1, Poll.mk 1 0, Poll.mk 1 0].length ∧
     (∀ j, j ≤ 2 →
      (pollState waitingDev [Poll.mk 1 1, Poll.mk 1 0, Poll.mk 1 0] j).running ≠ 0) ∧
     (∀ j, j < 2 →
      (pollState waitingDev [Poll.mk 1 1, Poll.mk 1 0, Poll.mk 1 0] j).hidden.playingid =
        waitingDev.hidden.renderingid) ∧
     (pollState waitingDev [Poll.mk 1 1, Poll.mk 1 0, Poll.mk 1 0] 2).hidden.playingid ≠
        waitingDev.hidden.renderingid) ∧
    WIIUAUDIO_WaitDevice waitingDev [Poll.mk 1 1, Poll.mk 1 0, Poll.mk 1 0] =
      some (2, pollState waitingDev [Poll.mk 1 1, Poll.mk 1 0, Poll.mk 1 0] 2) :=
  ⟨by decide, (C9_wait_backpressure waitingDev [Poll.mk 1 1, Poll.mk 1 0, Poll.mk 1 0]).1 2
    (by decide) (by decide) (by decide) (by decide)⟩

/-- C10: whatever `renderingid` and `playingid` are, (1) when the running flag is
already cleared on entry `WIIUAUDIO_WaitDevice` returns at once without sleeping;
(2) when the flag is cleared at poll `k` the loop returns at poll `k` or before, so it
never sleeps at poll `k` or later; (3) when in addition the loop was sleeping at every
poll before `k`, it returns exactly at poll `k`. -/
theorem C10_wait_stops_when_not_running (dev : SDL_AudioDevice) (updates : List Poll) :
    (dev.running = 0 → WIIUAUDIO_WaitDevice dev updates = some (0, dev)) ∧
    (∀ k, k ≤ updates.length → (pollState dev updates k).running = 0 →
      ∃ k' d, k' ≤ k ∧ WIIUAUDIO_WaitDevice dev updates = some (k', d)) ∧
    (∀ k, k ≤ updates.length → (pollState dev updates k).running = 0 →
      (∀ j, j < k → waitCond (pollState dev updates j) = true) →
      WIIUAUDIO_WaitDevice dev updates = some (k, pollState dev updates k)) := by
  refine ⟨?_, ?_, ?_⟩
  · intro h
    rw [wait_eq_some_iff]
    refine ⟨Nat.zero_le _, (pollState_zero _ _).symm,
      fun j hj => absurd hj (Nat.not_lt_zero j), ?_⟩
    rw [pollState_zero, waitCond_false_iff]
    exact Or.inl h
  · intro k hk hrun
    have hex : ∃ j, waitCond (pollState dev updates j) = false :=
      ⟨k, (waitCond_false_iff _).mpr (Or.inl hrun)⟩
    refine ⟨Nat.find hex, pollState dev updates (Nat.find hex),
      Nat.find_min' hex ((waitCond_false_iff _).mpr (Or.inl hrun)), ?_⟩
    rw [wait_eq_some_iff]
    refine ⟨le_trans (Nat.find_min' hex ((waitCond_false_iff _).mpr (Or.inl hrun))) hk, rfl,
      ?_, Nat.find_spec hex⟩
    intro j hj
    have := Nat.find_min hex hj
    simpa using this
  · intro k hk hrun hsleep
    rw [wait_eq_some_iff]
    exact ⟨hk, rfl, hsleep, (waitCond_false_iff _).mpr (Or.inl hrun)⟩

/-- Witness of C10_wait_stops_when_not_running: the producer waits on slot 1 and the
device is stopped before the third poll, while `playingid` still equals `renderingid`. -/
theorem C10_wait_stops_when_not_running_witness :
    (2 ≤ [Poll.mk 1 1, Poll.mk 0 1].length ∧
     (pollState waitingDev [Poll.mk 1 1, Poll.mk 0 1] 2).running = 0 ∧
     (∀ j, j < 2 → waitCond (pollState waitingDev [Poll.mk 1 1, Poll.mk 0 1] j) = true)) ∧
    WIIUAUDIO_WaitDevice waitingDev [Poll.mk 1 1, Poll.mk 0 1] =
      some (2, pollState waitingDev [Poll.mk 1 1, Poll.mk 0 1] 2) :=
  ⟨by decide, (C10_wait_stops_when_not_running waitingDev [Poll.mk 1 1, Poll.mk 0 1]).2.2 2
    (by decide) (by decide) (by decide)⟩

/-! ### Repeating the frame callback -/

theorem programVoice_dataType (dev : SDL_AudioDevice) (offs : AXVoiceOffsets) (i : Nat) :
    (programVoice dev offs i).dataType = offs.dataType := rfl

theorem programVoice_data (dev : SDL_AudioDevice) (offs : AXVoiceOffsets) (i : Nat) :
    (programVoice dev offs i).data = offs.data := rfl

theorem programVoice_currentOffset (dev : SDL_AudioDevice) (offs : AXVoiceOffsets) (i : Nat) :
    (programVoice dev offs i).currentOffset = offs.currentOffset := rfl

theorem framecallback_voice_dataType (dev : SDL_AudioDevice) (i : Nat) :
    ((_WIIUAUDIO_framecallback dev).hidden.voice i).dataType = (dev.hidden.voice i).dataType := by
  simp only [_WIIUAUDIO_framecallback]
  split_ifs <;> rfl

theorem framecallback_voice_data (dev : SDL_AudioDevice) (i : Nat) :
    ((_WIIUAUDIO_framecallback dev).hidden.voice i).data = (dev.hidden.voice i).data := by
  simp only [_WIIUAUDIO_framecallback]
  split_ifs <;> rfl

theorem framecallback_voice_currentOffset (dev : SDL_AudioDevice) (i : Nat) :
    ((_WIIUAUDIO_framecallback dev).hidden.voice i).currentOffset =
      (dev.hidden.voice i).currentOffset := by
  simp only [_WIIUAUDIO_framecallback]
  split_ifs <;> rfl

theorem sizeof_sample_congr (a b : AXVoiceOffsets) (h : a.dataType = b.dataType) :
    sizeof_sample a = sizeof_sample b := by
  simp [sizeof_sample, h]

theorem calc_ax_offset_congr (a b : AXVoiceOffsets) (addr : Nat)
    (h1 : a.dataType = b.dataType) (h2 : a.data = b.data) :
    calc_ax_offset a addr = calc_ax_offset b addr := by
  simp [calc_ax_offset, sizeof_sample_congr a b h1, h2]

theorem slotTest_framecallback (dev : SDL_AudioDevice) (i : Nat) :
    slotTest (_WIIUAUDIO_framecallback dev) i = slotTest dev i := by
  simp only [slotTest, slotEndOffset, slotStartOffset, framecallback_mixbufs, framecallback_spec,
    framecallback_voice_currentOffset,
    calc_ax_offset_congr _ _ _ (framecallback_voice_dataType dev 0)
      (framecallback_voice_data dev 0)]

theorem playing_buffer_framecallback (dev : SDL_AudioDevice) :
    playing_buffer (_WIIUAUDIO_framecallback dev) = playing_buffer dev := by
  simp only [playing_buffer, NUM_BUFFERS, scanSlots, slotTest_framecallback]

theorem programVoice_congr (d1 d2 : SDL_AudioDevice) (a b : AXVoiceOffsets) (i : Nat)
    (hs : d1.spec = d2.spec) (hm : d1.hidden.mixbufs = d2.hidden.mixbufs)
    (hp : d1.hidden.playingid = d2.hidden.playingid)
    (hr : d1.hidden.renderingid = d2.hidden.renderingid)
    (h1 : a.dataType = b.dataType) (h2 : a.data = b.data) :
    (programVoice d1 a i).endOffset = (programVoice d2 b i).endOffset ∧
    (programVoice d1 a i).loopOffset = (programVoice d2 b i).loopOffset := by
  simp only [programVoice, endaddr, loopaddr, hs, hm, hp, hr,
    sizeof_sample_congr a b h1, calc_ax_offset_congr a b _ h1 h2, and_self]

/-- C11: running the frame callback a second time on the state the first run left
(same current playback offset, same `renderingid`) records the same `playingid` and
programs, for every voice, the same end offset and the same loop offset. -/
theorem C11_framecallback_idempotent (dev : SDL_AudioDevice) :
    (_WIIUAUDIO_framecallback (_WIIUAUDIO_framecallback dev)).hidden.playingid =
      (_WIIUAUDIO_framecallback dev).hidden.playingid ∧
    (∀ i, programmedEndOffset (_WIIUAUDIO_framecallback dev) i = programmedEndOffset dev i) ∧
    (∀ i, programmedLoopOffset (_WIIUAUDIO_framecallback dev) i = programmedLoopOffset dev i) := by
  have hpb := playing_buffer_framecallback dev
  have key : ∀ i,
      ((_WIIUAUDIO_framecallback (_WIIUAUDIO_framecallback dev)).hidden.voice i).endOffset =
        ((_WIIUAUDIO_framecallback dev).hidden.voice i).endOffset ∧
      ((_WIIUAUDIO_framecallback (_WIIUAUDIO_framecallback dev)).hidden.voice i).loopOffset =
        ((_WIIUAUDIO_framecallback dev).hidden.voice i).loopOffset := by
    intro i
    by_cases hi : (i : Int) < dev.spec.channels
    · rw [framecallback_voice (_WIIUAUDIO_framecallback dev) i (by rw [framecallback_spec]; exact hi)]
      have h2 := framecallback_voice dev i hi
      rw [h2]
      exact programVoice_congr _ _ _ _ i rfl rfl hpb rfl
        (by rw [← h2]; exact framecallback_voice_dataType dev i)
        (by rw [← h2]; exact framecallback_voice_data dev i)
    · have h1 : ∀ d : SDL_AudioDevice, ¬ ((i : Int) < d.spec.channels) →
          (_WIIUAUDIO_framecallback d).hidden.voice i = d.hidden.voice i := by
        intro d hd
        simp [_WIIUAUDIO_framecallback, hd]
      rw [h1 (_WIIUAUDIO_framecallback dev) (by rw [framecallback_spec]; exact hi)]
      exact ⟨rfl, rfl⟩
  refine ⟨?_, fun i => (key i).1, fun i => (key i).2⟩
  rw [framecallback_playingid, framecallback_playingid, hpb]

/-! ### Negotiation rules -/

/-- C12: for every requested spec and hardware minimum `m`, the negotiated channel
count is the requested one clamped to `[1, 2]`, the format is unchanged when its bit
size is 8 and is `AUDIO_S16MSB` (signed 16-bit big-endian) otherwise, and the frame
count is the maximum of the requested one and `m`. -/
theorem C12_negotiate_rules (spec : SDL_AudioSpec) (m : Nat) :
    (WIIUAUDIO_OpenDevice_negotiate spec m).channels = max 1 (min 2 spec.channels) ∧
    (SDL_AUDIO_BITSIZE spec.format = 8 →
      (WIIUAUDIO_OpenDevice_negotiate spec m).format = spec.format) ∧
    (SDL_AUDIO_BITSIZE spec.format ≠ 8 →
      (WIIUAUDIO_OpenDevice_negotiate spec m).format = AUDIO_S16MSB) ∧
    SDL_AudioSpecGetSamples (WIIUAUDIO_OpenDevice_negotiate spec m) =
      max (SDL_AudioSpecGetSamples spec) m := by
  simp only [WIIUAUDIO_OpenDevice_negotiate, SDL_CalculateAudioSpec, SDL_AudioSpecGetSamples,
    SDL_AudioSpecSetSamples, WIIU_MAX_VALID_CHANNELS]
  refine ⟨?_, ?_, ?_, ?_⟩
  · split_ifs <;> simp_all <;> omega
  · intro h
    split_ifs <;> simp_all
  · intro h
    split_ifs <;> simp_all
  · split_ifs <;> simp_all <;> omega

theorem negotiate_channels_pos (spec : SDL_AudioSpec) (m : Nat) :
    1 ≤ (WIIUAUDIO_OpenDevice_negotiate spec m).channels := by
  simp only [WIIUAUDIO_OpenDevice_negotiate, SDL_CalculateAudioSpec, SDL_AudioSpecGetSamples,
    SDL_AudioSpecSetSamples, WIIU_MAX_VALID_CHANNELS]
  split_ifs <;> simp_all

theorem negotiate_size (spec : SDL_AudioSpec) (m : Nat) :
    SDL_AudioSpecGetBufferSize (WIIUAUDIO_OpenDevice_negotiate spec m) =
      (WIIUAUDIO_OpenDevice_negotiate spec m).samples *
        (WIIUAUDIO_OpenDevice_negotiate spec m).channels.toNat *
        bytesPerSample (WIIUAUDIO_OpenDevice_negotiate spec m) := rfl

/-- C13: for every request the negotiated spec has
`size = samples * channels * bytes per sample`; and a request of 2 channels, a 16-bit
format, 48000 Hz and no frame count (0), with a hardware minimum of 512 frames, is
negotiated to 512 frames per buffer and 2048 bytes per slot. -/
theorem C13_buffer_size (spec : SDL_AudioSpec) (m : Nat) (format size0 : Nat)
    (h16 : SDL_AUDIO_BITSIZE format = 16) :
    ((SDL_AudioSpecGetBufferSize (WIIUAUDIO_OpenDevice_negotiate spec m) : Int) =
      (SDL_AudioSpecGetSamples (WIIUAUDIO_OpenDevice_negotiate spec m) : Int) *
        (WIIUAUDIO_OpenDevice_negotiate spec m).channels *
        (bytesPerSample (WIIUAUDIO_OpenDevice_negotiate spec m) : Int)) ∧
    SDL_AudioSpecGetSamples (WIIUAUDIO_OpenDevice_negotiate
      { freq := 48000, format := format, channels := 2, samples := 0, size := size0 } 512) = 512 ∧
    SDL_AudioSpecGetBufferSize (WIIUAUDIO_OpenDevice_negotiate
      { freq := 48000, format := format, channels := 2, samples := 0, size := size0 } 512) = 2048 := by
  have hs16 : SDL_AUDIO_BITSIZE AUDIO_S16MSB = 16 := by decide
  refine ⟨?_, ?_, ?_⟩
  · have hc : 0 ≤ (WIIUAUDIO_OpenDevice_negotiate spec m).channels :=
      le_trans (by decide) (negotiate_channels_pos spec m)
    rw [negotiate_size, SDL_AudioSpecGetSamples]
    push_cast
    rw [Int.toNat_of_nonneg hc]
  · simp [WIIUAUDIO_OpenDevice_negotiate, SDL_CalculateAudioSpec, SDL_AudioSpecGetSamples,
      SDL_AudioSpecSetSamples, WIIU_MAX_VALID_CHANNELS, h16]
  · simp [WIIUAUDIO_OpenDevice_negotiate, SDL_CalculateAudioSpec, SDL_AudioSpecGetSamples,
      SDL_AudioSpecSetSamples, SDL_AudioSpecGetBufferSize, WIIU_MAX_VALID_CHANNELS, h16, hs16]

/-- Witness of C13_buffer_size: the signed 16-bit little-endian format `0x8010`. -/
theorem C13_buffer_size_witness :
    SDL_AUDIO_BITSIZE 0x8010 = 16 ∧
    (((SDL_AudioSpecGetBufferSize (WIIUAUDIO_OpenDevice_negotiate stereoDev.spec 96) : Int) =
      (SDL_AudioSpecGetSamples (WIIUAUDIO_OpenDevice_negotiate stereoDev.spec 96) : Int) *
        (WIIUAUDIO_OpenDevice_negotiate stereoDev.spec 96).channels *
        (bytesPerSample (WIIUAUDIO_OpenDevice_negotiate stereoDev.spec 96) : Int)) ∧
    SDL_AudioSpecGetSamples (WIIUAUDIO_OpenDevice_negotiate
      { freq := 48000, format := 0x8010, channels := 2, samples := 0, size := 0 } 512) = 512 ∧
    SDL_AudioSpecGetBufferSize (WIIUAUDIO_OpenDevice_negotiate
      { freq := 48000, format := 0x8010, channels := 2, samples := 0, size := 0 } 512) = 2048) :=
  ⟨by decide, C13_buffer_size stereoDev.spec 96 0x8010 0 (by decide)⟩

/-! ### The allocation loop -/

theorem allocLoop_spec (memalign phys : Nat → Nat) (total : Nat) :
    ∀ (todo i : Nat) (allocs : List Nat) (k : Nat), k ≤ todo →
      (∀ j, j < k → blockRejected memalign phys total (i + j)) →
      (k < todo → blockAccepted memalign phys total (i + k) →
        allocLoop memalign phys total i todo allocs =
          { mixbuf := memalign (i + k),
            allocations := allocs ++ (List.range k).map (fun j => memalign (i + j)),
            attempts := i + k + 1 }) ∧
      (k < todo → memalign (i + k) = 0 →
        allocLoop memalign phys total i todo allocs =
          { mixbuf := 0,
            allocations := allocs ++ (List.range k).map (fun j => memalign (i + j)),
            attempts := i + k + 1 }) ∧
      (k = todo →
        allocLoop memalign phys total i todo allocs =
          { mixbuf := 0,
            allocations := allocs ++ (List.range k).map (fun j => memalign (i + j)),
            attempts := i + k }) := by
  intro todo
  induction todo with
  | zero =>
    intro i allocs k hk _
    have hk0 : k = 0 := Nat.le_zero.mp hk
    subst hk0
    refine ⟨fun h => absurd h (Nat.lt_irrefl 0), fun h => absurd h (Nat.lt_irrefl 0), fun _ => ?_⟩
    simp [allocLoop]
  | succ todo ih =>
    intro i allocs k hk hrej
    cases k with
    | zero =>
      refine ⟨fun _ hacc => ?_, fun _ hnull => ?_, fun h => absurd h (Nat.succ_ne_zero todo).symm⟩
      · obtain ⟨h1, h2⟩ := hacc
        simp only [Nat.add_zero] at h1 h2
        simp [allocLoop, h1, h2]
      · simp only [Nat.add_zero] at hnull
        simp [allocLoop, hnull]
    | succ k =>
      obtain ⟨h1, h2⟩ := hrej 0 (Nat.succ_pos k)
      simp only [Nat.add_zero] at h1 h2
      have hrej2 : ∀ j, j < k → blockRejected memalign phys total (i + 1 + j) := by
        intro j hj
        have := hrej (j + 1) (Nat.succ_lt_succ hj)
        rwa [show i + (j + 1) = i + 1 + j by omega] at this
      obtain ⟨ih1, ih2, ih3⟩ := ih (i + 1) (allocs ++ [memalign i]) k (Nat.le_of_succ_le_succ hk) hrej2
      have hlist : allocs ++ [memalign i] ++ (List.range k).map (fun j => memalign (i + 1 + j)) =
          allocs ++ (List.range (k + 1)).map (fun j => memalign (i + j)) := by
        rw [List.range_succ_eq_map, List.map_cons, List.map_map, List.append_assoc]
        simp only [List.singleton_append, Nat.add_zero]
        congr 2
        apply List.map_congr_left
        intro j _
        simp only [Function.comp, Nat.succ_eq_add_one]
        congr 1
        omega
      have hstep : allocLoop memalign phys total i (todo + 1) allocs =
          allocLoop memalign phys total (i + 1) todo (allocs ++ [memalign i]) := by
        simp [allocLoop, h1, h2]
      rw [hstep, ← hlist, show i + (k + 1) = i + 1 + k by omega]
      exact ⟨fun h => ih1 (Nat.lt_of_succ_lt_succ h), fun h => ih2 (Nat.lt_of_succ_lt_succ h),
        fun h => ih3 (Nat.succ.inj h)⟩

theorem allocLoop_attempts (memalign phys : Nat → Nat) (total : Nat) :
    ∀ (todo i : Nat) (allocs : List Nat),
      (allocLoop memalign phys total i todo allocs).attempts ≤ i + todo := by
  intro todo
  induction todo with
  | zero => intro i allocs; simp [allocLoop]
  | succ todo ih =>
    intro i allocs
    simp only [allocLoop]
    split_ifs
    · simp only; omega
    · simp only; omega
    · have := ih (i + 1) (allocs ++ [memalign i])
      omega

/-- C14: against every sequence of blocks returned by `memalign`, the allocation loop
makes at most 32 attempts; when attempt `k < 32` is the first whose block passes the
bank test (all earlier ones returned a block that failed it) that block is accepted,
the open goes on (return value 0) and exactly the `k` blocks rejected before are
released; when attempt `k < 32` returns no block after `k` rejected ones, or when all
32 attempts are rejected, the result is the out-of-memory error and exactly the
rejected blocks are released. -/
theorem C14_allocation_loop (memalign phys : Nat → Nat) (total : Nat) :
    (WIIUAUDIO_OpenDevice_allocate memalign phys total).2.1.attempts ≤ 32 ∧
    (∀ k, k < 32 → (∀ j, j < k → blockRejected memalign phys total j) →
      blockAccepted memalign phys total k →
      (WIIUAUDIO_OpenDevice_allocate memalign phys total).1 = 0 ∧
      (WIIUAUDIO_OpenDevice_allocate memalign phys total).2.1.mixbuf = memalign k ∧
      (WIIUAUDIO_OpenDevice_allocate memalign phys total).2.1.attempts = k + 1 ∧
      (WIIUAUDIO_OpenDevice_allocate memalign phys total).2.2 = releaseCalls memalign k) ∧
    (∀ k, k < 32 → (∀ j, j < k → blockRejected memalign phys total j) →
      memalign k = 0 →
      (WIIUAUDIO_OpenDevice_allocate memalign phys total).1 = SDL_OutOfMemory ∧
      (WIIUAUDIO_OpenDevice_allocate memalign phys total).2.1.attempts = k + 1 ∧
      (WIIUAUDIO_OpenDevice_allocate memalign phys total).2.2 = releaseCalls memalign k) ∧
    ((∀ j, j < 32 → blockRejected memalign phys total j) →
      (WIIUAUDIO_OpenDevice_allocate memalign phys total).1 = SDL_OutOfMemory ∧
      (WIIUAUDIO_OpenDevice_allocate memalign phys total).2.1.attempts = 32 ∧
      (WIIUAUDIO_OpenDevice_allocate memalign phys total).2.2 = releaseCalls memalign 32) := by
  refine ⟨?_, ?_, ?_, ?_⟩
  · have := allocLoop_attempts memalign phys total 32 0 []
    simpa [WIIUAUDIO_OpenDevice_allocate] using this
  · intro k hk hrej hacc
    have h := (allocLoop_spec memalign phys total 32 0 [] k (Nat.le_of_lt hk)
      (fun j hj => by rw [Nat.zero_add]; exact hrej j hj)).1 hk
      (by rw [Nat.zero_add]; exact hacc)
    simp only [WIIUAUDIO_OpenDevice_allocate, h, releaseCalls, Nat.zero_add, List.nil_append]
    exact ⟨by simp [hacc.1], trivial, trivial, trivial⟩
  · intro k hk hrej hnull
    have h := (allocLoop_spec memalign phys total 32 0 [] k (Nat.le_of_lt hk)
      (fun j hj => by rw [Nat.zero_add]; exact hrej j hj)).2.1 hk
      (by rw [Nat.zero_add]; exact hnull)
    simp only [WIIUAUDIO_OpenDevice_allocate, h, releaseCalls, Nat.zero_add, List.nil_append]
    exact ⟨by simp, trivial, trivial⟩
  · intro hrej
    have h := (allocLoop_spec memalign phys total 32 0 [] 32 (Nat.le_refl 32)
      (fun j hj => by rw [Nat.zero_add]; exact hrej j hj)).2.2 rfl
    simp only [WIIUAUDIO_OpenDevice_allocate, h, releaseCalls, Nat.zero_add, List.nil_append]
    exact ⟨by simp, trivial, trivial⟩

/-- Witness of C14_allocation_loop: the first two blocks end beyond the bank boundary
and are rejected, the third one passes the test. -/
theorem C14_allocation_loop_witness :
    (2 < 32 ∧ (∀ j, j < 2 → blockRejected sampleMemalign (fun a => a) 0x200 j) ∧
      blockAccepted sampleMemalign (fun a => a) 0x200 2) ∧
    ((WIIUAUDIO_OpenDevice_allocate sampleMemalign (fun a => a) 0x200).1 = 0 ∧
      (WIIUAUDIO_OpenDevice_allocate sampleMemalign (fun a => a) 0x200).2.1.mixbuf =
        sampleMemalign 2 ∧
      (WIIUAUDIO_OpenDevice_allocate sampleMemalign (fun a => a) 0x200).2.1.attempts = 2 + 1 ∧
      (WIIUAUDIO_OpenDevice_allocate sampleMemalign (fun a => a) 0x200).2.2 =
        releaseCalls sampleMemalign 2) :=
  ⟨by decide, (C14_allocation_loop sampleMemalign (fun a => a) 0x200).2.1 2
    (by decide) (by decide) (by decide)⟩

/-! ### Frame conditions of `WIIUAUDIO_PlayDevice` -/

theorem play_deinterleave_other (dev : SDL_AudioDevice) (m : Mem)
    (h8 : SDL_AUDIO_BITSIZE dev.spec.format ≠ 8) (h16 : SDL_AUDIO_BITSIZE dev.spec.format ≠ 16) :
    WIIUAUDIO_PlayDevice_deinterleave dev m = m := by
  simp [WIIUAUDIO_PlayDevice_deinterleave, h8, h16]

/-- The deinterleave step of `WIIUAUDIO_PlayDevice` changes no byte outside the scratch
buffer, when the scratch buffer does not overlap the rendering slot. -/
theorem play_deinterleave_frame (dev : SDL_AudioDevice) (m : Mem)
    (hsize : SDL_AudioSpecGetBufferSize dev.spec =
      SDL_AudioSpecGetSamples dev.spec * dev.spec.channels.toNat * bytesPerSample dev.spec)
    (hdisj : dev.hidden.deintvbuf + SDL_AudioSpecGetBufferSize dev.spec ≤
        dev.hidden.mixbufs dev.hidden.renderingid.toNat ∨
      dev.hidden.mixbufs dev.hidden.renderingid.toNat + SDL_AudioSpecGetBufferSize dev.spec ≤
        dev.hidden.deintvbuf)
    (a : Nat)
    (ha : a < dev.hidden.deintvbuf ∨
      dev.hidden.deintvbuf + SDL_AudioSpecGetBufferSize dev.spec ≤ a) :
    WIIUAUDIO_PlayDevice_deinterleave dev m a = m a := by
  by_cases h8 : SDL_AUDIO_BITSIZE dev.spec.format = 8
  · rw [play_deinterleave_eq dev m (Or.inl h8)]
    rw [hsize, Nat.mul_comm] at hdisj ha
    exact (deinterleave_spec _ _ _ _ _ m hdisj).2 a ha
  · by_cases h16 : SDL_AUDIO_BITSIZE dev.spec.format = 16
    · rw [play_deinterleave_eq dev m (Or.inr h16)]
      rw [hsize, Nat.mul_comm] at hdisj ha
      exact (deinterleave_spec _ _ _ _ _ m hdisj).2 a ha
    · rw [play_deinterleave_other dev m h8 h16]

/-- C15: for every device with `renderingid` in `[0, NUM_BUFFERS)`, slots laid back to
back, the buffer size of the negotiated spec and a scratch buffer outside the mix
region, `WIIUAUDIO_PlayDevice` sets `renderingid` to `(renderingid + 1) mod NUM_BUFFERS`,
changes no byte outside the slot that was rendering on entry and the scratch buffer,
and in particular leaves every byte of the other slot unchanged. -/
theorem C15_play_frame (dev : SDL_AudioDevice) (m : Mem)
    (hr : 0 ≤ dev.hidden.renderingid ∧ dev.hidden.renderingid < (NUM_BUFFERS : Int))
    (hsize : SDL_AudioSpecGetBufferSize dev.spec =
      SDL_AudioSpecGetSamples dev.spec * dev.spec.channels.toNat * bytesPerSample dev.spec)
    (hlayout : ∀ k, k < NUM_BUFFERS →
      dev.hidden.mixbufs k = dev.hidden.mixbufs 0 + SDL_AudioSpecGetBufferSize dev.spec * k)
    (hscratch : dev.hidden.deintvbuf + SDL_AudioSpecGetBufferSize dev.spec ≤
        dev.hidden.mixbufs 0 ∨
      dev.hidden.mixbufs 0 + SDL_AudioSpecGetBufferSize dev.spec * NUM_BUFFERS ≤
        dev.hidden.deintvbuf) :
    (WIIUAUDIO_PlayDevice dev m).1.hidden.renderingid =
      (dev.hidden.renderingid + 1) % (NUM_BUFFERS : Int) ∧
    (∀ a, ¬ inSlot dev dev.hidden.renderingid.toNat a →
      ¬ (dev.hidden.deintvbuf ≤ a ∧
        a < dev.hidden.deintvbuf + SDL_AudioSpecGetBufferSize dev.spec) →
      (WIIUAUDIO_PlayDevice dev m).2 a = m a) ∧
    (∀ a, inSlot dev (next_id dev.hidden.renderingid).toNat a →
      (WIIUAUDIO_PlayDevice dev m).2 a = m a) := by
  unfold NUM_BUFFERS at hr hlayout hscratch
  have hr01 : dev.hidden.renderingid = 0 ∨ dev.hidden.renderingid = 1 := by omega
  have hrn : dev.hidden.renderingid.toNat = 0 ∨ dev.hidden.renderingid.toNat = 1 := by omega
  have hslot := hlayout dev.hidden.renderingid.toNat (by omega)
  have h1 := hlayout 1 (by decide)
  have hdisj : dev.hidden.deintvbuf + SDL_AudioSpecGetBufferSize dev.spec ≤
        dev.hidden.mixbufs dev.hidden.renderingid.toNat ∨
      dev.hidden.mixbufs dev.hidden.renderingid.toNat + SDL_AudioSpecGetBufferSize dev.spec ≤
        dev.hidden.deintvbuf := by
    rcases hrn with h | h <;> rw [h] at hslot ⊢ <;> omega
  have hframe : ∀ a, ¬ inSlot dev dev.hidden.renderingid.toNat a →
      ¬ (dev.hidden.deintvbuf ≤ a ∧
        a < dev.hidden.deintvbuf + SDL_AudioSpecGetBufferSize dev.spec) →
      (WIIUAUDIO_PlayDevice dev m).2 a = m a := by
    intro a hns hnd
    simp only [WIIUAUDIO_PlayDevice, SDL_memcpy]
    unfold inSlot at hns
    rw [copyBytes_outside _ _ _ _ _ (by omega)]
    exact play_deinterleave_frame dev m hsize hdisj a (by omega)
  refine ⟨?_, hframe, ?_⟩
  · simp only [WIIUAUDIO_PlayDevice, next_id, NUM_BUFFERS]
    rcases hr01 with h | h <;> rw [h] <;> decide
  · intro a ha
    unfold inSlot at ha
    apply hframe a
    · unfold inSlot
      rcases hr01 with h | h <;> rw [h] at ha hslot ⊢ <;>
        simp only [next_id_zero, next_id_one] at ha <;>
        norm_num at ha hslot ⊢ <;> omega
    · rcases hr01 with h | h <;> rw [h] at ha <;>
        simp only [next_id_zero, next_id_one] at ha <;>
        norm_num at ha <;> omega

/-- Witness of C15_play_frame: the stereo 16-bit device rendering slot 1. -/
theorem C15_play_frame_witness :
    ((0 ≤ stereoDev.hidden.renderingid ∧ stereoDev.hidden.renderingid < (NUM_BUFFERS : Int)) ∧
     SDL_AudioSpecGetBufferSize stereoDev.spec =
      SDL_AudioSpecGetSamples stereoDev.spec * stereoDev.spec.channels.toNat *
        bytesPerSample stereoDev.spec ∧
     (∀ k, k < NUM_BUFFERS → stereoDev.hidden.mixbufs k =
        stereoDev.hidden.mixbufs 0 + SDL_AudioSpecGetBufferSize stereoDev.spec * k) ∧
     (stereoDev.hidden.deintvbuf + SDL_AudioSpecGetBufferSize stereoDev.spec ≤
        stereoDev.hidden.mixbufs 0 ∨
      stereoDev.hidden.mixbufs 0 + SDL_AudioSpecGetBufferSize stereoDev.spec * NUM_BUFFERS ≤
        stereoDev.hidden.deintvbuf)) ∧
    ((WIIUAUDIO_PlayDevice stereoDev sampleMem).1.hidden.renderingid =
      (stereoDev.hidden.renderingid + 1) % (NUM_BUFFERS : Int) ∧
    (∀ a, ¬ inSlot stereoDev stereoDev.hidden.renderingid.toNat a →
      ¬ (stereoDev.hidden.deintvbuf ≤ a ∧
        a < stereoDev.hidden.deintvbuf + SDL_AudioSpecGetBufferSize stereoDev.spec) →
      (WIIUAUDIO_PlayDevice stereoDev sampleMem).2 a = sampleMem a) ∧
    (∀ a, inSlot stereoDev (next_id stereoDev.hidden.renderingid).toNat a →
      (WIIUAUDIO_PlayDevice stereoDev sampleMem).2 a = sampleMem a)) :=
  ⟨by decide, C15_play_frame stereoDev sampleMem (by decide) (by decide) (by decide) (by decide)⟩

/-! ### Slot selection at the boundaries -/

theorem opened_slot0_start (dev : SDL_AudioDevice) (hop : Opened dev) :
    slotStartOffset dev 0 = 0 ∧ SDL_AudioSpecGetSamples dev.spec < 4294967296 := by
  obtain ⟨hc1, hc2, hbits, hsize, hb, hb32, hfit, hmix, hvoice⟩ := hop
  obtain ⟨_, hdata⟩ := hvoice 0 (by omega)
  constructor
  · have hd : (dev.hidden.voice 0).data = dev.hidden.mixbufs 0 := by
      rw [hdata]
      simp
    simp [slotStartOffset, calc_ax_offset, hd, toI32, toU32]
  · unfold SDL_AudioSpecGetSamples
    unfold NUM_BUFFERS at hfit
    have hcn : 1 ≤ dev.spec.channels.toNat := by omega
    have hw : 1 ≤ SDL_AUDIO_BITSIZE dev.spec.format / 8 := by
      rcases hbits with h | h <;> simp [h]
    have h1 : dev.spec.samples * 1 ≤ dev.spec.samples * dev.spec.channels.toNat :=
      Nat.mul_le_mul_left _ hcn
    have h2 : dev.spec.samples * dev.spec.channels.toNat * 1 ≤
        dev.spec.samples * dev.spec.channels.toNat * (SDL_AUDIO_BITSIZE dev.spec.format / 8) :=
      Nat.mul_le_mul_left _ hw
    rw [← hsize] at h2
    omega

/-- C16: in a device laid out by `WIIUAUDIO_OpenDevice` (1 or 2 channels, 8- or 16-bit,
any frame count that fits the region), when the current playback offset of channel 0
equals the start offset of slot 0, the inclusive range test succeeds for slot 0: the
scan itself yields slot 0 (not the no-match value `-1`) and `playingid = 0` is recorded. -/
theorem C16_wrap_to_slot0 (dev : SDL_AudioDevice) (hop : Opened dev)
    (hcur : (dev.hidden.voice 0).currentOffset = slotStartOffset dev 0) :
    slotTest dev 0 = true ∧ scanSlots dev 0 NUM_BUFFERS = 0 ∧
    (_WIIUAUDIO_framecallback dev).hidden.playingid = 0 := by
  obtain ⟨h0, hn⟩ := opened_slot0_start dev hop
  have ht : slotTest dev 0 = true := by
    apply slotTest_of_inSlotRange
    · unfold inSlotRange
      rw [hcur]
      exact ⟨Nat.le_refl _, Nat.le_add_right _ _⟩
    · rw [h0]
      omega
  refine ⟨ht, ?_, ?_⟩
  · simp [NUM_BUFFERS, scanSlots, ht]
  · rw [framecallback_playingid]
    simp [playing_buffer, NUM_BUFFERS, scanSlots, ht]

/-- Witness of C16_wrap_to_slot0: the stereo 16-bit device at playback offset 0. -/
theorem C16_wrap_to_slot0_witness :
    (Opened stereoDev ∧ (stereoDev.hidden.voice 0).currentOffset = slotStartOffset stereoDev 0) ∧
    (slotTest stereoDev 0 = true ∧ scanSlots stereoDev 0 NUM_BUFFERS = 0 ∧
      (_WIIUAUDIO_framecallback stereoDev).hidden.playingid = 0) :=
  ⟨by decide, C16_wrap_to_slot0 stereoDev (by decide) (by decide)⟩

/-- C17: when the current playback offset of channel 0 lies in the inclusive range
`[slotStart, slotStart + frames]` of no slot, the scan finds no slot (it yields `-1`)
and the callback records `playingid = 0`. -/
theorem C17_no_match_defaults_to_slot0 (dev : SDL_AudioDevice)
    (hno : ∀ i, i < NUM_BUFFERS → ¬ inSlotRange dev i) :
    scanSlots dev 0 NUM_BUFFERS = -1 ∧
    (_WIIUAUDIO_framecallback dev).hidden.playingid = 0 := by
  have hf : ∀ i, i < NUM_BUFFERS → slotTest dev i = false := by
    intro i hi
    cases h : slotTest dev i
    · rfl
    · exact absurd (inSlotRange_of_slotTest dev i h) (hno i hi)
  have h0 := hf 0 (by decide)
  have h1 := hf 1 (by decide)
  refine ⟨?_, ?_⟩
  · simp [NUM_BUFFERS, scanSlots, h0, h1]
  · rw [framecallback_playingid]
    simp [playing_buffer, NUM_BUFFERS, scanSlots, h0, h1]

/-- Witness of C17_no_match_defaults_to_slot0: stereo 16-bit device with 4 frames per
buffer at playback offset 5, between the range `[0, 4]` of slot 0 and `[8, 12]` of slot 1. -/
theorem C17_no_match_defaults_to_slot0_witness :
    (∀ i, i < NUM_BUFFERS →
      ¬ inSlotRange (sampleDev 2 0x9010 4 16 AX_VOICE_FORMAT_LPCM16 8 5 1 1) i) ∧
    (scanSlots (sampleDev 2 0x9010 4 16 AX_VOICE_FORMAT_LPCM16 8 5 1 1) 0 NUM_BUFFERS = -1 ∧
      (_WIIUAUDIO_framecallback
        (sampleDev 2 0x9010 4 16 AX_VOICE_FORMAT_LPCM16 8 5 1 1)).hidden.playingid = 0) :=
  ⟨by decide, C17_no_match_defaults_to_slot0
    (sampleDev 2 0x9010 4 16 AX_VOICE_FORMAT_LPCM16 8 5 1 1) (by decide)⟩

/-! ### Single-writer discipline -/

theorem pollState_playingid_const (updates : List Poll) :
    ∀ (dev : SDL_AudioDevice),
      (∀ u, u ∈ updates → u.playingid = dev.hidden.playingid) →
      ∀ j, (pollState dev updates j).hidden.playingid = dev.hidden.playingid := by
  induction updates with
  | nil => intro dev _ j; rw [pollState_nil]
  | cons u rest ih =>
    intro dev h j
    cases j with
    | zero => rw [pollState_zero]
    | succ j =>
      rw [pollState_cons_succ]
      have hu : u.playingid = dev.hidden.playingid := h u (List.mem_cons_self u rest)
      have := ih (applyPoll dev u)
        (fun v hv => by rw [h v (List.mem_cons_of_mem u hv)]; exact hu.symm) j
      rw [this]
      exact hu

/-- C18: for every device state, the frame callback leaves `renderingid` unchanged;
`WIIUAUDIO_PlayDevice` and `WIIUAUDIO_GetDeviceBuf` leave `playingid` unchanged; and the
device `WIIUAUDIO_WaitDevice` returns with is the one the other contexts wrote at the
poll where it returns, so when none of their writes changes `playingid` it returns with
`playingid` unchanged. -/
theorem C18_single_writer (dev : SDL_AudioDevice) (m : Mem) (sizeGiven : Bool)
    (updates : List Poll) :
    (_WIIUAUDIO_framecallback dev).hidden.renderingid = dev.hidden.renderingid ∧
    (WIIUAUDIO_PlayDevice dev m).1.hidden.playingid = dev.hidden.playingid ∧
    (WIIUAUDIO_GetDeviceBuf dev sizeGiven).1.hidden.playingid = dev.hidden.playingid ∧
    (WIIUAUDIO_GetDeviceBuf dev sizeGiven).1.hidden.renderingid = dev.hidden.renderingid ∧
    (∀ k d, WIIUAUDIO_WaitDevice dev updates = some (k, d) →
      d.hidden.playingid = (pollState dev updates k).hidden.playingid) ∧
    (∀ k d, WIIUAUDIO_WaitDevice dev updates = some (k, d) →
      (∀ u, u ∈ updates → u.playingid = dev.hidden.playingid) →
      d.hidden.playingid = dev.hidden.playingid) := by
  refine ⟨rfl, rfl, rfl, rfl, ?_, ?_⟩
  · intro k d hw
    rw [((wait_eq_some_iff updates dev k d).mp hw).2.1]
  · intro k d hw hu
    rw [((wait_eq_some_iff updates dev k d).mp hw).2.1]
    exact pollState_playingid_const updates dev hu k

/-! ### Teardown order of `WIIUAUDIO_CloseDevice` -/

theorem freeVoices_spec (vp : Nat → Nat) (e : List Effect) :
    freeVoices vp e =
      ((fun j => if j < 6 then 0 else vp j), e ++ (heldVoices vp 6).map Effect.AXFreeVoice) := by
  unfold freeVoices
  refine forLoop_induction
    (fun k st => st = ((fun j => if j < k then 0 else vp j),
      e ++ (heldVoices vp k).map Effect.AXFreeVoice)) 6 _ (vp, e) ?_ ?_
  · simp [heldVoices]
  · intro k _ st hst
    subst hst
    simp only [Nat.lt_irrefl, if_false]
    by_cases hk : vp k = 0
    · simp only [hk, ne_eq, not_true_eq_false, if_false]
      congr 1
      · funext j
        by_cases hj : j < k
        · simp [hj, Nat.lt_succ_of_lt hj]
        · by_cases hjk : j = k
          · subst hjk
            simp [hk]
          · have : ¬ j < k + 1 := by omega
            simp [hj, this]
      · simp [heldVoices, List.range_succ, List.filter_append, hk]
    · simp only [ne_eq, hk, not_false_eq_true, if_true]
      congr 1
      · funext j
        by_cases hjk : j = k
        · subst hjk
          simp
        · by_cases hj : j < k
          · simp [hjk, hj, Nat.lt_succ_of_lt hj]
          · have : ¬ j < k + 1 := by omega
            simp [hjk, hj, this]
      · simp [heldVoices, List.range_succ, List.filter_append, hk]

/-- The calls made by `WIIUAUDIO_CloseDevice`, in order. -/
theorem close_trace (dev : SDL_AudioDevice) (AXIsInit : Bool) :
    (WIIUAUDIO_CloseDevice dev AXIsInit).2 =
      (if AXIsInit then
        Effect.AXDeregisterAppFrameCallback ::
          ((heldVoices dev.hidden.voicePtr 6).map Effect.AXFreeVoice ++ [Effect.AXQuit])
       else []) ++ bufferFrees dev := by
  cases AXIsInit
  · simp only [WIIUAUDIO_CloseDevice, bufferFrees, Bool.false_eq_true, if_false,
      List.nil_append]
    split_ifs <;> simp
  · simp only [WIIUAUDIO_CloseDevice, bufferFrees, freeVoices_spec, if_true]
    split_ifs <;> simp

theorem append_order {α : Type} (A B : List α) (P Q : α → Bool)
    (hA : ∀ e, e ∈ A → Q e = false) (hB : ∀ e, e ∈ B → P e = false)
    (i j : Nat) (ei ej : α) (hi : (A ++ B)[i]? = some ei) (hj : (A ++ B)[j]? = some ej)
    (hP : P ei = true) (hQ : Q ej = true) : i < A.length ∧ A.length ≤ j := by
  constructor
  · by_contra hlt
    rw [List.getElem?_append_right (Nat.le_of_not_lt hlt)] at hi
    have := hB ei (List.getElem?_mem hi)
    rw [hP] at this
    exact absurd this (by decide)
  · by_contra hlt
    rw [List.getElem?_append_left (Nat.lt_of_not_le hlt)] at hj
    have := hA ej (List.getElem?_mem hj)
    rw [hQ] at this
    exact absurd this (by decide)

theorem bufferFrees_not_voice (dev : SDL_AudioDevice) :
    ∀ e, e ∈ bufferFrees dev → Effect.isVoiceFree e = false := by
  intro e he
  unfold bufferFrees at he
  simp only [List.mem_append, List.mem_singleton] at he
  rcases he with (he | he) | he
  · split_ifs at he
    · rw [List.mem_singleton.mp he]; rfl
    · exact absurd he (List.not_mem_nil e)
  · split_ifs at he
    · rw [List.mem_singleton.mp he]; rfl
    · exact absurd he (List.not_mem_nil e)
  · rw [he]; rfl

theorem close_head_not_buffer (vp : Nat → Nat) :
    ∀ e, e ∈ Effect.AXDeregisterAppFrameCallback ::
        ((heldVoices vp 6).map Effect.AXFreeVoice ++ [Effect.AXQuit]) →
      Effect.isBufferFree e = false := by
  intro e he
  simp only [List.mem_cons, List.mem_append, List.mem_map, List.mem_singleton,
    List.not_mem_nil, or_false] at he
  rcases he with he | ⟨h, _, he⟩ | he
  · rw [he]; rfl
  · rw [← he]; rfl
  · rw [he]; rfl

/-- C19: in the sequence of calls made by `WIIUAUDIO_CloseDevice`, every `AXFreeVoice`
comes after `AXDeregisterAppFrameCallback` and before every call that frees the mix
region, the scratch buffer or the hidden data; and when AX is initialised every
non-null entry of the voice table is freed and the table is left all `NULL`. -/
theorem C19_close_order (dev : SDL_AudioDevice) (AXIsInit : Bool) :
    (∀ (i h : Nat), (WIIUAUDIO_CloseDevice dev AXIsInit).2[i]? = some (Effect.AXFreeVoice h) →
      ∃ j, j < i ∧ (WIIUAUDIO_CloseDevice dev AXIsInit).2[j]? =
        some Effect.AXDeregisterAppFrameCallback) ∧
    (∀ (i j h : Nat) (e : Effect),
      (WIIUAUDIO_CloseDevice dev AXIsInit).2[i]? = some (Effect.AXFreeVoice h) →
      (WIIUAUDIO_CloseDevice dev AXIsInit).2[j]? = some e → Effect.isBufferFree e = true →
      i < j) ∧
    (AXIsInit = true → ∀ i, i < 6 → dev.hidden.voicePtr i ≠ 0 →
      Effect.AXFreeVoice (dev.hidden.voicePtr i) ∈ (WIIUAUDIO_CloseDevice dev AXIsInit).2 ∧
      (WIIUAUDIO_CloseDevice dev AXIsInit).1 i = 0) := by
  rw [close_trace]
  refine ⟨?_, ?_, ?_⟩
  · intro i h hi
    cases AXIsInit
    · simp only [Bool.false_eq_true, if_false, List.nil_append] at hi
      have := bufferFrees_not_voice dev _ (List.getElem?_mem hi)
      exact absurd this (by simp [Effect.isVoiceFree])
    · simp only [if_true] at hi ⊢
      refine ⟨0, ?_, by simp⟩
      rcases Nat.eq_zero_or_pos i with h0 | hpos
      · subst h0
        simp at hi
      · exact hpos
  · intro i j h e hi hj he
    cases AXIsInit
    · simp only [Bool.false_eq_true, if_false, List.nil_append] at hi
      have := bufferFrees_not_voice dev _ (List.getElem?_mem hi)
      exact absurd this (by simp [Effect.isVoiceFree])
    · simp only [if_true] at hi hj
      have := append_order _ _ Effect.isVoiceFree Effect.isBufferFree
        (close_head_not_buffer dev.hidden.voicePtr) (bufferFrees_not_voice dev)
        i j _ _ hi hj rfl he
      omega
  · intro hinit i hi hne
    subst hinit
    constructor
    · simp only [if_true, List.mem_append, List.mem_cons, List.mem_map]
      refine Or.inl (Or.inr (Or.inl ⟨dev.hidden.voicePtr i, ?_, rfl⟩))
      simp only [heldVoices, List.mem_map, List.mem_filter, List.mem_range]
      exact ⟨i, ⟨hi, by simp [hne]⟩, rfl⟩
    · simp [WIIUAUDIO_CloseDevice, freeVoices_spec, hi]

/-- The calls made when the stereo sample device is closed with AX initialised. -/
theorem close_trace_stereo :
    (WIIUAUDIO_CloseDevice stereoDev true).2 =
      [Effect.AXDeregisterAppFrameCallback, Effect.AXFreeVoice 0x3000,
       Effect.AXFreeVoice 0x3100, Effect.AXQuit, Effect.free 0x1000,
       Effect.SDL_free 0x2000, Effect.SDL_free_hidden] := by
  decide

/-! ### Voice acquisition failure in `WIIUAUDIO_OpenDevice` -/

theorem acquireLoop_fail (env : OpenEnv) (spec : SDL_AudioSpec) :
    ∀ (todo i : Nat) (hidden : SDL_PrivateAudioData) (k : Nat), k < todo →
      (∀ j, j < k → env.AXAcquireVoice (i + j) ≠ 0) → env.AXAcquireVoice (i + k) = 0 →
      (acquireLoop env spec i todo hidden).1 = false ∧
      (∀ j, (acquireLoop env spec i todo hidden).2.voicePtr j =
        if i ≤ j ∧ j ≤ i + k then env.AXAcquireVoice j else hidden.voicePtr j) := by
  intro todo
  induction todo with
  | zero => intro i hidden k hk; exact absurd hk (Nat.not_lt_zero k)
  | succ todo ih =>
    intro i hidden k hk hacq hfail
    cases k with
    | zero =>
      simp only [Nat.add_zero] at hfail
      simp only [acquireLoop, hfail, if_true, Nat.add_zero]
      refine ⟨trivial, fun j => ?_⟩
      by_cases hj : j = i
      · subst hj
        simp [hfail]
      · have : ¬ (i ≤ j ∧ j ≤ i) := by omega
        simp [hj, this]
    | succ k =>
      have h0 : env.AXAcquireVoice i ≠ 0 := by
        have := hacq 0 (Nat.succ_pos k)
        rwa [Nat.add_zero] at this
      simp only [acquireLoop, h0, if_false]
      obtain ⟨ih1, ih2⟩ := ih (i + 1) _ k (Nat.lt_of_succ_lt_succ hk)
        (fun j hj => by
          have := hacq (j + 1) (Nat.succ_lt_succ hj)
          rwa [show i + (j + 1) = i + 1 + j by omega] at this)
        (by rwa [show i + (k + 1) = i + 1 + k by omega] at hfail)
      refine ⟨ih1, fun j => ?_⟩
      rw [ih2 j]
      by_cases hj : j = i
      · subst hj
        have h1 : ¬ (j + 1 ≤ j ∧ j ≤ j + 1 + k) := by omega
        have h2 : j ≤ j ∧ j ≤ j + (k + 1) := by omega
        simp [h1, h2]
      · by_cases hr : i + 1 ≤ j ∧ j ≤ i + 1 + k
        · have h2 : i ≤ j ∧ j ≤ i + (k + 1) := by omega
          simp [hr, h2]
        · have h2 : ¬ (i ≤ j ∧ j ≤ i + (k + 1)) := by omega
          simp [hr, h2, hj]

/-- Counterexample to C20 as stated: two channels are negotiated, every allocation
succeeds, the voice of channel 0 is acquired and the acquisition for channel 1 fails.
The open returns the out-of-memory error, but the handle of channel 0 is still stored
in the voice table and no `AXFreeVoice` is issued for it. -/
theorem C20_counterexample :
    secondVoiceFails.AXAcquireVoice 0 ≠ 0 ∧ secondVoiceFails.AXAcquireVoice 1 = 0 ∧
    (WIIUAUDIO_OpenDevice secondVoiceFails stereoDev sampleMem).dev.spec.channels = 2 ∧
    (WIIUAUDIO_OpenDevice secondVoiceFails stereoDev sampleMem).ret = SDL_OutOfMemory ∧
    (WIIUAUDIO_OpenDevice secondVoiceFails stereoDev sampleMem).dev.hidden.voicePtr 0 ≠ 0 ∧
    Effect.AXFreeVoice (secondVoiceFails.AXAcquireVoice 0) ∉
      (WIIUAUDIO_OpenDevice secondVoiceFails stereoDev sampleMem).effects := by
  decide

/-- C20 (amended): for every channel count and every channel index `k` at which voice
acquisition fails in `WIIUAUDIO_OpenDevice` (the earlier allocations and acquisitions
having succeeded), the open returns the out-of-memory error after `AXQuit()`, its last
call, has shut the AX engine down; the voices acquired for channels `j < k` are not
freed one by one (no `AXFreeVoice` is issued), their handles stay stored in the voice
table, and the frame callback is not registered. -/
theorem C20_acquire_failure (env : OpenEnv) (dev : SDL_AudioDevice) (m : Mem) (k : Nat)
    (hh : env.hiddenAlloc = true)
    (hmix : (openAlloc env dev).2.1.mixbuf ≠ 0)
    (hd : env.deintvAlloc ≠ 0)
    (hk : k < (WIIUAUDIO_OpenDevice_negotiate dev.spec
      env.AXGetInputSamplesPerFrame).channels.toNat)
    (hacq : ∀ j, j < k → env.AXAcquireVoice j ≠ 0)
    (hfail : env.AXAcquireVoice k = 0) :
    (WIIUAUDIO_OpenDevice env dev m).ret = SDL_OutOfMemory ∧
    (WIIUAUDIO_OpenDevice env dev m).effects = (openAlloc env dev).2.2 ++ [Effect.AXQuit] ∧
    (∀ j, j < k →
      (WIIUAUDIO_OpenDevice env dev m).dev.hidden.voicePtr j = env.AXAcquireVoice j) ∧
    (∀ h, Effect.AXFreeVoice h ∉ (WIIUAUDIO_OpenDevice env dev m).effects) ∧
    Effect.AXRegisterAppFrameCallback ∉ (WIIUAUDIO_OpenDevice env dev m).effects := by
  obtain ⟨hf1, hf2⟩ := acquireLoop_fail env
    (WIIUAUDIO_OpenDevice_negotiate dev.spec env.AXGetInputSamplesPerFrame)
    (WIIUAUDIO_OpenDevice_negotiate dev.spec env.AXGetInputSamplesPerFrame).channels.toNat 0
    { zeroHidden with
      mixbufs := fun i => if i < NUM_BUFFERS
        then ptrAdd (openAlloc env dev).2.1.mixbuf
          ((SDL_AudioSpecGetBufferSize
            (WIIUAUDIO_OpenDevice_negotiate dev.spec env.AXGetInputSamplesPerFrame) : Int) *
              (i : Int)) else 0
      deintvbuf := env.deintvAlloc }
    k hk (fun j hj => by rw [Nat.zero_add]; exact hacq j hj)
    (by rw [Nat.zero_add]; exact hfail)
  unfold openAlloc openTotal at hmix hf1 hf2 ⊢
  have hres : WIIUAUDIO_OpenDevice env dev m =
      { ret := SDL_OutOfMemory,
        dev := { dev with
          spec := WIIUAUDIO_OpenDevice_negotiate dev.spec env.AXGetInputSamplesPerFrame,
          hidden := (acquireLoop env
            (WIIUAUDIO_OpenDevice_negotiate dev.spec env.AXGetInputSamplesPerFrame) 0
            (WIIUAUDIO_OpenDevice_negotiate dev.spec env.AXGetInputSamplesPerFrame).channels.toNat
            { zeroHidden with
              mixbufs := fun i => if i < NUM_BUFFERS
                then ptrAdd (WIIUAUDIO_OpenDevice_allocate env.memalign env.OSEffectiveToPhysical
                    (SDL_AudioSpecGetBufferSize (WIIUAUDIO_OpenDevice_negotiate dev.spec
                      env.AXGetInputSamplesPerFrame) * NUM_BUFFERS)).2.1.mixbuf
                  ((SDL_AudioSpecGetBufferSize
                    (WIIUAUDIO_OpenDevice_negotiate dev.spec env.AXGetInputSamplesPerFrame) : Int) *
                      (i : Int)) else 0
              deintvbuf := env.deintvAlloc }).2 },
        mem := zeroBytes m (WIIUAUDIO_OpenDevice_allocate env.memalign env.OSEffectiveToPhysical
            (SDL_AudioSpecGetBufferSize (WIIUAUDIO_OpenDevice_negotiate dev.spec
              env.AXGetInputSamplesPerFrame) * NUM_BUFFERS)).2.1.mixbuf
          (SDL_AudioSpecGetBufferSize (WIIUAUDIO_OpenDevice_negotiate dev.spec
              env.AXGetInputSamplesPerFrame) * NUM_BUFFERS),
        effects := (WIIUAUDIO_OpenDevice_allocate env.memalign env.OSEffectiveToPhysical
            (SDL_AudioSpecGetBufferSize (WIIUAUDIO_OpenDevice_negotiate dev.spec
              env.AXGetInputSamplesPerFrame) * NUM_BUFFERS)).2.2 ++ [Effect.AXQuit] } := by
    simp only [WIIUAUDIO_OpenDevice, hh, hmix, hd, hf1, if_true, if_false, Bool.true_eq_false]
  rw [hres]
  refine ⟨rfl, rfl, ?_, ?_, ?_⟩
  · intro j hj
    simp only
    rw [hf2 j]
    have : 0 ≤ j ∧ j ≤ 0 + k := by omega
    rw [if_pos this]
  · intro h hmem
    simp [WIIUAUDIO_OpenDevice_allocate] at hmem
  · intro hmem
    simp [WIIUAUDIO_OpenDevice_allocate] at hmem

/-- Witness of C20_acquire_failure: two channels negotiated, the acquisition for
channel 1 fails after the one for channel 0 succeeded. -/
theorem C20_acquire_failure_witness :
    (secondVoiceFails.hiddenAlloc = true ∧
     (openAlloc secondVoiceFails stereoDev).2.1.mixbuf ≠ 0 ∧
     secondVoiceFails.deintvAlloc ≠ 0 ∧
     1 < (WIIUAUDIO_OpenDevice_negotiate stereoDev.spec
      secondVoiceFails.AXGetInputSamplesPerFrame).channels.toNat ∧
     (∀ j, j < 1 → secondVoiceFails.AXAcquireVoice j ≠ 0) ∧
     secondVoiceFails.AXAcquireVoice 1 = 0) ∧
    ((WIIUAUDIO_OpenDevice secondVoiceFails stereoDev sampleMem).ret = SDL_OutOfMemory ∧
    (WIIUAUDIO_OpenDevice secondVoiceFails stereoDev sampleMem).effects =
      (openAlloc secondVoiceFails stereoDev).2.2 ++ [Effect.AXQuit] ∧
    (∀ j, j < 1 →
      (WIIUAUDIO_OpenDevice secondVoiceFails stereoDev sampleMem).dev.hidden.voicePtr j =
        secondVoiceFails.AXAcquireVoice j) ∧
    (∀ h, Effect.AXFreeVoice h ∉
      (WIIUAUDIO_OpenDevice secondVoiceFails stereoDev sampleMem).effects) ∧
    Effect.AXRegisterAppFrameCallback ∉
      (WIIUAUDIO_OpenDevice secondVoiceFails stereoDev sampleMem).effects) :=
  ⟨by decide, C20_acquire_failure secondVoiceFails stereoDev sampleMem 1
    (by decide) (by decide) (by decide) (by decide) (by decide) (by decide)⟩

/-! ### The joystick device map -/

theorem scanDevice_found (dm : Nat → Int) (d : Int) :
    ∀ (todo i k : Nat), i ≤ k → k < i + todo → dm k = d →
      (∀ j, i ≤ j → j < k → dm j ≠ d) → scanDevice dm d i todo = (k : Int) := by
  intro todo
  induction todo with
  | zero => intro i k h1 h2; omega
  | succ todo ih =>
    intro i k h1 h2 hk hbefore
    by_cases hik : i = k
    · subst hik
      simp [scanDevice, hk]
    · have hne : dm i ≠ d := hbefore i (Nat.le_refl i) (by omega)
      simp only [scanDevice, hne, if_false]
      exact ih (i + 1) k (by omega) (by omega) hk (fun j hj1 hj2 => hbefore j (by omega) hj2)

theorem scanDevice_none (dm : Nat → Int) (d : Int) :
    ∀ (todo i : Nat), (∀ j, i ≤ j → j < i + todo → dm j ≠ d) →
      scanDevice dm d i todo = -1 := by
  intro todo
  induction todo with
  | zero => intro i _; rfl
  | succ todo ih =>
    intro i h
    have hne : dm i ≠ d := h i (Nat.le_refl i) (by omega)
    simp only [scanDevice, hne, if_false]
    exact ih (i + 1) (fun j hj1 hj2 => h j (by omega) (by omega))

theorem filter_range_filled (p : Nat → Bool) :
    ∀ (N f : Nat), f ≤ N → (∀ i, i < f → p i = true) →
      (∀ i, i < N → f ≤ i → p i = false) → (List.range N).filter p = List.range f := by
  intro N
  induction N with
  | zero =>
    intro f hf _ _
    have : f = 0 := Nat.le_zero.mp hf
    subst this
    rfl
  | succ N ih =>
    intro f hf h1 h2
    rw [List.range_succ, List.filter_append]
    by_cases hfN : f ≤ N
    · rw [ih f hfN h1 (fun i hi hfi => h2 i (Nat.lt_succ_of_lt hi) hfi)]
      simp [h2 N (Nat.lt_succ_self N) hfN]
    · have hfe : f = N + 1 := by omega
      subst hfe
      rw [ih N (Nat.le_refl N) (fun i hi => h1 i (Nat.lt_succ_of_lt hi))
        (fun i hi hNi => absurd hi (by omega))]
      simp [h1 N (Nat.lt_succ_self N), List.range_succ]

theorem validCount_filled (N : Nat) (inv : Int) (maps : JoystickMaps) (f : Nat)
    (h : filledTo N inv maps f) : validCount N inv maps = f := by
  obtain ⟨hf, hv, hi⟩ := h
  unfold validCount
  rw [filter_range_filled _ N f hf (fun i hif => by simp [hv i hif])
    (fun i hiN hfi => by simp [hi i hiN hfi])]
  exact List.length_range f

/-- C21 (evaluation of the code): in a device map whose `fill` valid entries precede
the `WIIU_DEVICE_INVALID` ones, the number of valid entries is `fill`;
`WIIU_JoystickGetCount` returns `fill` at every fill level below `MAX_CONTROLLERS`, and
returns `-1` when the map is full (`fill = MAX_CONTROLLERS`). -/
theorem C21_getCount_by_fill_level (MAX_CONTROLLERS : Nat) (WIIU_DEVICE_INVALID : Int)
    (maps : JoystickMaps) (fill : Nat)
    (h : filledTo MAX_CONTROLLERS WIIU_DEVICE_INVALID maps fill) :
    validCount MAX_CONTROLLERS WIIU_DEVICE_INVALID maps = fill ∧
    (fill < MAX_CONTROLLERS →
      WIIU_JoystickGetCount MAX_CONTROLLERS WIIU_DEVICE_INVALID maps = (fill : Int)) ∧
    (fill = MAX_CONTROLLERS →
      WIIU_JoystickGetCount MAX_CONTROLLERS WIIU_DEVICE_INVALID maps = -1) := by
  refine ⟨validCount_filled _ _ _ _ h, ?_, ?_⟩
  · intro hlt
    obtain ⟨_, hv, hi⟩ := h
    unfold WIIU_JoystickGetCount WIIU_GetNextDeviceIndex WIIU_GetIndexForDevice
    exact scanDevice_found _ _ _ 0 fill (Nat.zero_le _) (by omega) (hi fill hlt (Nat.le_refl _))
      (fun j _ hj => hv j hj)
  · intro hfull
    obtain ⟨_, hv, _⟩ := h
    unfold WIIU_JoystickGetCount WIIU_GetNextDeviceIndex WIIU_GetIndexForDevice
    exact scanDevice_none _ _ _ 0 (fun j _ hj => hv j (by omega))

/-- Witness of C21_getCount_by_fill_level: a full map of five controllers. -/
theorem C21_getCount_by_fill_level_witness :
    filledTo 5 (-1) (sampleMaps 5) 5 ∧
    (validCount 5 (-1) (sampleMaps 5) = 5 ∧
    (5 < 5 → WIIU_JoystickGetCount 5 (-1) (sampleMaps 5) = ((5 : Nat) : Int)) ∧
    (5 = 5 → WIIU_JoystickGetCount 5 (-1) (sampleMaps 5) = -1)) :=
  ⟨by decide, C21_getCount_by_fill_level 5 (-1) (sampleMaps 5) 5 (by decide)⟩

/-- With five controllers in a map of five entries `WIIU_JoystickGetCount` returns `-1`
while five entries are valid. -/
theorem getCount_full_map :
    WIIU_JoystickGetCount 5 (-1) (sampleMaps 5) = -1 ∧ validCount 5 (-1) (sampleMaps 5) = 5 := by
  decide

theorem removeStep_shifted (N : Nat) (inv : Int) (idx k : Nat) (maps : JoystickMaps) :
    removeStep N inv (idx + k) (shiftedUpTo N inv idx k maps) =
      shiftedUpTo N inv idx (k + 1) maps := by
  unfold removeStep shiftedUpTo
  by_cases hlast : idx + k + 1 < N
  · simp only [hlast, if_true, JoystickMaps.mk.injEq]
    have hnot : ¬ (idx ≤ idx + k + 1 ∧ idx + k + 1 < idx + k) := by omega
    constructor <;>
    · funext j
      by_cases hj : j = idx + k
      · subst hj
        have h1 : idx ≤ idx + k ∧ idx + k < idx + (k + 1) := by omega
        simp only [if_true, if_neg hnot, if_pos h1, if_pos hlast]
      · simp only [if_neg hj]
        by_cases hr : idx ≤ j ∧ j < idx + k
        · have h2 : idx ≤ j ∧ j < idx + (k + 1) := by omega
          rw [if_pos hr, if_pos h2]
        · have h2 : ¬ (idx ≤ j ∧ j < idx + (k + 1)) := by omega
          rw [if_neg hr, if_neg h2]
  · simp only [hlast, if_false, JoystickMaps.mk.injEq]
    constructor <;>
    · funext j
      by_cases hj : j = idx + k
      · subst hj
        have h1 : idx ≤ idx + k ∧ idx + k < idx + (k + 1) := by omega
        simp only [if_true, if_pos h1, if_neg hlast]
      · simp only [if_neg hj]
        by_cases hr : idx ≤ j ∧ j < idx + k
        · have h2 : idx ≤ j ∧ j < idx + (k + 1) := by omega
          rw [if_pos hr, if_pos h2]
        · have h2 : ¬ (idx ≤ j ∧ j < idx + (k + 1)) := by omega
          rw [if_neg hr, if_neg h2]

theorem shiftedUpTo_zero (N : Nat) (inv : Int) (idx : Nat) (maps : JoystickMaps) :
    shiftedUpTo N inv idx 0 maps = maps := by
  unfold shiftedUpTo
  have h : ∀ j, ¬ (idx ≤ j ∧ j < idx + 0) := by
    intro j
    omega
  simp only [h, if_false]

theorem removeLoop_shifted (N : Nat) (inv : Int) (idx : Nat) (maps : JoystickMaps) (n : Nat) :
    forLoop n (fun k st => removeStep N inv (idx + k) st) maps = shiftedUpTo N inv idx n maps := by
  refine forLoop_induction (fun k st => st = shiftedUpTo N inv idx k maps) n _ maps ?_ ?_
  · exact (shiftedUpTo_zero N inv idx maps).symm
  · intro k _ st hst
    rw [hst]
    exact removeStep_shifted N inv idx k maps

/-- What `WIIU_RemoveDevice` does when the device is found at index `idx`. -/
theorem remove_found (N : Nat) (inv : Int) (maps : JoystickMaps) (d : Int) (idx : Nat)
    (h : WIIU_GetIndexForDevice N maps d = (idx : Int)) :
    WIIU_RemoveDevice N inv maps d = shiftedUpTo N inv idx (N - idx) maps := by
  have hne : ((idx : Int) = -1) = False := by
    apply eq_false
    omega
  simp only [WIIU_RemoveDevice, h, hne, if_false, Int.toNat_ofNat]
  exact removeLoop_shifted N inv idx maps (N - idx)

theorem remove_absent (N : Nat) (inv : Int) (maps : JoystickMaps) (d : Int)
    (h : ∀ i, i < N → maps.deviceMap i ≠ d) :
    WIIU_RemoveDevice N inv maps d = maps := by
  have h1 : WIIU_GetIndexForDevice N maps d = -1 :=
    scanDevice_none _ _ N 0 (fun j _ hj => h j (by omega))
  simp [WIIU_RemoveDevice, h1]

/-- C24: in a device map whose `fill` valid entries are distinct and precede the
`WIIU_DEVICE_INVALID` ones, for every device `d` (other than the invalid marker):
after `WIIU_RemoveDevice(d)` no entry is `d`; the map is unchanged when `d` was not
present; when `d` was at index `k` the entries before `k` are unchanged, every later
(device, instance) pair has moved one index down together, the last entry is
(`WIIU_DEVICE_INVALID`, `-1`) and the `fill - 1` valid entries still precede the invalid
ones. -/
theorem C24_remove_device (MAX_CONTROLLERS : Nat) (WIIU_DEVICE_INVALID : Int)
    (maps : JoystickMaps) (fill : Nat) (d : Int)
    (hfill : filledTo MAX_CONTROLLERS WIIU_DEVICE_INVALID maps fill)
    (hdist : ∀ i, i < fill → ∀ j, j < fill → maps.deviceMap i = maps.deviceMap j → i = j)
    (hd : d ≠ WIIU_DEVICE_INVALID) :
    (∀ i, i < MAX_CONTROLLERS →
      (WIIU_RemoveDevice MAX_CONTROLLERS WIIU_DEVICE_INVALID maps d).deviceMap i ≠ d) ∧
    ((∀ i, i < MAX_CONTROLLERS → maps.deviceMap i ≠ d) →
      WIIU_RemoveDevice MAX_CONTROLLERS WIIU_DEVICE_INVALID maps d = maps) ∧
    (∀ k, k < MAX_CONTROLLERS → maps.deviceMap k = d →
      (∀ i, i < k →
        (WIIU_RemoveDevice MAX_CONTROLLERS WIIU_DEVICE_INVALID maps d).deviceMap i =
          maps.deviceMap i ∧
        (WIIU_RemoveDevice MAX_CONTROLLERS WIIU_DEVICE_INVALID maps d).instanceMap i =
          maps.instanceMap i) ∧
      (∀ i, k ≤ i → i + 1 < MAX_CONTROLLERS →
        (WIIU_RemoveDevice MAX_CONTROLLERS WIIU_DEVICE_INVALID maps d).deviceMap i =
          maps.deviceMap (i + 1) ∧
        (WIIU_RemoveDevice MAX_CONTROLLERS WIIU_DEVICE_INVALID maps d).instanceMap i =
          maps.instanceMap (i + 1)) ∧
      (WIIU_RemoveDevice MAX_CONTROLLERS WIIU_DEVICE_INVALID maps d).deviceMap
        (MAX_CONTROLLERS - 1) = WIIU_DEVICE_INVALID ∧
      (WIIU_RemoveDevice MAX_CONTROLLERS WIIU_DEVICE_INVALID maps d).instanceMap
        (MAX_CONTROLLERS - 1) = -1 ∧
      filledTo MAX_CONTROLLERS WIIU_DEVICE_INVALID
        (WIIU_RemoveDevice MAX_CONTROLLERS WIIU_DEVICE_INVALID maps d) (fill - 1)) ∧
    (∃ fill2, filledTo MAX_CONTROLLERS WIIU_DEVICE_INVALID
      (WIIU_RemoveDevice MAX_CONTROLLERS WIIU_DEVICE_INVALID maps d) fill2) := by
  obtain ⟨hf, hv, hi⟩ := hfill
  -- an occurrence of `d` lies below `fill` and is the first one
  have hbelow : ∀ k, k < MAX_CONTROLLERS → maps.deviceMap k = d → k < fill := by
    intro k hk hkd
    by_contra hnot
    exact hd (by rw [← hkd]; exact hi k hk (Nat.le_of_not_lt hnot))
  have hfound : ∀ k, k < MAX_CONTROLLERS → maps.deviceMap k = d →
      WIIU_RemoveDevice MAX_CONTROLLERS WIIU_DEVICE_INVALID maps d =
        shiftedUpTo MAX_CONTROLLERS WIIU_DEVICE_INVALID k (MAX_CONTROLLERS - k) maps := by
    intro k hk hkd
    apply remove_found
    apply scanDevice_found _ _ MAX_CONTROLLERS 0 k (Nat.zero_le _) (by omega) hkd
    intro j _ hjk hjd
    have := hdist j (by have := hbelow k hk hkd; omega) k (hbelow k hk hkd) (by rw [hjd, hkd])
    omega
  have hthird : ∀ k, k < MAX_CONTROLLERS → maps.deviceMap k = d →
      (∀ i, i < k →
        (WIIU_RemoveDevice MAX_CONTROLLERS WIIU_DEVICE_INVALID maps d).deviceMap i =
          maps.deviceMap i ∧
        (WIIU_RemoveDevice MAX_CONTROLLERS WIIU_DEVICE_INVALID maps d).instanceMap i =
          maps.instanceMap i) ∧
      (∀ i, k ≤ i → i + 1 < MAX_CONTROLLERS →
        (WIIU_RemoveDevice MAX_CONTROLLERS WIIU_DEVICE_INVALID maps d).deviceMap i =
          maps.deviceMap (i + 1) ∧
        (WIIU_RemoveDevice MAX_CONTROLLERS WIIU_DEVICE_INVALID maps d).instanceMap i =
          maps.instanceMap (i + 1)) ∧
      (WIIU_RemoveDevice MAX_CONTROLLERS WIIU_DEVICE_INVALID maps d).deviceMap
        (MAX_CONTROLLERS - 1) = WIIU_DEVICE_INVALID ∧
      (WIIU_RemoveDevice MAX_CONTROLLERS WIIU_DEVICE_INVALID maps d).instanceMap
        (MAX_CONTROLLERS - 1) = -1 ∧
      filledTo MAX_CONTROLLERS WIIU_DEVICE_INVALID
        (WIIU_RemoveDevice MAX_CONTROLLERS WIIU_DEVICE_INVALID maps d) (fill - 1) := by
    intro k hk hkd
    have hkf := hbelow k hk hkd
    rw [hfound k hk hkd]
    refine ⟨?_, ?_, ?_, ?_, ?_, ?_, ?_⟩
    · intro i hik
      have h1 : ¬ (k ≤ i ∧ i < k + (MAX_CONTROLLERS - k)) := by omega
      simp only [shiftedUpTo, if_neg h1, and_self]
    · intro i hki hiN
      have h1 : k ≤ i ∧ i < k + (MAX_CONTROLLERS - k) := by omega
      simp only [shiftedUpTo, if_pos h1, if_pos hiN, and_self]
    · have h1 : k ≤ MAX_CONTROLLERS - 1 ∧ MAX_CONTROLLERS - 1 < k + (MAX_CONTROLLERS - k) := by
        omega
      have h2 : ¬ (MAX_CONTROLLERS - 1 + 1 < MAX_CONTROLLERS) := by omega
      simp only [shiftedUpTo, if_pos h1, if_neg h2]
    · have h1 : k ≤ MAX_CONTROLLERS - 1 ∧ MAX_CONTROLLERS - 1 < k + (MAX_CONTROLLERS - k) := by
        omega
      have h2 : ¬ (MAX_CONTROLLERS - 1 + 1 < MAX_CONTROLLERS) := by omega
      simp only [shiftedUpTo, if_pos h1, if_neg h2]
    · omega
    · intro i hif
      by_cases hik : i < k
      · have h1 : ¬ (k ≤ i ∧ i < k + (MAX_CONTROLLERS - k)) := by omega
        simp only [shiftedUpTo, if_neg h1]
        exact hv i (by omega)
      · have h1 : k ≤ i ∧ i < k + (MAX_CONTROLLERS - k) := by omega
        have h2 : i + 1 < MAX_CONTROLLERS := by omega
        simp only [shiftedUpTo, if_pos h1, if_pos h2]
        exact hv (i + 1) (by omega)
    · intro i hiN hfi
      have h1 : k ≤ i ∧ i < k + (MAX_CONTROLLERS - k) := by omega
      simp only [shiftedUpTo, if_pos h1]
      by_cases h2 : i + 1 < MAX_CONTROLLERS
      · rw [if_pos h2]
        exact hi (i + 1) h2 (by omega)
      · rw [if_neg h2]
  by_cases hpres : ∃ k, k < MAX_CONTROLLERS ∧ maps.deviceMap k = d
  · obtain ⟨k, hk, hkd⟩ := hpres
    obtain ⟨t1, t2, t3, t4, t5⟩ := hthird k hk hkd
    refine ⟨?_, remove_absent _ _ _ _, hthird, ⟨fill - 1, t5⟩⟩
    intro i hiN hid
    have hkf := hbelow k hk hkd
    by_cases hik : i < k
    · rw [(t1 i hik).1] at hid
      have := hdist i (by omega) k hkf (by rw [hid, hkd])
      omega
    · by_cases h2 : i + 1 < MAX_CONTROLLERS
      · rw [(t2 i (by omega) h2).1] at hid
        have := hdist (i + 1) (hbelow (i + 1) h2 hid) k hkf (by rw [hid, hkd])
        omega
      · have hie : i = MAX_CONTROLLERS - 1 := by omega
        rw [hie, t3] at hid
        exact hd hid.symm
  · have habs : ∀ i, i < MAX_CONTROLLERS → maps.deviceMap i ≠ d :=
      fun i hi2 hid => hpres ⟨i, hi2, hid⟩
    have heq := remove_absent MAX_CONTROLLERS WIIU_DEVICE_INVALID maps d habs
    refine ⟨?_, remove_absent _ _ _ _, hthird, ⟨fill, ?_⟩⟩
    · rw [heq]
      exact habs
    · rw [heq]
      exact ⟨hf, hv, hi⟩

/-- Witness of C24_remove_device: device 1 is removed from a map of five entries
holding the devices 0, 1, 2. -/
theorem C24_remove_device_witness :
    (filledTo 5 (-1) (sampleMaps 3) 3 ∧
     (∀ i, i < 3 → ∀ j, j < 3 →
      (sampleMaps 3).deviceMap i = (sampleMaps 3).deviceMap j → i = j) ∧
     (1 : Int) ≠ -1) ∧
    ((∀ i, i < 5 → (WIIU_RemoveDevice 5 (-1) (sampleMaps 3) 1).deviceMap i ≠ 1) ∧
    ((∀ i, i < 5 → (sampleMaps 3).deviceMap i ≠ 1) →
      WIIU_RemoveDevice 5 (-1) (sampleMaps 3) 1 = sampleMaps 3) ∧
    (∀ k, k < 5 → (sampleMaps 3).deviceMap k = 1 →
      (∀ i, i < k →
        (WIIU_RemoveDevice 5 (-1) (sampleMaps 3) 1).deviceMap i = (sampleMaps 3).deviceMap i ∧
        (WIIU_RemoveDevice 5 (-1) (sampleMaps 3) 1).instanceMap i =
          (sampleMaps 3).instanceMap i) ∧
      (∀ i, k ≤ i → i + 1 < 5 →
        (WIIU_RemoveDevice 5 (-1) (sampleMaps 3) 1).deviceMap i =
          (sampleMaps 3).deviceMap (i + 1) ∧
        (WIIU_RemoveDevice 5 (-1) (sampleMaps 3) 1).instanceMap i =
          (sampleMaps 3).instanceMap (i + 1)) ∧
      (WIIU_RemoveDevice 5 (-1) (sampleMaps 3) 1).deviceMap (5 - 1) = -1 ∧
      (WIIU_RemoveDevice 5 (-1) (sampleMaps 3) 1).instanceMap (5 - 1) = -1 ∧
      filledTo 5 (-1) (WIIU_RemoveDevice 5 (-1) (sampleMaps 3) 1) (3 - 1)) ∧
    (∃ fill2, filledTo 5 (-1) (WIIU_RemoveDevice 5 (-1) (sampleMaps 3) 1) fill2)) :=
  ⟨by decide, C24_remove_device 5 (-1) (sampleMaps 3) 3 1 (by decide) (by decide) (by decide)⟩

/-- The maps after device 1 is removed from the devices 0, 1, 2: the pair of device 2
moved to index 1. -/
theorem remove_sample :
    (List.range 5).map (WIIU_RemoveDevice 5 (-1) (sampleMaps 3) 1).deviceMap = [0, 2, -1, -1, -1] ∧
    (List.range 5).map (WIIU_RemoveDevice 5 (-1) (sampleMaps 3) 1).instanceMap =
      [100, 102, -1, -1, -1] := by
  decide

/-! ### The slot-index invariant -/

theorem acquireLoop_success (env : OpenEnv) (spec : SDL_AudioSpec) :
    ∀ (todo i : Nat) (hidden : SDL_PrivateAudioData),
      (acquireLoop env spec i todo hidden).1 = true →
      ((hidden.playingid = 0 ∧ hidden.renderingid = 1) ∨ 0 < todo) →
      (acquireLoop env spec i todo hidden).2.playingid = 0 ∧
      (acquireLoop env spec i todo hidden).2.renderingid = 1 := by
  intro todo
  induction todo with
  | zero =>
    intro i hidden _ h
    rcases h with h | h
    · exact h
    · exact absurd h (Nat.lt_irrefl 0)
  | succ todo ih =>
    intro i hidden hs _
    by_cases h0 : env.AXAcquireVoice i = 0
    · simp [acquireLoop, h0] at hs
    · simp only [acquireLoop, h0, if_false] at hs ⊢
      exact ih (i + 1) _ hs (Or.inl ⟨rfl, rfl⟩)

/-- The function `WIIUAUDIO_OpenDevice` written with the named intermediate results. -/
theorem open_unfold (env : OpenEnv) (dev : SDL_AudioDevice) (m : Mem) :
    WIIUAUDIO_OpenDevice env dev m =
      if env.hiddenAlloc = false then
        { ret := SDL_OutOfMemory, dev := dev, mem := m, effects := [] }
      else if (openAlloc env dev).2.1.mixbuf = 0 then
        { ret := SDL_OutOfMemory,
          dev := { dev with
            spec := WIIUAUDIO_OpenDevice_negotiate dev.spec env.AXGetInputSamplesPerFrame,
            hidden := zeroHidden },
          mem := m, effects := (openAlloc env dev).2.2 }
      else if env.deintvAlloc = 0 then
        { ret := SDL_OutOfMemory,
          dev := { dev with
            spec := WIIUAUDIO_OpenDevice_negotiate dev.spec env.AXGetInputSamplesPerFrame,
            hidden := openHidden env dev },
          mem := zeroBytes m (openAlloc env dev).2.1.mixbuf (openTotal env dev),
          effects := (openAlloc env dev).2.2 ++ [Effect.AXQuit] }
      else if (openAcquire env dev).1 = false then
        { ret := SDL_OutOfMemory,
          dev := { dev with
            spec := WIIUAUDIO_OpenDevice_negotiate dev.spec env.AXGetInputSamplesPerFrame,
            hidden := (openAcquire env dev).2 },
          mem := zeroBytes m (openAlloc env dev).2.1.mixbuf (openTotal env dev),
          effects := (openAlloc env dev).2.2 ++ [Effect.AXQuit] }
      else
        { ret := 0,
          dev := { dev with
            spec := WIIUAUDIO_OpenDevice_negotiate dev.spec env.AXGetInputSamplesPerFrame,
            hidden := (openAcquire env dev).2 },
          mem := zeroBytes m (openAlloc env dev).2.1.mixbuf (openTotal env dev),
          effects := (openAlloc env dev).2.2 ++ [Effect.AXRegisterAppFrameCallback] } := rfl

/-- A return value 0 of `WIIUAUDIO_OpenDevice` means that every step succeeded; the
device then carries the negotiated spec and the hidden data left by the voice loop. -/
theorem open_success (env : OpenEnv) (dev : SDL_AudioDevice) (m : Mem)
    (h : (WIIUAUDIO_OpenDevice env dev m).ret = 0) :
    env.hiddenAlloc = true ∧ (openAlloc env dev).2.1.mixbuf ≠ 0 ∧ env.deintvAlloc ≠ 0 ∧
    (openAcquire env dev).1 = true ∧
    (WIIUAUDIO_OpenDevice env dev m).dev.hidden = (openAcquire env dev).2 ∧
    (WIIUAUDIO_OpenDevice env dev m).dev.spec =
      WIIUAUDIO_OpenDevice_negotiate dev.spec env.AXGetInputSamplesPerFrame ∧
    (WIIUAUDIO_OpenDevice env dev m).effects =
      (openAlloc env dev).2.2 ++ [Effect.AXRegisterAppFrameCallback] := by
  have hoom : SDL_OutOfMemory ≠ 0 := by decide
  rw [open_unfold] at h ⊢
  by_cases h1 : env.hiddenAlloc = false
  · rw [if_pos h1] at h
    exact absurd h hoom
  · rw [if_neg h1] at h ⊢
    by_cases h2 : (openAlloc env dev).2.1.mixbuf = 0
    · rw [if_pos h2] at h
      exact absurd h hoom
    · rw [if_neg h2] at h ⊢
      by_cases h3 : env.deintvAlloc = 0
      · rw [if_pos h3] at h
        exact absurd h hoom
      · rw [if_neg h3] at h ⊢
        by_cases h4 : (openAcquire env dev).1 = false
        · rw [if_pos h4] at h
          exact absurd h hoom
        · rw [if_neg h4]
          exact ⟨by simpa using h1, h2, h3, by simpa using h4, rfl, rfl, rfl⟩

theorem playing_buffer_inv (dev : SDL_AudioDevice) :
    0 ≤ playing_buffer dev ∧ playing_buffer dev < (NUM_BUFFERS : Int) := by
  unfold NUM_BUFFERS
  rcases playing_buffer_range dev with h | h <;> rw [h] <;> decide

theorem next_id_inv (r : Int) (hr : 0 ≤ r ∧ r < (NUM_BUFFERS : Int)) :
    0 ≤ next_id r ∧ next_id r < (NUM_BUFFERS : Int) := by
  unfold NUM_BUFFERS at hr ⊢
  have h : r = 0 ∨ r = 1 := by omega
  rcases h with h | h <;> rw [h] <;> decide

theorem pollState_playingid_inv (updates : List Poll) :
    ∀ (dev : SDL_AudioDevice),
      (0 ≤ dev.hidden.playingid ∧ dev.hidden.playingid < (NUM_BUFFERS : Int)) →
      (∀ u, u ∈ updates → 0 ≤ u.playingid ∧ u.playingid < (NUM_BUFFERS : Int)) →
      ∀ j, 0 ≤ (pollState dev updates j).hidden.playingid ∧
        (pollState dev updates j).hidden.playingid < (NUM_BUFFERS : Int) := by
  induction updates with
  | nil => intro dev h _ j; rw [pollState_nil]; exact h
  | cons u rest ih =>
    intro dev h hu j
    cases j with
    | zero => rw [pollState_zero]; exact h
    | succ j =>
      rw [pollState_cons_succ]
      exact ih (applyPoll dev u) (hu u (List.mem_cons_self u rest))
        (fun v hv => hu v (List.mem_cons_of_mem u hv)) j

/-- C22: after a successful `WIIUAUDIO_OpenDevice` (return value 0) `playingid = 0` and
`renderingid = 1`, so `WIIUAUDIO_WaitDevice` returns at its first poll without sleeping;
and from a device whose two indices lie in `[0, NUM_BUFFERS)` the frame callback,
`WIIUAUDIO_PlayDevice`, `WIIUAUDIO_GetDeviceBuf` and `WIIUAUDIO_WaitDevice` (the
callback writing in-range values of `playingid` between its polls) all yield a device
whose two indices lie in `[0, NUM_BUFFERS)`. -/
theorem C22_slot_index_invariant (env : OpenEnv) (dev0 : SDL_AudioDevice) (m0 : Mem)
    (dev : SDL_AudioDevice) (m : Mem) (sizeGiven : Bool) (updates : List Poll) :
    ((WIIUAUDIO_OpenDevice env dev0 m0).ret = 0 →
      (WIIUAUDIO_OpenDevice env dev0 m0).dev.hidden.playingid = 0 ∧
      (WIIUAUDIO_OpenDevice env dev0 m0).dev.hidden.renderingid = 1 ∧
      slotIndexInv (WIIUAUDIO_OpenDevice env dev0 m0).dev ∧
      WIIUAUDIO_WaitDevice (WIIUAUDIO_OpenDevice env dev0 m0).dev updates =
        some (0, (WIIUAUDIO_OpenDevice env dev0 m0).dev)) ∧
    (slotIndexInv dev →
      slotIndexInv (_WIIUAUDIO_framecallback dev) ∧
      slotIndexInv (WIIUAUDIO_PlayDevice dev m).1 ∧
      slotIndexInv (WIIUAUDIO_GetDeviceBuf dev sizeGiven).1 ∧
      (∀ k d, WIIUAUDIO_WaitDevice dev updates = some (k, d) →
        (∀ u, u ∈ updates → 0 ≤ u.playingid ∧ u.playingid < (NUM_BUFFERS : Int)) →
        slotIndexInv d)) := by
  constructor
  · intro hret
    obtain ⟨_, _, _, hacq, hhid, _, _⟩ := open_success env dev0 m0 hret
    have hpos : 0 < (WIIUAUDIO_OpenDevice_negotiate dev0.spec
        env.AXGetInputSamplesPerFrame).channels.toNat := by
      have := negotiate_channels_pos dev0.spec env.AXGetInputSamplesPerFrame
      omega
    obtain ⟨hp, hr⟩ := acquireLoop_success env _ _ 0 (openHidden env dev0) hacq (Or.inr hpos)
    have hp2 : (WIIUAUDIO_OpenDevice env dev0 m0).dev.hidden.playingid = 0 := by
      rw [hhid]; exact hp
    have hr2 : (WIIUAUDIO_OpenDevice env dev0 m0).dev.hidden.renderingid = 1 := by
      rw [hhid]; exact hr
    refine ⟨hp2, hr2, ?_, ?_⟩
    · unfold slotIndexInv NUM_BUFFERS
      rw [hp2, hr2]
      decide
    · rw [wait_eq_some_iff]
      refine ⟨Nat.zero_le _, (pollState_zero _ _).symm,
        fun j hj => absurd hj (Nat.not_lt_zero j), ?_⟩
      rw [pollState_zero, waitCond_false_iff, hp2, hr2]
      exact Or.inr (by decide)
  · intro hinv
    obtain ⟨hp, hr⟩ := hinv
    refine ⟨⟨?_, hr⟩, ⟨hp, ?_⟩, ⟨hp, hr⟩, ?_⟩
    · rw [framecallback_playingid]
      exact playing_buffer_inv dev
    · exact next_id_inv _ hr
    · intro k d hw hu
      have hd := ((wait_eq_some_iff updates dev k d).mp hw).2.1
      rw [hd]
      refine ⟨pollState_playingid_inv updates dev hp hu k, ?_⟩
      rw [pollState_renderingid]
      exact hr

/-- Witness of C22_slot_index_invariant: an open in which every allocation and every
voice acquisition succeeds. -/
theorem C22_slot_index_invariant_witness :
    (WIIUAUDIO_OpenDevice allSucceed stereoDev sampleMem).ret = 0 ∧
    ((WIIUAUDIO_OpenDevice allSucceed stereoDev sampleMem).dev.hidden.playingid = 0 ∧
      (WIIUAUDIO_OpenDevice allSucceed stereoDev sampleMem).dev.hidden.renderingid = 1 ∧
      slotIndexInv (WIIUAUDIO_OpenDevice allSucceed stereoDev sampleMem).dev ∧
      WIIUAUDIO_WaitDevice (WIIUAUDIO_OpenDevice allSucceed stereoDev sampleMem).dev [] =
        some (0, (WIIUAUDIO_OpenDevice allSucceed stereoDev sampleMem).dev)) :=
  ⟨by decide, (C22_slot_index_invariant allSucceed stereoDev sampleMem stereoDev sampleMem
    true []).1 (by decide)⟩

/-! ### Offsets programmed by the callback in an opened device -/

/-- In a device laid out by open, the sample size of voice `i` is the one of the spec
and its data pointer is `mixbufs[0] + frames * i * sample size`. -/
theorem opened_voice (dev : SDL_AudioDevice) (hop : Opened dev) (i : Nat)
    (hic : i < dev.spec.channels.toNat) :
    ∃ w : Nat, (w = 1 ∨ w = 2) ∧ sizeof_sample (dev.hidden.voice i) = (w : Int) ∧
      bytesPerSample dev.spec = w ∧
      (dev.hidden.voice i).data = dev.hidden.mixbufs 0 + dev.spec.samples * i * w ∧
      dev.spec.size = dev.spec.samples * dev.spec.channels.toNat * w := by
  obtain ⟨_, _, hbits, hsize, _, _, _, _, hvoice⟩ := hop
  obtain ⟨hdt, hdata⟩ := hvoice i hic
  rcases hbits with h8 | h16
  · refine ⟨1, Or.inl rfl, ?_, ?_, ?_, ?_⟩
    · simp [sizeof_sample, hdt, h8]
    · simp [bytesPerSample, h8]
    · rw [hdata]
      simp [hdt, h8]
    · rw [hsize, h8]
  · have hne : AX_VOICE_FORMAT_LPCM16 ≠ AX_VOICE_FORMAT_LPCM8 := by decide
    refine ⟨2, Or.inr rfl, ?_, ?_, ?_, ?_⟩
    · simp [sizeof_sample, hdt, h16, hne]
    · simp [bytesPerSample, h16]
    · rw [hdata]
      simp [hdt, h16, hne]
    · rw [hsize, h16]

theorem loop_offset_eq (b n c w i t d : Nat) (hw : w = 1 ∨ w = 2) (ht : t = 0 ∨ t = 1)
    (hfit : b + n * c * w * 2 ≤ 4294967296) (hb : 0 < b) (hb32 : b < 4294967296) (hi : i < c)
    (hd : d = b + n * i * w) :
    toU32 (Int.tdiv (toI32 ((ptrAdd (b + n * c * w * t) ((n : Int) * (w : Int) * (i : Int)) : Int)
      - (d : Int))) (w : Int)) = t * n * c := by
  have h1 : n * i + n ≤ n * c := mul_succ_le n hi
  have h0 : n = 0 → n * c = 0 := by
    rintro rfl
    simp
  subst hd
  have hp : ptrAdd (b + n * c * w * t) ((n : Int) * (w : Int) * (i : Int)) =
      b + n * c * w * t + n * i * w := by
    unfold ptrAdd toU32
    have : ((b + n * c * w * t : Nat) : Int) + (n : Int) * (w : Int) * (i : Int) =
        ((b + n * c * w * t + n * i * w : Nat) : Int) := by
      push_cast
      ring
    rw [this]
    rcases hw with rfl | rfl <;> rcases ht with rfl | rfl <;> omega
  rw [hp]
  have hdiff : ((b + n * c * w * t + n * i * w : Nat) : Int) - ((b + n * i * w : Nat) : Int) =
      ((n * c * w * t : Nat) : Int) := by
    push_cast
    ring
  rw [hdiff]
  have hI : toI32 ((n * c * w * t : Nat) : Int) = ((n * c * w * t : Nat) : Int) := by
    unfold toI32
    rcases hw with rfl | rfl <;> rcases ht with rfl | rfl <;> omega
  rw [hI, Int.tdiv_eq_ediv (Int.ofNat_nonneg _) (Int.ofNat_nonneg _)]
  have hq : ((n * c * w * t : Nat) : Int) / (w : Int) = ((n * c * t : Nat) : Int) := by
    rcases hw with rfl | rfl <;> rcases ht with rfl | rfl <;> omega
  rw [hq]
  unfold toU32
  have hcomm : t * n * c = n * c * t := by
    rw [Nat.mul_assoc, Nat.mul_comm]
  rw [hcomm]
  rcases hw with rfl | rfl <;> rcases ht with rfl | rfl <;> omega

theorem loopTargetSlot_range (dev : SDL_AudioDevice) :
    loopTargetSlot dev = 0 ∨ loopTargetSlot dev = 1 := by
  unfold loopTargetSlot
  rcases playing_buffer_range dev with h | h <;> rw [h] <;>
    simp only [next_id_zero, next_id_one] <;> split_ifs <;> simp

theorem loopaddr_eq_target (dev : SDL_AudioDevice) (offs : AXVoiceOffsets) (i : Nat) :
    loopaddr { dev with hidden := { dev.hidden with playingid := playing_buffer dev } } offs i =
      ptrAdd (dev.hidden.mixbufs (loopTargetSlot dev))
        ((SDL_AudioSpecGetSamples dev.spec : Int) * sizeof_sample offs * (i : Int)) := by
  unfold loopaddr loopTargetSlot
  split_ifs <;> rfl

theorem end_distance (b n c w i p : Nat) :
    toI32 ((ptrAdd (ptrAdd (b + n * c * w * p) ((n : Int) * (w : Int) * ((i : Int) + 1))) (-2)
      : Int) - ((b + n * i * w : Nat) : Int)) =
    toI32 ((n : Int) * (c : Int) * (w : Int) * (p : Int) + (n : Int) * (w : Int) - 2) := by
  unfold ptrAdd
  rw [toI32_toU32_sub]
  have h1 : ((toU32 (((b + n * c * w * p : Nat) : Int) + (n : Int) * (w : Int) * ((i : Int) + 1))
      : Int) + -2 - ((b + n * i * w : Nat) : Int)) =
      (toU32 (((b + n * c * w * p : Nat) : Int) + (n : Int) * (w : Int) * ((i : Int) + 1)) : Int)
        - (2 + ((b + n * i * w : Nat) : Int)) := by
    ring
  rw [h1, toI32_toU32_sub]
  congr 1
  push_cast
  ring

/-- C23: in a device laid out by `WIIUAUDIO_OpenDevice` (valid spec, voice data
pointers as programmed at open), for every channel `i` the loop offset the callback
programs is `target_slot * frames * channels` and the end offset is a function of the
recorded `playingid`, the frames, the channels and the sample size only; so any two
channels `i` and `j` are programmed the same end offset and the same loop offset. -/
theorem C23_offsets_channel_independent (dev : SDL_AudioDevice) (hop : Opened dev)
    (i j : Nat) (hi : (i : Int) < dev.spec.channels) (hj : (j : Int) < dev.spec.channels) :
    programmedLoopOffset dev i =
      loopTargetSlot dev * SDL_AudioSpecGetSamples dev.spec * dev.spec.channels.toNat ∧
    programmedEndOffset dev i =
      endOffsetValue (_WIIUAUDIO_framecallback dev).hidden.playingid
        (SDL_AudioSpecGetSamples dev.spec) dev.spec.channels.toNat (bytesPerSample dev.spec) ∧
    programmedLoopOffset dev i = programmedLoopOffset dev j ∧
    programmedEndOffset dev i = programmedEndOffset dev j := by
  have key : ∀ k : Nat, (k : Int) < dev.spec.channels →
      programmedLoopOffset dev k =
        loopTargetSlot dev * SDL_AudioSpecGetSamples dev.spec * dev.spec.channels.toNat ∧
      programmedEndOffset dev k =
        endOffsetValue (_WIIUAUDIO_framecallback dev).hidden.playingid
          (SDL_AudioSpecGetSamples dev.spec) dev.spec.channels.toNat
          (bytesPerSample dev.spec) := by
    intro k hk
    have hkc : k < dev.spec.channels.toNat := by omega
    obtain ⟨w, hw, hsz, hbytes, hdata, hsize⟩ := opened_voice dev hop k hkc
    obtain ⟨_, _, _, _, hb, hb32, hfit, hmix, _⟩ := hop
    unfold NUM_BUFFERS at hfit hmix
    rw [hsize] at hfit
    constructor
    · unfold programmedLoopOffset
      rw [framecallback_voice dev k hk]
      simp only [programVoice, calc_ax_offset]
      rw [loopaddr_eq_target, hsz]
      have ht := loopTargetSlot_range dev
      rw [hmix (loopTargetSlot dev) (by omega), hsize]
      simp only [SDL_AudioSpecGetSamples]
      exact loop_offset_eq _ _ _ w k _ _ hw ht hfit hb hb32 hkc hdata
    · unfold programmedEndOffset endOffsetValue
      rw [framecallback_voice dev k hk, framecallback_playingid, hbytes]
      simp only [programVoice, calc_ax_offset, endaddr, hsz, SDL_AudioSpecGetSamples]
      have hp := playing_buffer_range dev
      have hpn : ((playing_buffer dev).toNat : Int) = playing_buffer dev := by
        rcases hp with h | h <;> rw [h] <;> rfl
      rw [hmix (playing_buffer dev).toNat (by rcases hp with h | h <;> rw [h] <;> decide),
        hsize, hdata, end_distance, hpn]
  obtain ⟨hi1, hi2⟩ := key i hi
  obtain ⟨hj1, hj2⟩ := key j hj
  exact ⟨hi1, hi2, by rw [hi1, hj1], by rw [hi2, hj2]⟩

/-- Witness of C23_offsets_channel_independent: the two voices of the stereo 16-bit
device. -/
theorem C23_offsets_channel_independent_witness :
    (Opened stereoDev ∧ ((0 : Nat) : Int) < stereoDev.spec.channels ∧
      ((1 : Nat) : Int) < stereoDev.spec.channels) ∧
    (programmedLoopOffset stereoDev 0 =
      loopTargetSlot stereoDev * SDL_AudioSpecGetSamples stereoDev.spec *
        stereoDev.spec.channels.toNat ∧
    programmedEndOffset stereoDev 0 =
      endOffsetValue (_WIIUAUDIO_framecallback stereoDev).hidden.playingid
        (SDL_AudioSpecGetSamples stereoDev.spec) stereoDev.spec.channels.toNat
        (bytesPerSample stereoDev.spec) ∧
    programmedLoopOffset stereoDev 0 = programmedLoopOffset stereoDev 1 ∧
    programmedEndOffset stereoDev 0 = programmedEndOffset stereoDev 1) :=
  ⟨by decide, C23_offsets_channel_independent stereoDev (by decide) 0 1 (by decide) (by decide)⟩

theorem acquireLoop_voicePtr_before (env : OpenEnv) (spec : SDL_AudioSpec) :
    ∀ (todo i : Nat) (hidden : SDL_PrivateAudioData) (j : Nat), j < i →
      (acquireLoop env spec i todo hidden).2.voicePtr j = hidden.voicePtr j := by
  intro todo
  induction todo with
  | zero => intro i hidden j _; rfl
  | succ todo ih =>
    intro i hidden j hj
    have hne : j ≠ i := by omega
    by_cases h0 : env.AXAcquireVoice i = 0
    · simp [acquireLoop, h0, hne]
    · simp only [acquireLoop, h0, if_false]
      rw [ih (i + 1) _ j (by omega)]
      simp [hne]

/-! ### The layout left by a successful open -/

theorem acquireLoop_layout (env : OpenEnv) (spec : SDL_AudioSpec) :
    ∀ (todo i : Nat) (hidden : SDL_PrivateAudioData),
      (acquireLoop env spec i todo hidden).1 = true →
      (acquireLoop env spec i todo hidden).2.mixbufs = hidden.mixbufs ∧
      (acquireLoop env spec i todo hidden).2.deintvbuf = hidden.deintvbuf ∧
      (∀ j, j < i → (acquireLoop env spec i todo hidden).2.voice j = hidden.voice j) ∧
      (∀ j, i ≤ j → j < i + todo →
        (acquireLoop env spec i todo hidden).2.voice j = openOffsets spec (hidden.mixbufs 0) j ∧
        (acquireLoop env spec i todo hidden).2.voicePtr j = env.AXAcquireVoice j ∧
        env.AXAcquireVoice j ≠ 0) := by
  intro todo
  induction todo with
  | zero =>
    intro i hidden _
    exact ⟨rfl, rfl, fun _ _ => rfl, fun j h1 h2 => absurd h2 (by omega)⟩
  | succ todo ih =>
    intro i hidden hs
    by_cases h0 : env.AXAcquireVoice i = 0
    · simp [acquireLoop, h0] at hs
    · simp only [acquireLoop, h0, if_false] at hs ⊢
      obtain ⟨h1, h2, h3, h4⟩ := ih (i + 1) _ hs
      refine ⟨h1, h2, ?_, ?_⟩
      · intro j hj
        rw [h3 j (by omega)]
        have : j ≠ i := by omega
        simp [this]
      · intro j hj1 hj2
        by_cases hji : j = i
        · subst hji
          refine ⟨?_, ?_, h0⟩
          · rw [h3 j (by omega)]
            simp
          · rw [acquireLoop_voicePtr_before env spec todo (j + 1) _ j (by omega)]
            simp
        · exact h4 j (by omega) (by omega)

theorem negotiate_valid_spec (spec : SDL_AudioSpec) (m : Nat) :
    1 ≤ (WIIUAUDIO_OpenDevice_negotiate spec m).channels ∧
    (WIIUAUDIO_OpenDevice_negotiate spec m).channels ≤ 2 ∧
    (SDL_AUDIO_BITSIZE (WIIUAUDIO_OpenDevice_negotiate spec m).format = 8 ∨
      SDL_AUDIO_BITSIZE (WIIUAUDIO_OpenDevice_negotiate spec m).format = 16) := by
  have hs16 : SDL_AUDIO_BITSIZE AUDIO_S16MSB = 16 := by decide
  simp only [WIIUAUDIO_OpenDevice_negotiate, SDL_CalculateAudioSpec, SDL_AudioSpecGetSamples,
    SDL_AudioSpecSetSamples, WIIU_MAX_VALID_CHANNELS]
  refine ⟨?_, ?_, ?_⟩
  · split_ifs <;> simp_all
  · split_ifs <;> simp_all
  · split_ifs <;> simp_all

theorem ptrAdd_nat (p k : Nat) (h : p + k < 4294967296) : ptrAdd p (k : Int) = p + k := by
  unfold ptrAdd toU32
  omega

/-- A successful `WIIUAUDIO_OpenDevice` whose accepted block is a 32-bit pointer to a
region inside the address space leaves the device in the layout `Opened`. -/
theorem open_success_opened (env : OpenEnv) (dev : SDL_AudioDevice) (m : Mem)
    (hret : (WIIUAUDIO_OpenDevice env dev m).ret = 0)
    (hptr : (openAlloc env dev).2.1.mixbuf < 4294967296)
    (hfits : (openAlloc env dev).2.1.mixbuf + openTotal env dev ≤ 4294967296) :
    Opened (WIIUAUDIO_OpenDevice env dev m).dev := by
  obtain ⟨_, hmix, _, hacq, hhid, hspec, _⟩ := open_success env dev m hret
  obtain ⟨hl1, _, _, hl4⟩ := acquireLoop_layout env _ _ 0 (openHidden env dev) hacq
  have hneg := negotiate_valid_spec dev.spec env.AXGetInputSamplesPerFrame
  obtain ⟨hc1, hc2, hbits⟩ := hneg
  have hsize := negotiate_size dev.spec env.AXGetInputSamplesPerFrame
  unfold Opened
  rw [hhid, hspec]
  unfold openAcquire
  rw [hl1]
  unfold openTotal NUM_BUFFERS at hfits
  generalize hb : (openAlloc env dev).2.1.mixbuf = b at *
  generalize hsp : WIIUAUDIO_OpenDevice_negotiate dev.spec env.AXGetInputSamplesPerFrame = spec at *
  unfold SDL_AudioSpecGetBufferSize bytesPerSample at hsize
  unfold SDL_AudioSpecGetBufferSize at hfits
  have hm0 : (openHidden env dev).mixbufs 0 = b := by
    simp only [openHidden, NUM_BUFFERS, hb, hsp, SDL_AudioSpecGetBufferSize]
    have := ptrAdd_nat b (spec.size * 0) (by omega)
    simpa using this
  have hz : spec.size = 0 ∨ 0 < spec.size := Nat.eq_zero_or_pos _
  have hm1 : (openHidden env dev).mixbufs 1 = b + spec.size := by
    simp only [openHidden, NUM_BUFFERS, hb, hsp, SDL_AudioSpecGetBufferSize]
    have := ptrAdd_nat b (spec.size * 1) (by omega)
    simpa using this
  refine ⟨hc1, hc2, hbits, hsize, ?_, ?_, ?_, ?_, ?_⟩
  · rw [hm0]
    exact Nat.pos_of_ne_zero hmix
  · rw [hm0]
    exact hptr
  · rw [hm0]
    exact hfits
  · intro k hk
    unfold NUM_BUFFERS at hk
    have hk01 : k = 0 ∨ k = 1 := by omega
    rcases hk01 with rfl | rfl
    · rw [hm0]
      simp
    · rw [hm1, hm0]
      simp
  · intro i hi
    obtain ⟨hv, _, _⟩ := hl4 i (Nat.zero_le _) (by omega)
    rw [hv, hm0]
    refine ⟨rfl, ?_⟩
    simp only [openOffsets, SDL_AudioSpecGetSamples]
    have h1 : spec.samples * i + spec.samples ≤ spec.samples * spec.channels.toNat :=
      mul_succ_le _ hi
    have hw : SDL_AUDIO_BITSIZE spec.format / 8 = 1 ∨ SDL_AUDIO_BITSIZE spec.format / 8 = 2 := by
      rcases hbits with h | h <;> simp [h]
    have hne : AX_VOICE_FORMAT_LPCM16 ≠ AX_VOICE_FORMAT_LPCM8 := by decide
    rcases hbits with h8 | h16
    · have hcast : ((spec.samples : Int) * (i : Int) * (if AX_VOICE_FORMAT_LPCM8 =
          AX_VOICE_FORMAT_LPCM8 then 1 else 2)) = ((spec.samples * i * 1 : Nat) : Int) := by
        push_cast
        simp
      simp only [h8, if_true] at hcast ⊢
      rw [hcast, ptrAdd_nat]
      rw [h8] at hsize
      omega
    · have h16' : ¬ SDL_AUDIO_BITSIZE spec.format = 8 := by rw [h16]; decide
      have hcast : ((spec.samples : Int) * (i : Int) * (if AX_VOICE_FORMAT_LPCM16 =
          AX_VOICE_FORMAT_LPCM8 then 1 else 2)) = ((spec.samples * i * 2 : Nat) : Int) := by
        push_cast
        simp [hne]
      simp only [h16', if_false, hne] at hcast ⊢
      rw [hcast, ptrAdd_nat]
      rw [h16] at hsize
      omega

/-- The open of the stereo sample request in which everything succeeds returns 0 and
leaves the layout `Opened`. -/
theorem open_sample_opened :
    (WIIUAUDIO_OpenDevice allSucceed stereoDev sampleMem).ret = 0 ∧
    Opened (WIIUAUDIO_OpenDevice allSucceed stereoDev sampleMem).dev :=
  ⟨by decide, open_success_opened allSucceed stereoDev sampleMem (by decide) (by decide)
    (by decide)⟩

end WiiU
